import Mathlib

/-!
A verification development for the `draw` package of this repository
(the Porter-Duff compositing engine in src/src/pkg/http/cgi/child.go,
lines 200-679 of that file, package `draw`).

The engine's collaborators (the `image` and `image/ycbcr` packages:
geometry types, pixel-buffer types and their `At`/`Set`/`RGBA` methods)
are declared and used by the compositor but their code is not part of
the sampled sources; those definitions are modelled from the spec
(sections 3, 4.1 and 4.4) and are marked `Modelled from the spec:` in
their doc comments.  Everything in namespace `draw` is translated
directly from the `draw` package source.

Representation choices:
- Go `uint8` fields are `Fin 256` (the Go type carries the same bound);
  the conversion `uint8(x)` is `mkU8` (reduction mod 256).
- Go `uint32` values are `Nat`.  Single products and quotients of the
  compositor never exceed 2^32 when the inputs obey the `image.Color`
  contract quoted in the source (`m is the maximum color value returned
  by image.Color.RGBA`); the only expressions that can exceed 2^32 for
  out-of-contract colors, the sums of two products in the blend
  formulas, carry an explicit reduction `u32` (mod 2^32), and the
  narrowing conversions `uint16`/`uint8` carry `u16`/`mkU8`.
- A pixel buffer `Pix []T` with stride indexed as `Pix[y*Stride+x]` is
  represented as a function `Int → Int → T` from the coordinates `(x, y)`;
  the index arithmetic of the loops is carried over on coordinates.
- Go's built-in `copy` on overlapping slices of the same array behaves
  like a copy through a temporary (memmove); `copyRow` models exactly
  that semantics.
- Aliasing of `src` and `dst` (the pointer test `image.Image(dst) == src`)
  is represented by an explicit alternative (`SrcImage.dstItself`) and,
  inside the row/pixel loops, by a flag selecting whether source reads go
  through the evolving buffer.
-/

namespace draw

/-- Modelled from the spec: integer (X,Y) offset (`image.Point`). -/
structure Point where
  x : Int
  y : Int
deriving DecidableEq, Repr

/-- Modelled from the spec: half-open rectangle, Min inclusive, Max
exclusive (`image.Rectangle`). -/
structure Rectangle where
  min : Point
  max : Point
deriving DecidableEq, Repr

/-- Modelled from the spec: the zero point (`image.ZP`). -/
def ZP : Point := ⟨0, 0⟩

/-- Modelled from the spec: the zero rectangle (`image.ZR`). -/
def ZR : Rectangle := ⟨ZP, ZP⟩

/-- Modelled from the spec: point translation (`Point.Add`). -/
def Point.add (p q : Point) : Point := ⟨p.x + q.x, p.y + q.y⟩

/-- Modelled from the spec: point difference (`Point.Sub`). -/
def Point.sub (p q : Point) : Point := ⟨p.x - q.x, p.y - q.y⟩

/-- Modelled from the spec: a rectangle is empty iff Min.X ≥ Max.X or
Min.Y ≥ Max.Y (`Rectangle.Empty`). -/
def Rectangle.isEmpty (r : Rectangle) : Bool :=
  r.min.x ≥ r.max.x || r.min.y ≥ r.max.y

/-- Modelled from the spec: rectangle translation (`Rectangle.Add`). -/
def Rectangle.add (r : Rectangle) (p : Point) : Rectangle :=
  ⟨r.min.add p, r.max.add p⟩

/-- Modelled from the spec: rectangle intersection; the result is
clamped componentwise and normalized to the zero rectangle when the
regions do not overlap (`Rectangle.Intersect`). -/
def Rectangle.intersect (r s : Rectangle) : Rectangle :=
  let t : Rectangle :=
    ⟨⟨Max.max r.min.x s.min.x, Max.max r.min.y s.min.y⟩,
     ⟨Min.min r.max.x s.max.x, Min.min r.max.y s.max.y⟩⟩
  if t.isEmpty then ZR else t

/-- Modelled from the spec: two rectangles overlap iff they share a
point (`Rectangle.Overlaps`). -/
def Rectangle.overlaps (r s : Rectangle) : Bool :=
  r.min.x < s.max.x && s.min.x < r.max.x &&
  r.min.y < s.max.y && s.min.y < r.max.y

/-- Membership of a point in a half-open rectangle. -/
def Rectangle.mem (r : Rectangle) (x y : Int) : Prop :=
  r.min.x ≤ x ∧ x < r.max.x ∧ r.min.y ≤ y ∧ y < r.max.y

instance (r : Rectangle) (x y : Int) : Decidable (r.mem x y) := by
  unfold Rectangle.mem; infer_instance

/-- `m` is the maximum color value returned by image.Color.RGBA
(source line 216). -/
def m : Nat := 65535

/-- Reduction of a Go `uint32` expression that may overflow. -/
def u32 (n : Nat) : Nat := n % 4294967296

/-- The Go conversion `uint16(x)`. -/
def u16 (n : Nat) : Nat := n % 65536

/-- The Go conversion `uint8(x)` (to a `Fin 256` field). -/
def mkU8 (n : Nat) : Fin 256 := ⟨n % 256, Nat.mod_lt n (by decide)⟩

/-- Op is a Porter-Duff compositing operator (source lines 218-226). -/
inductive Op where
  | Over
  | Src
deriving DecidableEq, Repr

/-- Modelled from the spec: the value of `image.Color.RGBA()` — an
alpha-premultiplied quadruple of 16-bit channels held in `uint32`s. -/
structure Color16 where
  r : Nat
  g : Nat
  b : Nat
  a : Nat
deriving DecidableEq, Repr

/-- The premultiplied-color contract of the data model: each channel is
at most the alpha channel, and alpha is at most `m`. -/
def Color16.valid (c : Color16) : Prop :=
  c.r ≤ c.a ∧ c.g ≤ c.a ∧ c.b ≤ c.a ∧ c.a ≤ m

instance (c : Color16) : Decidable c.valid := by
  unfold Color16.valid; infer_instance

/-- zeroColor as a 16-bit color: `image.AlphaColor{0}.RGBA()`
(source line 228). -/
def zeroColor16 : Color16 := ⟨0, 0, 0, 0⟩

/-- Modelled from the spec: `image.RGBAColor`, an alpha-premultiplied
pixel of four `uint8` channels. -/
structure RGBAColor where
  r : Fin 256
  g : Fin 256
  b : Fin 256
  a : Fin 256
deriving DecidableEq, Repr

/-- Modelled from the spec: `image.RGBAColor.RGBA()` widens each 8-bit
channel onto the 16-bit range (`r |= r << 8`, i.e. times 0x101). -/
def RGBAColor.rgba (c : RGBAColor) : Color16 :=
  ⟨c.r.val * 0x101, c.g.val * 0x101, c.b.val * 0x101, c.a.val * 0x101⟩

/-- The premultiplied invariant at 8 bits: each color channel is at most
the alpha channel. -/
def RGBAColor.premult (c : RGBAColor) : Prop :=
  c.r.val ≤ c.a.val ∧ c.g.val ≤ c.a.val ∧ c.b.val ≤ c.a.val

instance (c : RGBAColor) : Decidable c.premult := by
  unfold RGBAColor.premult; infer_instance

/-- Modelled from the spec: `image.NRGBAColor`, a non-premultiplied
pixel of four `uint8` channels. -/
structure NRGBAColor where
  r : Fin 256
  g : Fin 256
  b : Fin 256
  a : Fin 256
deriving DecidableEq, Repr

/-- Modelled from the spec: `image.NRGBAColor.RGBA()` converts to
premultiplied 16-bit form — each channel is widened by 0x101 then
multiplied by alpha and divided by 0xff, and alpha is widened by 0x101
(the source comments at lines 452-453 and 569-570 fix this order of
operations). -/
def NRGBAColor.rgba (c : NRGBAColor) : Color16 :=
  ⟨c.r.val * 0x101 * c.a.val / 0xff,
   c.g.val * 0x101 * c.a.val / 0xff,
   c.b.val * 0x101 * c.a.val / 0xff,
   c.a.val * 0x101⟩

/-- Modelled from the spec: `image.AlphaColor`, a single-channel
coverage pixel. -/
structure AlphaColor where
  a : Fin 256
deriving DecidableEq, Repr

/-- Modelled from the spec: the alpha channel of
`image.AlphaColor.RGBA()` (widened by 0x101). -/
def AlphaColor.alpha16 (c : AlphaColor) : Nat := c.a.val * 0x101

/-- An RGBA pixel buffer: `Pix[y*Stride+x]` read at coordinates. -/
def RGBABuf : Type := Int → Int → RGBAColor

/-- A generic destination's pixel state: the colors its `Set` has
stored, read back by its `At`. -/
def Color16Buf : Type := Int → Int → Color16

/-- Writing one pixel of an RGBA buffer (`dpix[i] = ...`). -/
def writePix (b : RGBABuf) (x y : Int) (c : RGBAColor) : RGBABuf :=
  fun x' y' => if x' = x ∧ y' = y then c else b x' y'

/-- Writing one pixel of a generic destination (`dst.Set(x, y, c)`). -/
def writePix16 (b : Color16Buf) (x y : Int) (c : Color16) : Color16Buf :=
  fun x' y' => if x' = x ∧ y' = y then c else b x' y'

/-- The values taken by a loop variable `for v := a; ...; v += d` over
`n` iterations. -/
def intRange (a d : Int) (n : Nat) : List Int :=
  (List.range n).map (fun i : Nat => a + d * (i : Int))

/-- Iteration count of `for v := a; v != b; v += d` with `d = ±1` and
`b - a` of matching sign. -/
def loopCount (a b d : Int) : Nat := ((b - a) * d).toNat

/-- The shared blend of drawFillOver (lines 380-386) and drawCopyOver
(lines 425-437): destination attenuated by `(m - sa) * 0x101` plus the
premultiplied source, narrowed back to 8 bits by `uint8(dr >> 8)`.
Singleton products stay below 2^32 because the 8-bit destination fields
are bounded by their type; `m - s.a` is exact under the `image.Color`
contract `s.a ≤ m`. -/
def blendOverPixel (s : Color16) (d : RGBAColor) : RGBAColor :=
  let a := (m - s.a) * 0x101
  let dr := d.r.val * a / m + s.r
  let dg := d.g.val * a / m + s.g
  let db := d.b.val * a / m + s.b
  let da := d.a.val * a / m + s.a
  ⟨mkU8 (dr / 256), mkU8 (dg / 256), mkU8 (db / 256), mkU8 (da / 256)⟩

/-- drawFillOver (source lines 371-388): blend a constant color over
every destination pixel of `r`, rows top-down, columns left-to-right. -/
def drawFillOver (dst : RGBABuf) (r : Rectangle) (src : Color16) : RGBABuf :=
  let x0 := r.min.x
  let x1 := r.max.x
  let y0 := r.min.y
  let y1 := r.max.y
  (intRange y0 1 (loopCount y0 y1 1)).foldl (fun b y =>
    (intRange x0 1 (loopCount x0 x1 1)).foldl (fun b x =>
      writePix b x y (blendOverPixel src (b x y))) b) dst

/-- drawCopyOver (source lines 390-444): per-pixel Over blend of one
RGBA buffer into another.  When the source start point is higher than
the destination start point, or equal height but to the left, rows and
columns are processed bottom-up/right-to-left.  `srcIsDst` models the
case where `src` and `dst` are the same buffer: source reads then go
through the evolving buffer. -/
def drawCopyOver (dst : RGBABuf) (r : Rectangle) (srcIsDst : Bool)
    (src : RGBABuf) (sp : Point) : RGBABuf :=
  let dx0 := r.min.x
  let dx1 := r.max.x
  let dy0 := r.min.y
  let dy1 := r.max.y
  let nrows := (dy1 - dy0).toNat
  let w := (dx1 - dx0).toNat
  let forward : Bool := dy0 < sp.y || (dy0 = sp.y && dx0 ≤ sp.x)
  let iList : List Int := if forward then intRange 0 1 w else intRange ((w : Int) - 1) (-1) w
  (List.range nrows).foldl (fun (b : RGBABuf) (k : Nat) =>
    let off : Int := if forward then (k : Int) else ((nrows : Int) - 1 - (k : Int))
    let y := dy0 + off
    let sy := sp.y + off
    iList.foldl (fun b i =>
      let s := if srcIsDst then (b (sp.x + i) sy).rgba else (src (sp.x + i) sy).rgba
      writePix b (dx0 + i) y (blendOverPixel s (b (dx0 + i) y))) b) dst

/-- The source conversion of drawNRGBAOver/drawNRGBASrc (lines 454-459,
571-576), identical to `NRGBAColor.rgba`. -/
def nrgbaToPremult (c : NRGBAColor) : Color16 :=
  let sa := c.a.val
  let sr := c.r.val * 0x101 * sa / 0xff
  let sg := c.g.val * 0x101 * sa / 0xff
  let sb := c.b.val * 0x101 * sa / 0xff
  ⟨sr, sg, sb, sa * 0x101⟩

/-- The blend of drawNRGBAOver (lines 461-471): `(dr*a + sr*m) / m` on
each channel.  The sum of products wraps at 2^32 in Go, hence `u32`. -/
def nrgbaOverPixel (s : Color16) (d : RGBAColor) : RGBAColor :=
  let a := (m - s.a) * 0x101
  let dr := u32 (d.r.val * a + s.r * m) / m
  let dg := u32 (d.g.val * a + s.g * m) / m
  let db := u32 (d.b.val * a + s.b * m) / m
  let da := u32 (d.a.val * a + s.a * m) / m
  ⟨mkU8 (dr / 256), mkU8 (dg / 256), mkU8 (db / 256), mkU8 (da / 256)⟩

/-- drawNRGBAOver (source lines 446-474). -/
def drawNRGBAOver (dst : RGBABuf) (r : Rectangle)
    (src : Int → Int → NRGBAColor) (sp : Point) : RGBABuf :=
  (intRange r.min.y 1 (loopCount r.min.y r.max.y 1)).foldl (fun b y =>
    let sy := sp.y + (y - r.min.y)
    (intRange r.min.x 1 (loopCount r.min.x r.max.x 1)).foldl (fun b x =>
      let sx := sp.x + (x - r.min.x)
      let s := nrgbaToPremult (src sx sy)
      writePix b x y (nrgbaOverPixel s (b x y))) b) dst

/-- The blend of drawGlyphOver (lines 490-501): constant source color
attenuated by the mask coverage `ma`. -/
def glyphOverPixel (c : Color16) (ma : Nat) (d : RGBAColor) : RGBAColor :=
  let a := (m - u32 (c.a * ma) / m) * 0x101
  let dr := u32 (d.r.val * a + c.r * ma) / m
  let dg := u32 (d.g.val * a + c.g * ma) / m
  let db := u32 (d.b.val * a + c.b * ma) / m
  let da := u32 (d.a.val * a + c.a * ma) / m
  ⟨mkU8 (dr / 256), mkU8 (dg / 256), mkU8 (db / 256), mkU8 (da / 256)⟩

/-- drawGlyphOver (source lines 476-504): a solid color through an
8-bit coverage mask; pixels with zero coverage are skipped and the
coverage is widened by `ma |= ma << 8`. -/
def drawGlyphOver (dst : RGBABuf) (r : Rectangle) (src : Color16)
    (mask : Int → Int → AlphaColor) (mp : Point) : RGBABuf :=
  let x0 := r.min.x
  let x1 := r.max.x
  let y0 := r.min.y
  let y1 := r.max.y
  (intRange y0 1 (loopCount y0 y1 1)).foldl (fun b y =>
    let my := mp.y + (y - y0)
    (intRange 0 1 (x1 - x0).toNat).foldl (fun b i =>
      let ma := (mask (mp.x + i) my).a.val
      if ma = 0 then b
      else
        let ma := ma ||| (ma <<< 8)
        writePix b (x0 + i) y (glyphOverPixel src ma (b (x0 + i) y))) b) dst

/-- The color stored by drawFillSrc (line 511) and drawNRGBASrc
(line 578): `{uint8(cr >> 8), uint8(cg >> 8), uint8(cb >> 8),
uint8(ca >> 8)}`. -/
def rgba8OfColor16 (c : Color16) : RGBAColor :=
  ⟨mkU8 (c.r / 256), mkU8 (c.g / 256), mkU8 (c.b / 256), mkU8 (c.a / 256)⟩

/-- The effect of the built-in `copy(dst.Pix[d0:d1], src.Pix[s0:s1])`
on one row: Go's `copy` tolerates overlapping slices of one array and
behaves like a copy through a temporary, so every read sees the state
before the copy. -/
def copyRow (src : RGBABuf) (b : RGBABuf) (dx0 dy sx0 sy : Int)
    (w : Nat) : RGBABuf :=
  fun x y =>
    if y = dy ∧ dx0 ≤ x ∧ x < dx0 + (w : Int) then src (sx0 + (x - dx0)) sy
    else b x y

/-- drawFillSrc (source lines 506-528): overwrite every pixel of `r`
with the constant color; the first row is written pixel by pixel and
then duplicated to the remaining rows with `copy`. -/
def drawFillSrc (dst : RGBABuf) (r : Rectangle) (src : Color16) : RGBABuf :=
  if r.max.y - r.min.y < 1 then dst
  else
    let color := rgba8OfColor16 src
    let dx0 := r.min.x
    let dx1 := r.max.x
    let dy0 := r.min.y
    let dy1 := r.max.y
    let w := (dx1 - dx0).toNat
    let b1 := (intRange dx0 1 w).foldl (fun b x => writePix b x dy0 color) dst
    (intRange (dy0 + 1) 1 (dy1 - (dy0 + 1)).toNat).foldl
      (fun b y => copyRow b b dx0 y dx0 dy0 w) b1

/-- drawCopySrc (source lines 530-561): row-wise raw copy with `copy`;
rows are processed bottom-up when the source start point is higher than
the destination start point.  `srcIsDst` models `src` and `dst` being
the same buffer: each row copy then reads the evolving buffer
(overlap within one row is safe because `copyRow` reads the pre-copy
state, as Go's `copy` does). -/
def drawCopySrc (dst : RGBABuf) (r : Rectangle) (srcIsDst : Bool)
    (src : RGBABuf) (sp : Point) : RGBABuf :=
  let dx0 := r.min.x
  let dx1 := r.max.x
  let dy0 := r.min.y
  let dy1 := r.max.y
  let nrows := (dy1 - dy0).toNat
  let w := (dx1 - dx0).toNat
  let forward : Bool := decide (dy0 ≤ sp.y)
  (List.range nrows).foldl (fun (b : RGBABuf) (k : Nat) =>
    let off : Int := if forward then (k : Int) else ((nrows : Int) - 1 - (k : Int))
    let y := dy0 + off
    let sy := sp.y + off
    copyRow (if srcIsDst then b else src) b dx0 y sp.x sy w) dst

/-- drawNRGBASrc (source lines 563-581): per-pixel conversion from
non-premultiplied to premultiplied form, written directly. -/
def drawNRGBASrc (dst : RGBABuf) (r : Rectangle)
    (src : Int → Int → NRGBAColor) (sp : Point) : RGBABuf :=
  (intRange r.min.y 1 (loopCount r.min.y r.max.y 1)).foldl (fun b y =>
    let sy := sp.y + (y - r.min.y)
    (intRange r.min.x 1 (loopCount r.min.x r.max.x 1)).foldl (fun b x =>
      let sx := sp.x + (x - r.min.x)
      writePix b x y (rgba8OfColor16 (nrgbaToPremult (src sx sy)))) b) dst

/-- Modelled from the spec: the subsampling kinds of `ycbcr.YCbCr`
(full resolution, horizontal-only halving, both-axes halving) as the
values of an integer field. -/
def ss444 : Int := 0

/-- Modelled from the spec: the 4:2:2 subsampling kind. -/
def ss422 : Int := 1

/-- Modelled from the spec: the 4:2:0 subsampling kind. -/
def ss420 : Int := 2

/-- Modelled from the spec: a chroma-subsampled image of three sample
planes.  `Y[sy*YStride+sx]` is read as `yPl sx sy`, and
`Cb[j*CStride+i]` as `cbPl i j`. -/
structure YCbCrImage where
  yPl : Int → Int → Fin 256
  cbPl : Int → Int → Fin 256
  crPl : Int → Int → Fin 256
  subsample : Int
  rect : Rectangle

/-- drawYCbCr (source lines 583-628), parameterized by the
luma/chroma-to-RGB conversion `ycbcr.YCbCrToRGB` (uint8 triple to uint8
triple), whose code is outside the sampled sources. -/
def drawYCbCr (toRGB : Fin 256 → Fin 256 → Fin 256 → Fin 256 × Fin 256 × Fin 256)
    (dst : RGBABuf) (r : Rectangle) (src : YCbCrImage) (sp : Point) : RGBABuf :=
  if src.subsample = ss422 then
    (intRange r.min.y 1 (loopCount r.min.y r.max.y 1)).foldl (fun b y =>
      let sy := sp.y + (y - r.min.y)
      (intRange r.min.x 1 (loopCount r.min.x r.max.x 1)).foldl (fun b x =>
        let sx := sp.x + (x - r.min.x)
        let i := sx.tdiv 2
        let (rr, gg, bb) := toRGB (src.yPl sx sy) (src.cbPl i sy) (src.crPl i sy)
        writePix b x y ⟨rr, gg, bb, 255⟩) b) dst
  else if src.subsample = ss420 then
    (intRange r.min.y 1 (loopCount r.min.y r.max.y 1)).foldl (fun b y =>
      let sy := sp.y + (y - r.min.y)
      (intRange r.min.x 1 (loopCount r.min.x r.max.x 1)).foldl (fun b x =>
        let sx := sp.x + (x - r.min.x)
        let i := sx.tdiv 2
        let j := sy.tdiv 2
        let (rr, gg, bb) := toRGB (src.yPl sx sy) (src.cbPl i j) (src.crPl i j)
        writePix b x y ⟨rr, gg, bb, 255⟩) b) dst
  else
    (intRange r.min.y 1 (loopCount r.min.y r.max.y 1)).foldl (fun b y =>
      let sy := sp.y + (y - r.min.y)
      (intRange r.min.x 1 (loopCount r.min.x r.max.x 1)).foldl (fun b x =>
        let sx := sp.x + (x - r.min.x)
        let (rr, gg, bb) := toRGB (src.yPl sx sy) (src.cbPl sx sy) (src.crPl sx sy)
        writePix b x y ⟨rr, gg, bb, 255⟩) b) dst

/-- The mask coverage of the generic loops: `ma := m` when the mask is
nil, else the mask's alpha at `(mx, my)` (source lines 647-650). -/
def maskAlphaOr (mask : Option (Int → Int → Nat)) (mx my : Int) : Nat :=
  match mask with
  | none => m
  | some f => f mx my

/-- The per-pixel computation of drawRGBA (source lines 647-676). -/
def drawRGBAPixel (op : Op) (ma : Nat) (s : Color16) (d : RGBAColor) : RGBAColor :=
  match op with
  | .Over =>
    let a := (m - u32 (s.a * ma) / m) * 0x101
    let dr := u32 (d.r.val * a + s.r * ma) / m
    let dg := u32 (d.g.val * a + s.g * ma) / m
    let db := u32 (d.b.val * a + s.b * ma) / m
    let da := u32 (d.a.val * a + s.a * ma) / m
    ⟨mkU8 (dr / 256), mkU8 (dg / 256), mkU8 (db / 256), mkU8 (da / 256)⟩
  | .Src =>
    let dr := u32 (s.r * ma) / m
    let dg := u32 (s.g * ma) / m
    let db := u32 (s.b * ma) / m
    let da := u32 (s.a * ma) / m
    ⟨mkU8 (dr / 256), mkU8 (dg / 256), mkU8 (db / 256), mkU8 (da / 256)⟩

/-- The traversal-direction decision shared by DrawMask's generic loop
(line 321) and drawRGBA (line 634): process backward when the source
start point is above the destination start point, or on the same row
but to its left. -/
def backwardCond (r : Rectangle) (sp : Point) : Bool :=
  sp.y < r.min.y || (sp.y = r.min.y && sp.x < r.min.x)

/-- The loop bounds and steps `(x0, x1, dx), (y0, y1, dy)` of the
generic loops (source lines 317-325 and 631-638): ascending by default,
descending on both axes when `backward`. -/
def loopTriples (r : Rectangle) (backward : Bool) :
    (Int × Int × Int) × (Int × Int × Int) :=
  if backward then
    ((r.max.x - 1, r.min.x - 1, -1), (r.max.y - 1, r.min.y - 1, -1))
  else
    ((r.min.x, r.max.x, 1), (r.min.y, r.max.y, 1))

/-- drawRGBA (source lines 630-679), the generic compositor specialized
to an RGBA destination.  `srcIsDst` models `image.Image(dst) == src`;
when it holds, source reads go through the evolving buffer and `srcAt`
is unused. -/
def drawRGBA (dst : RGBABuf) (r : Rectangle) (srcIsDst : Bool)
    (srcAt : Int → Int → Color16) (sp : Point)
    (mask : Option (Int → Int → Nat)) (mp : Point) (op : Op) : RGBABuf :=
  let backward := srcIsDst && r.overlaps (r.add (sp.sub r.min)) && backwardCond r sp
  let t := loopTriples r backward
  let x0 := t.1.1
  let x1 := t.1.2.1
  let dx := t.1.2.2
  let y0 := t.2.1
  let y1 := t.2.2.1
  let dy := t.2.2.2
  (intRange y0 dy (loopCount y0 y1 dy)).foldl (fun b y =>
    let sy := sp.y + y - r.min.y
    let my := mp.y + y - r.min.y
    (intRange x0 dx (loopCount x0 x1 dx)).foldl (fun b x =>
      let sx := sp.x + x - r.min.x
      let mx := mp.x + x - r.min.x
      let ma := maskAlphaOr mask mx my
      let s := if srcIsDst then (b sx sy).rgba else srcAt sx sy
      writePix b x y (drawRGBAPixel op ma s (b x y))) b) dst

/-- The blend formulas of DrawMask's generic loop (source lines
352-364), on 16-bit channels, narrowed by `uint16`. -/
def genericBlendPixel (op : Op) (ma : Nat) (s d : Color16) : Color16 :=
  match op with
  | .Over =>
    let a := m - u32 (s.a * ma) / m
    ⟨u16 (u32 (d.r * a + s.r * ma) / m),
     u16 (u32 (d.g * a + s.g * ma) / m),
     u16 (u32 (d.b * a + s.b * ma) / m),
     u16 (u32 (d.a * a + s.a * ma) / m)⟩
  | .Src =>
    ⟨u16 (u32 (s.r * ma) / m),
     u16 (u32 (s.g * ma) / m),
     u16 (u32 (s.b * ma) / m),
     u16 (u32 (s.a * ma) / m)⟩

/-- The switch of DrawMask's generic loop (source lines 338-366): the
value stored by `dst.Set` at one pixel, or `none` for the `ma == 0`,
Over no-op. -/
def genericStep (op : Op) (ma : Nat) (s d : Color16) : Option Color16 :=
  if ma = 0 then
    match op with
    | .Over => none
    | .Src => some zeroColor16
  else if ma = m ∧ op = Op.Src then some s
  else some (genericBlendPixel op ma s d)

/-- DrawMask's generic loop for a destination that is not an RGBA
buffer (source lines 317-368), over the destination's stored colors.
`srcIsDst` models `image.Image(dst) == src`. -/
def drawGeneric (dst : Color16Buf) (r : Rectangle) (srcIsDst : Bool)
    (srcAt : Int → Int → Color16) (sp : Point)
    (mask : Option (Int → Int → Nat)) (mp : Point) (op : Op) : Color16Buf :=
  let backward := srcIsDst && r.overlaps (r.add (sp.sub r.min)) && backwardCond r sp
  let t := loopTriples r backward
  let x0 := t.1.1
  let x1 := t.1.2.1
  let dx := t.1.2.2
  let y0 := t.2.1
  let y1 := t.2.2.1
  let dy := t.2.2.2
  (intRange y0 dy (loopCount y0 y1 dy)).foldl (fun b y =>
    let sy := sp.y + y - r.min.y
    let my := mp.y + y - r.min.y
    (intRange x0 dx (loopCount x0 x1 dx)).foldl (fun b x =>
      let sx := sp.x + x - r.min.x
      let mx := mp.x + x - r.min.x
      let ma := maskAlphaOr mask mx my
      let s := if srcIsDst then b sx sy else srcAt sx sy
      match genericStep op ma s (b x y) with
      | none => b
      | some c => writePix16 b x y c) b) dst

/-- Modelled from the spec: `*image.RGBA`, a packed premultiplied
8-bit-per-channel buffer with its bounding rectangle. -/
structure RGBAImage where
  pix : RGBABuf
  rect : Rectangle

/-- Modelled from the spec: `*image.NRGBA`, a packed non-premultiplied
8-bit-per-channel buffer. -/
structure NRGBAImage where
  pix : Int → Int → NRGBAColor
  rect : Rectangle

/-- Modelled from the spec: `*image.Alpha`, a single-channel coverage
buffer. -/
structure AlphaImage where
  pix : Int → Int → AlphaColor
  rect : Rectangle

/-- Modelled from the spec: the bounds of `*image.ColorImage`, a
solid-color source covering effectively all coordinates. -/
def colorImageBounds : Rectangle :=
  ⟨⟨-1000000000, -1000000000⟩, ⟨1000000000, 1000000000⟩⟩

/-- The concrete kinds of source image the dispatcher distinguishes,
plus a `generic` alternative for any other `image.Image`.  `dstItself`
stands for passing the destination image itself as the source (the
case the code detects with `image.Image(dst) == src`). -/
inductive SrcImage where
  | colorImage (c : Color16)
  | rgba (im : RGBAImage)
  | dstItself
  | nrgba (im : NRGBAImage)
  | ycbcrSrc (im : YCbCrImage)
  | generic (bnds : Rectangle) (colorAt : Int → Int → Color16)

/-- Whether the source is the destination image itself. -/
def SrcImage.isSelf : SrcImage → Bool
  | .dstItself => true
  | _ => false

/-- The mask kinds: a concrete `*image.Alpha`, or any other
`image.Image` of which only the coverage alpha is read. -/
inductive MaskImage where
  | alpha (im : AlphaImage)
  | genericMask (bnds : Rectangle) (alphaAt : Int → Int → Nat)

/-- The destination: an `*image.RGBA` (the kind the dispatcher
specializes for), or any other `draw.Image`, modelled by the colors its
`Set` has stored. -/
inductive DstImage where
  | rgbaDst (im : RGBAImage)
  | genericDst (bnds : Rectangle) (pix : Color16Buf)

/-- `dst.Bounds()`. -/
def DstImage.bounds : DstImage → Rectangle
  | .rgbaDst im => im.rect
  | .genericDst bnds _ => bnds

/-- `src.Bounds()`; the bounds of `dstItself` are the destination's. -/
def SrcImage.boundsIn (dstB : Rectangle) : SrcImage → Rectangle
  | .colorImage _ => colorImageBounds
  | .rgba im => im.rect
  | .dstItself => dstB
  | .nrgba im => im.rect
  | .ycbcrSrc im => im.rect
  | .generic bnds _ => bnds

/-- `mask.Bounds()`. -/
def MaskImage.bounds : MaskImage → Rectangle
  | .alpha im => im.rect
  | .genericMask bnds _ => bnds

/-- Modelled from the spec: `ycbcr.YCbCr.At` — the chroma sample is
selected by the subsampling kind's index arithmetic, converted to RGB
by `toRGB` and widened; a YCbCr image is always fully opaque. -/
def ycbcrAt (toRGB : Fin 256 → Fin 256 → Fin 256 → Fin 256 × Fin 256 × Fin 256)
    (im : YCbCrImage) (x y : Int) : Color16 :=
  let ij : Int × Int :=
    if im.subsample = ss422 then (x.tdiv 2, y)
    else if im.subsample = ss420 then (x.tdiv 2, y.tdiv 2)
    else (x, y)
  let c := toRGB (im.yPl x y) (im.cbPl ij.1 ij.2) (im.crPl ij.1 ij.2)
  ⟨c.1.val * 0x101, c.2.1.val * 0x101, c.2.2.val * 0x101, 0xffff⟩

/-- `src.At(x, y).RGBA()` for a source that is not the destination
itself (for `dstItself` the reads go through the evolving destination
buffer inside the loops, and this reader is unused). -/
def SrcImage.at16 (toRGB : Fin 256 → Fin 256 → Fin 256 → Fin 256 × Fin 256 × Fin 256) :
    SrcImage → Int → Int → Color16
  | .colorImage c => fun _ _ => c
  | .rgba im => fun x y => (im.pix x y).rgba
  | .dstItself => fun _ _ => zeroColor16
  | .nrgba im => fun x y => (im.pix x y).rgba
  | .ycbcrSrc im => fun x y => ycbcrAt toRGB im x y
  | .generic _ colorAt => colorAt

/-- The mask coverage reader `mask.At(mx, my).RGBA()`s alpha. -/
def MaskImage.alphaAt16 : MaskImage → Int → Int → Nat
  | .alpha im => fun x y => (im.pix x y).alpha16
  | .genericMask _ alphaAt => alphaAt

/-- clip (source lines 241-260): clips `r` against each image's bounds
(after translating into the destination's coordinate space) and shifts
`sp` and `mp` by the same amount as the change in `r.Min`. -/
def clip (dstB : Rectangle) (r : Rectangle) (srcB : Rectangle) (sp : Point)
    (maskB : Option Rectangle) (mp : Point) : Rectangle × Point × Point :=
  let orig := r.min
  let r1 := r.intersect dstB
  let r2 := r1.intersect (srcB.add (orig.sub sp))
  let r3 := match maskB with
    | none => r2
    | some mb => r2.intersect (mb.add (orig.sub mp))
  let dx := r3.min.x - orig.x
  let dy := r3.min.y - orig.y
  if dx = 0 ∧ dy = 0 then (r3, sp, mp)
  else (r3, ⟨sp.x + dx, sp.y + dy⟩, ⟨mp.x + dx, mp.y + dy⟩)

/-- DrawMask (source lines 262-369): clip, dispatch to a fast path on
an RGBA destination when the operator, mask presence and concrete
source kind match, fall back to drawRGBA otherwise, and run the general
loop for any other destination kind. -/
def DrawMask (toRGB : Fin 256 → Fin 256 → Fin 256 → Fin 256 × Fin 256 × Fin 256)
    (dst : DstImage) (r : Rectangle) (src : SrcImage) (sp : Point)
    (mask : Option MaskImage) (mp : Point) (op : Op) : DstImage :=
  let dstB := dst.bounds
  let c := clip dstB r (src.boundsIn dstB) sp (mask.map MaskImage.bounds) mp
  let r := c.1
  let sp := c.2.1
  let mp := c.2.2
  if r.isEmpty then dst
  else
    match dst with
    | .rgbaDst im =>
      let newPix : RGBABuf :=
        match op, mask, src with
        | .Over, none, .colorImage cc => drawFillOver im.pix r cc
        | .Over, none, .rgba s => drawCopyOver im.pix r false s.pix sp
        | .Over, none, .dstItself => drawCopyOver im.pix r true im.pix sp
        | .Over, none, .nrgba s => drawNRGBAOver im.pix r s.pix sp
        | .Over, none, .ycbcrSrc s => drawYCbCr toRGB im.pix r s sp
        | .Over, some (.alpha am), .colorImage cc => drawGlyphOver im.pix r cc am.pix mp
        | .Src, none, .colorImage cc => drawFillSrc im.pix r cc
        | .Src, none, .rgba s => drawCopySrc im.pix r false s.pix sp
        | .Src, none, .dstItself => drawCopySrc im.pix r true im.pix sp
        | .Src, none, .nrgba s => drawNRGBASrc im.pix r s.pix sp
        | .Src, none, .ycbcrSrc s => drawYCbCr toRGB im.pix r s sp
        | _, _, _ =>
          drawRGBA im.pix r src.isSelf (src.at16 toRGB) sp
            (mask.map MaskImage.alphaAt16) mp op
      .rgbaDst ⟨newPix, im.rect⟩
    | .genericDst bnds pixmap =>
      .genericDst bnds
        (drawGeneric pixmap r src.isSelf (src.at16 toRGB) sp
          (mask.map MaskImage.alphaAt16) mp op)

/-- Draw (source lines 236-239): DrawMask with a nil mask and an Over
op. -/
def Draw (toRGB : Fin 256 → Fin 256 → Fin 256 → Fin 256 × Fin 256 × Fin 256)
    (dst : DstImage) (r : Rectangle) (src : SrcImage) (sp : Point) : DstImage :=
  DrawMask toRGB dst r src sp none ZP Op.Over

/-- The spec's Generic Compositor as the reference implementation for
the refinement claim: identical to `DrawMask` but with the fast-path
dispatch removed — an RGBA destination always runs the generic
per-pixel loop `drawRGBA`. -/
def DrawMaskGeneric (toRGB : Fin 256 → Fin 256 → Fin 256 → Fin 256 × Fin 256 × Fin 256)
    (dst : DstImage) (r : Rectangle) (src : SrcImage) (sp : Point)
    (mask : Option MaskImage) (mp : Point) (op : Op) : DstImage :=
  let dstB := dst.bounds
  let c := clip dstB r (src.boundsIn dstB) sp (mask.map MaskImage.bounds) mp
  let r := c.1
  let sp := c.2.1
  let mp := c.2.2
  if r.isEmpty then dst
  else
    match dst with
    | .rgbaDst im =>
      .rgbaDst ⟨drawRGBA im.pix r src.isSelf (src.at16 toRGB) sp
        (mask.map MaskImage.alphaAt16) mp op, im.rect⟩
    | .genericDst bnds pixmap =>
      .genericDst bnds
        (drawGeneric pixmap r src.isSelf (src.at16 toRGB) sp
          (mask.map MaskImage.alphaAt16) mp op)

/-- The destination's pixels as an `*image.RGBA` buffer, when it is
one (a projection for stating pixel-level equalities). -/
def DstImage.pix8 : DstImage → Option RGBABuf
  | .rgbaDst im => some im.pix
  | .genericDst _ _ => none

/-- `dst.At(x, y).RGBA()`: the destination pixel as seen through the
pixel-access contract. -/
def DstImage.at16 : DstImage → Int → Int → Color16
  | .rgbaDst im => fun x y => (im.pix x y).rgba
  | .genericDst _ pixmap => pixmap

/-! ### Loop infrastructure: pointwise characterizations of the passes -/

/-- Writing one cell of a coordinate-indexed store (the common shape of
`writePix` and `writePix16`). -/
def pwrite {β : Type} (b : Int → Int → β) (x y : Int) (c : β) : Int → Int → β :=
  fun x' y' => if x' = x ∧ y' = y then c else b x' y'

theorem writePix_eq_pwrite : @writePix = @pwrite RGBAColor := rfl

theorem writePix16_eq_pwrite : @writePix16 = @pwrite Color16 := rfl

theorem pwrite_at {β : Type} (b : Int → Int → β) (x y : Int) (c : β) :
    pwrite b x y c x y = c := by
  simp [pwrite]

theorem pwrite_ne {β : Type} (b : Int → Int → β) (x y : Int) (c : β)
    (u v : Int) (h : ¬(u = x ∧ v = y)) : pwrite b x y c u v = b u v := by
  simp [pwrite, h]

/-- A per-pixel pass: at each listed pixel, write a value computed from
the current cell and the cell shifted by `(sdx, sdy)` in the evolving
buffer. -/
def passW {β : Type} (f : Int → Int → β → β → β) (sdx sdy : Int)
    (ps : List (Int × Int)) (b : Int → Int → β) : Int → Int → β :=
  ps.foldl (fun b p => pwrite b p.1 p.2 (f p.1 p.2 (b p.1 p.2) (b (p.1 + sdx) (p.2 + sdy)))) b

/-- If no pixel's shifted read position coincides with an
earlier-written pixel, the pass reads only original values, so its
result is the pointwise image of the starting buffer. -/
theorem passW_fresh {β : Type} (f : Int → Int → β → β → β) (sdx sdy : Int)
    (ps : List (Int × Int)) (b : Int → Int → β)
    (hnd : ps.Nodup)
    (hfr : ps.Pairwise (fun p q => ¬(q.1 + sdx = p.1 ∧ q.2 + sdy = p.2))) :
    ∀ x y, passW f sdx sdy ps b x y =
      if (x, y) ∈ ps then f x y (b x y) (b (x + sdx) (y + sdy)) else b x y := by
  induction ps generalizing b with
  | nil => intro x y; simp [passW]
  | cons p rest ih =>
    intro x y
    rw [List.nodup_cons] at hnd
    rw [List.pairwise_cons] at hfr
    have step : passW f sdx sdy (p :: rest) b =
        passW f sdx sdy rest (pwrite b p.1 p.2 (f p.1 p.2 (b p.1 p.2) (b (p.1 + sdx) (p.2 + sdy)))) := rfl
    rw [step, ih _ hnd.2 hfr.2]
    by_cases hm : (x, y) ∈ rest
    · have hxyp : ¬(x = p.1 ∧ y = p.2) := by
        intro hc
        exact hnd.1 (by cases p; simp_all)
      have hsp : ¬(x + sdx = p.1 ∧ y + sdy = p.2) := hfr.1 (x, y) hm
      rw [pwrite_ne _ _ _ _ _ _ hxyp, pwrite_ne _ _ _ _ _ _ hsp]
      simp [hm]
    · by_cases hp : x = p.1 ∧ y = p.2
      · obtain ⟨hx, hy⟩ := hp
        subst hx; subst hy
        simp only [hm, if_false, List.mem_cons]
        rw [pwrite_at]
        simp
      · rw [pwrite_ne _ _ _ _ _ _ hp]
        have : ¬ (x, y) ∈ p :: rest := by
          intro hc
          rcases List.mem_cons.mp hc with h | h
          · exact hp (by cases p; simp_all)
          · exact hm h
        simp [hm, this]

/-- Pointwise congruence for folds over coordinate stores. -/
theorem foldl_ptwise {β : Type} {α : Type} (l : List α)
    (s1 s2 : (Int → Int → β) → α → Int → Int → β) (b1 b2 : Int → Int → β)
    (hb : ∀ x y, b1 x y = b2 x y)
    (hs : ∀ (c1 c2 : Int → Int → β) a, a ∈ l → (∀ x y, c1 x y = c2 x y) →
      ∀ x y, s1 c1 a x y = s2 c2 a x y) :
    ∀ x y, (l.foldl s1 b1) x y = (l.foldl s2 b2) x y := by
  induction l generalizing b1 b2 with
  | nil => exact hb
  | cons a rest ih =>
    intro x y
    exact ih (s1 b1 a) (s2 b2 a)
      (fun x y => hs b1 b2 a (List.mem_cons_self a rest) hb x y)
      (fun c1 c2 a' ha' => hs c1 c2 a' (List.mem_cons_of_mem a ha')) x y

/-- A fold of row copies whose source rows are never rows written
earlier in the fold reads only original values. -/
theorem copyRows_fresh (ys : List Int) (syf : Int → Int) (dx0 sx0 : Int)
    (w : Nat) (self : Bool) (src b : RGBABuf)
    (hnd : ys.Nodup) (hfr : ys.Pairwise (fun p q => syf q ≠ p)) :
    ∀ x y, (ys.foldl (fun b yy => copyRow (if self then b else src) b dx0 yy sx0 (syf yy) w) b) x y
      = if y ∈ ys ∧ dx0 ≤ x ∧ x < dx0 + (w : Int) then
          (if self then b else src) (sx0 + (x - dx0)) (syf y)
        else b x y := by
  induction ys generalizing b with
  | nil => intro x y; simp
  | cons yh rest ih =>
    intro x y
    rw [List.nodup_cons] at hnd
    rw [List.pairwise_cons] at hfr
    have step : (yh :: rest).foldl (fun b yy => copyRow (if self then b else src) b dx0 yy sx0 (syf yy) w) b
        = rest.foldl (fun b yy => copyRow (if self then b else src) b dx0 yy sx0 (syf yy) w)
            (copyRow (if self then b else src) b dx0 yh sx0 (syf yh) w) := rfl
    rw [step, ih _ hnd.2 hfr.2]
    set b1 := copyRow (if self then b else src) b dx0 yh sx0 (syf yh) w with hb1
    have hb1row : ∀ u v, v ≠ yh → b1 u v = b u v := by
      intro u v hv
      rw [hb1]
      unfold copyRow
      simp [hv]
    by_cases hm : y ∈ rest
    · have hyne : y ≠ yh := fun hc => hnd.1 (hc ▸ hm)
      by_cases hcols : dx0 ≤ x ∧ x < dx0 + (w : Int)
      · have hsrc1 : (if self then b1 else src) (sx0 + (x - dx0)) (syf y)
            = (if self then b else src) (sx0 + (x - dx0)) (syf y) := by
          cases self with
          | false => simp
          | true => simpa using hb1row _ _ (hfr.1 y hm)
        rw [if_pos (show y ∈ rest ∧ dx0 ≤ x ∧ x < dx0 + (w : Int) from ⟨hm, hcols⟩),
          if_pos (show y ∈ yh :: rest ∧ dx0 ≤ x ∧ x < dx0 + (w : Int) from
            ⟨List.mem_cons_of_mem _ hm, hcols⟩), hsrc1]
      · rw [if_neg (show ¬(y ∈ rest ∧ dx0 ≤ x ∧ x < dx0 + (w : Int)) by tauto),
          if_neg (show ¬(y ∈ yh :: rest ∧ dx0 ≤ x ∧ x < dx0 + (w : Int)) by tauto),
          hb1row _ _ hyne]
    · by_cases hyh : y = yh
      · subst hyh
        rw [if_neg (show ¬(y ∈ rest ∧ dx0 ≤ x ∧ x < dx0 + (w : Int)) by tauto)]
        by_cases hcols : dx0 ≤ x ∧ x < dx0 + (w : Int)
        · rw [if_pos (show y ∈ y :: rest ∧ dx0 ≤ x ∧ x < dx0 + (w : Int) from
            ⟨List.mem_cons_self _ _, hcols⟩), hb1]
          unfold copyRow
          rw [if_pos (show y = y ∧ dx0 ≤ x ∧ x < dx0 + (w : Int) from ⟨rfl, hcols.1, hcols.2⟩)]
        · rw [if_neg (show ¬(y ∈ y :: rest ∧ dx0 ≤ x ∧ x < dx0 + (w : Int)) by tauto), hb1]
          unfold copyRow
          rw [if_neg (show ¬(y = y ∧ dx0 ≤ x ∧ x < dx0 + (w : Int)) by tauto)]
      · rw [if_neg (show ¬(y ∈ rest ∧ dx0 ≤ x ∧ x < dx0 + (w : Int)) by tauto),
          hb1row _ _ hyh,
          if_neg (show ¬(y ∈ yh :: rest ∧ dx0 ≤ x ∧ x < dx0 + (w : Int)) by
            rw [List.mem_cons]; tauto)]

/-- The pixels of a row-major double loop: rows `ys`, columns `xs`. -/
def pixRect (ys xs : List Int) : List (Int × Int) :=
  ys.flatMap (fun y => xs.map (fun x => (x, y)))

theorem foldl_pixRect {B : Type} (ys xs : List Int) (s : B → Int × Int → B) (b : B) :
    (pixRect ys xs).foldl s b
      = ys.foldl (fun b y => xs.foldl (fun b x => s b (x, y)) b) b := by
  induction ys generalizing b with
  | nil => rfl
  | cons yh rest ih =>
    simp only [pixRect, List.flatMap_cons, List.foldl_append, List.foldl_map, List.foldl_cons]
    exact ih _

theorem mem_pixRect {ys xs : List Int} {x y : Int} :
    (x, y) ∈ pixRect ys xs ↔ x ∈ xs ∧ y ∈ ys := by
  simp only [pixRect, List.mem_flatMap, List.mem_map, Prod.mk.injEq]
  constructor
  · rintro ⟨a, ha, xv, hxv, rfl, rfl⟩
    exact ⟨hxv, ha⟩
  · rintro ⟨hx, hy⟩
    exact ⟨y, hy, x, hx, rfl, rfl⟩

theorem pairwise_pixRect {P Q : Int → Int → Prop} {ys xs : List Int}
    (hys : ys.Pairwise P) (hxs : xs.Pairwise Q) :
    (pixRect ys xs).Pairwise (fun p q => P p.2 q.2 ∨ (p.2 = q.2 ∧ Q p.1 q.1)) := by
  rw [pixRect, List.pairwise_flatMap]
  constructor
  · intro a _
    rw [List.pairwise_map]
    exact hxs.imp (fun h => Or.inr ⟨rfl, h⟩)
  · refine hys.imp ?_
    intro a b hab p hp q hq
    simp only [List.mem_map] at hp hq
    obtain ⟨xp, _, rfl⟩ := hp
    obtain ⟨xq, _, rfl⟩ := hq
    exact Or.inl hab

theorem mem_intRange {a d z : Int} {n : Nat} :
    z ∈ intRange a d n ↔ ∃ i : Nat, i < n ∧ z = a + d * i := by
  unfold intRange
  constructor
  · intro h
    obtain ⟨i, hi, he⟩ := List.mem_map.mp h
    exact ⟨i, List.mem_range.mp hi, he.symm⟩
  · rintro ⟨i, hi, rfl⟩
    exact List.mem_map.mpr ⟨i, List.mem_range.mpr hi, rfl⟩

theorem mem_intRange_one {a z : Int} {n : Nat} :
    z ∈ intRange a 1 n ↔ a ≤ z ∧ z < a + n := by
  rw [mem_intRange]
  constructor
  · rintro ⟨i, hi, rfl⟩
    omega
  · intro h
    exact ⟨(z - a).toNat, by omega, by omega⟩

theorem mem_intRange_negone {a z : Int} {n : Nat} :
    z ∈ intRange a (-1) n ↔ a - n < z ∧ z ≤ a := by
  rw [mem_intRange]
  constructor
  · rintro ⟨i, hi, rfl⟩
    omega
  · intro h
    exact ⟨(a - z).toNat, by omega, by omega⟩

theorem pairwise_intRange_one (a : Int) (n : Nat) :
    (intRange a 1 n).Pairwise (· < ·) := by
  unfold intRange
  rw [List.pairwise_map]
  refine (List.pairwise_lt_range n).imp ?_
  intro i j h
  omega

theorem pairwise_intRange_negone (a : Int) (n : Nat) :
    (intRange a (-1) n).Pairwise (fun p q => q < p) := by
  unfold intRange
  rw [List.pairwise_map]
  refine (List.pairwise_lt_range n).imp ?_
  intro i j h
  omega

theorem lex_ne {p q : Int × Int} (h : p.2 < q.2 ∨ (p.2 = q.2 ∧ p.1 < q.1)) :
    p ≠ q := by
  intro e
  subst e
  omega

theorem lexGt_ne {p q : Int × Int} (h : q.2 < p.2 ∨ (p.2 = q.2 ∧ q.1 < p.1)) :
    p ≠ q := by
  intro e
  subst e
  omega

theorem fresh_of_lexLt {sdx sdy : Int} (hs : 0 < sdy ∨ (sdy = 0 ∧ 0 ≤ sdx))
    {p q : Int × Int} (h : p.2 < q.2 ∨ (p.2 = q.2 ∧ p.1 < q.1)) :
    ¬(q.1 + sdx = p.1 ∧ q.2 + sdy = p.2) := by
  omega

theorem fresh_of_lexGt {sdx sdy : Int} (hs : sdy < 0 ∨ (sdy = 0 ∧ sdx ≤ 0))
    {p q : Int × Int} (h : q.2 < p.2 ∨ (p.2 = q.2 ∧ q.1 < p.1)) :
    ¬(q.1 + sdx = p.1 ∧ q.2 + sdy = p.2) := by
  omega

/-- If the translated rectangle does not overlap `r`, shifted reads
from inside `r` never land inside `r`. -/
theorem fresh_of_no_overlap (r : Rectangle) (s : Point)
    (hno : r.overlaps (r.add s) = false)
    {p q : Int × Int} (hp : r.mem p.1 p.2) (hq : r.mem q.1 q.2) :
    ¬(q.1 + s.x = p.1 ∧ q.2 + s.y = p.2) := by
  unfold Rectangle.overlaps Rectangle.add Point.add at hno
  simp only [Bool.and_eq_false_iff, decide_eq_false_iff_not, not_lt] at hno
  unfold Rectangle.mem at hp hq
  intro hc
  omega

/-- The ascending pixel list of DrawMask's loops over `r`. -/
theorem mem_pixAsc (r : Rectangle) (x y : Int) :
    (x, y) ∈ pixRect (intRange r.min.y 1 (loopCount r.min.y r.max.y 1))
                     (intRange r.min.x 1 (loopCount r.min.x r.max.x 1))
      ↔ r.mem x y := by
  rw [mem_pixRect, mem_intRange_one, mem_intRange_one]
  unfold loopCount Rectangle.mem
  omega

theorem mem_pixDesc (r : Rectangle) (x y : Int) :
    (x, y) ∈ pixRect (intRange (r.max.y - 1) (-1) (loopCount (r.max.y - 1) (r.min.y - 1) (-1)))
                     (intRange (r.max.x - 1) (-1) (loopCount (r.max.x - 1) (r.min.x - 1) (-1)))
      ↔ r.mem x y := by
  rw [mem_pixRect, mem_intRange_negone, mem_intRange_negone]
  unfold loopCount Rectangle.mem
  omega

theorem pixAsc_pairwise (r : Rectangle) :
    (pixRect (intRange r.min.y 1 (loopCount r.min.y r.max.y 1))
             (intRange r.min.x 1 (loopCount r.min.x r.max.x 1))).Pairwise
      (fun p q => p.2 < q.2 ∨ (p.2 = q.2 ∧ p.1 < q.1)) :=
  pairwise_pixRect (pairwise_intRange_one _ _) (pairwise_intRange_one _ _)

theorem pixDesc_pairwise (r : Rectangle) :
    (pixRect (intRange (r.max.y - 1) (-1) (loopCount (r.max.y - 1) (r.min.y - 1) (-1)))
             (intRange (r.max.x - 1) (-1) (loopCount (r.max.x - 1) (r.min.x - 1) (-1)))).Pairwise
      (fun p q => q.2 < p.2 ∨ (p.2 = q.2 ∧ q.1 < p.1)) :=
  pairwise_pixRect (pairwise_intRange_negone _ _) (pairwise_intRange_negone _ _)

theorem pixAsc_nodup (r : Rectangle) :
    (pixRect (intRange r.min.y 1 (loopCount r.min.y r.max.y 1))
             (intRange r.min.x 1 (loopCount r.min.x r.max.x 1))).Nodup :=
  (pixAsc_pairwise r).imp lex_ne

theorem pixDesc_nodup (r : Rectangle) :
    (pixRect (intRange (r.max.y - 1) (-1) (loopCount (r.max.y - 1) (r.min.y - 1) (-1)))
             (intRange (r.max.x - 1) (-1) (loopCount (r.max.x - 1) (r.min.x - 1) (-1)))).Nodup :=
  (pixDesc_pairwise r).imp lexGt_ne

/-- Pointwise description of drawFillOver: every pixel of `r` is
blended with the constant color, everything else is untouched. -/
theorem drawFillOver_apply (dst : RGBABuf) (r : Rectangle) (src : Color16) :
    ∀ x y, drawFillOver dst r src x y =
      if r.mem x y then blendOverPixel src (dst x y) else dst x y := by
  intro x y
  have h1 : drawFillOver dst r src =
      passW (fun _ _ d _ => blendOverPixel src d) 0 0
        (pixRect (intRange r.min.y 1 (loopCount r.min.y r.max.y 1))
                 (intRange r.min.x 1 (loopCount r.min.x r.max.x 1))) dst := by
    unfold drawFillOver passW
    rw [foldl_pixRect]
    rfl
  rw [h1, passW_fresh _ _ _ _ _ (pixAsc_nodup r)
    ((pixAsc_pairwise r).imp (fresh_of_lexLt (Or.inr ⟨rfl, le_refl 0⟩)))]
  exact if_congr (mem_pixAsc r x y) rfl rfl

/-- Pointwise description of drawNRGBAOver. -/
theorem drawNRGBAOver_apply (dst : RGBABuf) (r : Rectangle)
    (src : Int → Int → NRGBAColor) (sp : Point) :
    ∀ x y, drawNRGBAOver dst r src sp x y =
      if r.mem x y then
        nrgbaOverPixel
          (nrgbaToPremult (src (sp.x + (x - r.min.x)) (sp.y + (y - r.min.y)))) (dst x y)
      else dst x y := by
  intro x y
  have h1 : drawNRGBAOver dst r src sp =
      passW (fun x y d _ =>
          nrgbaOverPixel
            (nrgbaToPremult (src (sp.x + (x - r.min.x)) (sp.y + (y - r.min.y)))) d) 0 0
        (pixRect (intRange r.min.y 1 (loopCount r.min.y r.max.y 1))
                 (intRange r.min.x 1 (loopCount r.min.x r.max.x 1))) dst := by
    unfold drawNRGBAOver passW
    rw [foldl_pixRect]
    rfl
  rw [h1, passW_fresh _ _ _ _ _ (pixAsc_nodup r)
    ((pixAsc_pairwise r).imp (fresh_of_lexLt (Or.inr ⟨rfl, le_refl 0⟩)))]
  exact if_congr (mem_pixAsc r x y) rfl rfl

/-- Pointwise description of drawNRGBASrc. -/
theorem drawNRGBASrc_apply (dst : RGBABuf) (r : Rectangle)
    (src : Int → Int → NRGBAColor) (sp : Point) :
    ∀ x y, drawNRGBASrc dst r src sp x y =
      if r.mem x y then
        rgba8OfColor16 (nrgbaToPremult (src (sp.x + (x - r.min.x)) (sp.y + (y - r.min.y))))
      else dst x y := by
  intro x y
  have h1 : drawNRGBASrc dst r src sp =
      passW (fun x y _ _ =>
          rgba8OfColor16 (nrgbaToPremult (src (sp.x + (x - r.min.x)) (sp.y + (y - r.min.y))))) 0 0
        (pixRect (intRange r.min.y 1 (loopCount r.min.y r.max.y 1))
                 (intRange r.min.x 1 (loopCount r.min.x r.max.x 1))) dst := by
    unfold drawNRGBASrc passW
    rw [foldl_pixRect]
    rfl
  rw [h1, passW_fresh _ _ _ _ _ (pixAsc_nodup r)
    ((pixAsc_pairwise r).imp (fresh_of_lexLt (Or.inr ⟨rfl, le_refl 0⟩)))]
  exact if_congr (mem_pixAsc r x y) rfl rfl

/-- The pixel drawYCbCr stores at source coordinates `(sx, sy)`: the
subsampling kind selects the chroma sample index, and alpha is 255. -/
def ycbcrStorePix (toRGB : Fin 256 → Fin 256 → Fin 256 → Fin 256 × Fin 256 × Fin 256)
    (src : YCbCrImage) (sx sy : Int) : RGBAColor :=
  if src.subsample = ss422 then
    let i := sx.tdiv 2
    let c := toRGB (src.yPl sx sy) (src.cbPl i sy) (src.crPl i sy)
    ⟨c.1, c.2.1, c.2.2, 255⟩
  else if src.subsample = ss420 then
    let i := sx.tdiv 2
    let j := sy.tdiv 2
    let c := toRGB (src.yPl sx sy) (src.cbPl i j) (src.crPl i j)
    ⟨c.1, c.2.1, c.2.2, 255⟩
  else
    let c := toRGB (src.yPl sx sy) (src.cbPl sx sy) (src.crPl sx sy)
    ⟨c.1, c.2.1, c.2.2, 255⟩

/-- Pointwise description of drawYCbCr (all three subsampling cases). -/
theorem drawYCbCr_apply (toRGB : Fin 256 → Fin 256 → Fin 256 → Fin 256 × Fin 256 × Fin 256)
    (dst : RGBABuf) (r : Rectangle) (src : YCbCrImage) (sp : Point) :
    ∀ x y, drawYCbCr toRGB dst r src sp x y =
      if r.mem x y then
        ycbcrStorePix toRGB src (sp.x + (x - r.min.x)) (sp.y + (y - r.min.y))
      else dst x y := by
  intro x y
  have h1 : drawYCbCr toRGB dst r src sp =
      passW (fun x y _ _ =>
          ycbcrStorePix toRGB src (sp.x + (x - r.min.x)) (sp.y + (y - r.min.y))) 0 0
        (pixRect (intRange r.min.y 1 (loopCount r.min.y r.max.y 1))
                 (intRange r.min.x 1 (loopCount r.min.x r.max.x 1))) dst := by
    unfold drawYCbCr passW ycbcrStorePix
    rw [foldl_pixRect]
    by_cases h22 : src.subsample = ss422
    · simp only [h22, if_true, eq_self_iff_true, ite_true]
      rfl
    · by_cases h20 : src.subsample = ss420
      · simp only [h22, h20, if_true, if_false, eq_self_iff_true, ite_true, ite_false]
        rfl
      · simp only [h22, h20, if_false, ite_false]
        rfl
  rw [h1, passW_fresh _ _ _ _ _ (pixAsc_nodup r)
    ((pixAsc_pairwise r).imp (fresh_of_lexLt (Or.inr ⟨rfl, le_refl 0⟩)))]
  exact if_congr (mem_pixAsc r x y) rfl rfl

set_option maxRecDepth 4000 in
/-- Pointwise description of drawRGBA, covering the aliased
(`srcIsDst`) case in every traversal direction: each pixel of `r` is
the blend of the original destination pixel with the original source
pixel — the direction rule makes every read see pre-pass values. -/
theorem drawRGBA_apply (dst : RGBABuf) (r : Rectangle) (srcIsDst : Bool)
    (srcAt : Int → Int → Color16) (sp : Point)
    (mask : Option (Int → Int → Nat)) (mp : Point) (op : Op) :
    ∀ x y, drawRGBA dst r srcIsDst srcAt sp mask mp op x y =
      if r.mem x y then
        drawRGBAPixel op
          (maskAlphaOr mask (mp.x + x - r.min.x) (mp.y + y - r.min.y))
          (if srcIsDst then (dst (sp.x + x - r.min.x) (sp.y + y - r.min.y)).rgba
            else srcAt (sp.x + x - r.min.x) (sp.y + y - r.min.y))
          (dst x y)
      else dst x y := by
  intro x y
  have e1 : ∀ u : Int, sp.x + u - r.min.x = u + (sp.x - r.min.x) := fun u => by ring
  have e2 : ∀ u : Int, sp.y + u - r.min.y = u + (sp.y - r.min.y) := fun u => by ring
  cases srcIsDst with
  | false =>
    have h1 : drawRGBA dst r false srcAt sp mask mp op =
        passW (fun x y d _ =>
            drawRGBAPixel op
              (maskAlphaOr mask (mp.x + x - r.min.x) (mp.y + y - r.min.y))
              (srcAt (sp.x + x - r.min.x) (sp.y + y - r.min.y)) d) 0 0
          (pixRect (intRange r.min.y 1 (loopCount r.min.y r.max.y 1))
                   (intRange r.min.x 1 (loopCount r.min.x r.max.x 1))) dst := by
      unfold drawRGBA passW loopTriples
      rw [foldl_pixRect]
      rfl
    rw [h1, passW_fresh _ _ _ _ _ (pixAsc_nodup r)
      ((pixAsc_pairwise r).imp (fresh_of_lexLt (Or.inr ⟨rfl, le_refl 0⟩)))]
    exact if_congr (mem_pixAsc r x y) rfl rfl
  | true =>
    simp only [e1 x, e2 y]
    by_cases hov : r.overlaps (r.add (sp.sub r.min)) = true
    · by_cases hbc : backwardCond r sp = true
      · -- backward traversal
        have hdir : (sp.y - r.min.y) < 0 ∨ ((sp.y - r.min.y) = 0 ∧ (sp.x - r.min.x) ≤ 0) := by
          have hbc' := hbc
          simp only [backwardCond, Bool.or_eq_true, Bool.and_eq_true, decide_eq_true_eq] at hbc'
          omega
        have h1 : drawRGBA dst r true srcAt sp mask mp op =
            (pixRect (intRange (r.max.y - 1) (-1) (loopCount (r.max.y - 1) (r.min.y - 1) (-1)))
                     (intRange (r.max.x - 1) (-1) (loopCount (r.max.x - 1) (r.min.x - 1) (-1)))).foldl
              (fun (b : RGBABuf) (p : Int × Int) => writePix b p.1 p.2
                (drawRGBAPixel op
                  (maskAlphaOr mask (mp.x + p.1 - r.min.x) (mp.y + p.2 - r.min.y))
                  ((b (sp.x + p.1 - r.min.x) (sp.y + p.2 - r.min.y)).rgba)
                  (b p.1 p.2))) dst := by
          unfold drawRGBA
          rw [hov, hbc]
          rw [foldl_pixRect]
          rfl
        have h2 : ∀ u v,
            ((pixRect (intRange (r.max.y - 1) (-1) (loopCount (r.max.y - 1) (r.min.y - 1) (-1)))
                      (intRange (r.max.x - 1) (-1) (loopCount (r.max.x - 1) (r.min.x - 1) (-1)))).foldl
              (fun (b : RGBABuf) (p : Int × Int) => writePix b p.1 p.2
                (drawRGBAPixel op
                  (maskAlphaOr mask (mp.x + p.1 - r.min.x) (mp.y + p.2 - r.min.y))
                  ((b (sp.x + p.1 - r.min.x) (sp.y + p.2 - r.min.y)).rgba)
                  (b p.1 p.2))) dst) u v
            = passW (fun x y d s =>
                drawRGBAPixel op
                  (maskAlphaOr mask (mp.x + x - r.min.x) (mp.y + y - r.min.y))
                  (RGBAColor.rgba s) d)
                (sp.x - r.min.x) (sp.y - r.min.y)
                (pixRect (intRange (r.max.y - 1) (-1) (loopCount (r.max.y - 1) (r.min.y - 1) (-1)))
                         (intRange (r.max.x - 1) (-1) (loopCount (r.max.x - 1) (r.min.x - 1) (-1))))
                dst u v := by
          unfold passW
          refine foldl_ptwise _ _ _ _ _ (fun _ _ => rfl) ?_
          intro c1 c2 p hp hc u v
          simp only [writePix, pwrite, hc, e1, e2]
        rw [h1, h2 x y]
        rw [passW_fresh _ _ _ _ _ (pixDesc_nodup r)
          ((pixDesc_pairwise r).imp (fresh_of_lexGt hdir))]
        exact if_congr (mem_pixDesc r x y) rfl rfl
      · -- aliased, overlapping, forward traversal
        have hdir : 0 < (sp.y - r.min.y) ∨ ((sp.y - r.min.y) = 0 ∧ 0 ≤ (sp.x - r.min.x)) := by
          simp only [backwardCond, Bool.or_eq_true, Bool.and_eq_true, decide_eq_true_eq] at hbc
          omega
        have hbcf : backwardCond r sp = false := Bool.eq_false_iff.mpr hbc
        have h1 : drawRGBA dst r true srcAt sp mask mp op =
            (pixRect (intRange r.min.y 1 (loopCount r.min.y r.max.y 1))
                     (intRange r.min.x 1 (loopCount r.min.x r.max.x 1))).foldl
              (fun (b : RGBABuf) (p : Int × Int) => writePix b p.1 p.2
                (drawRGBAPixel op
                  (maskAlphaOr mask (mp.x + p.1 - r.min.x) (mp.y + p.2 - r.min.y))
                  ((b (sp.x + p.1 - r.min.x) (sp.y + p.2 - r.min.y)).rgba)
                  (b p.1 p.2))) dst := by
          unfold drawRGBA
          rw [hov, hbcf]
          rw [foldl_pixRect]
          rfl
        have h2 : ∀ u v,
            ((pixRect (intRange r.min.y 1 (loopCount r.min.y r.max.y 1))
                      (intRange r.min.x 1 (loopCount r.min.x r.max.x 1))).foldl
              (fun (b : RGBABuf) (p : Int × Int) => writePix b p.1 p.2
                (drawRGBAPixel op
                  (maskAlphaOr mask (mp.x + p.1 - r.min.x) (mp.y + p.2 - r.min.y))
                  ((b (sp.x + p.1 - r.min.x) (sp.y + p.2 - r.min.y)).rgba)
                  (b p.1 p.2))) dst) u v
            = passW (fun x y d s =>
                drawRGBAPixel op
                  (maskAlphaOr mask (mp.x + x - r.min.x) (mp.y + y - r.min.y))
                  (RGBAColor.rgba s) d)
                (sp.x - r.min.x) (sp.y - r.min.y)
                (pixRect (intRange r.min.y 1 (loopCount r.min.y r.max.y 1))
                         (intRange r.min.x 1 (loopCount r.min.x r.max.x 1)))
                dst u v := by
          unfold passW
          refine foldl_ptwise _ _ _ _ _ (fun _ _ => rfl) ?_
          intro c1 c2 p hp hc u v
          simp only [writePix, pwrite, hc, e1, e2]
        rw [h1, h2 x y]
        rw [passW_fresh _ _ _ _ _ (pixAsc_nodup r)
          ((pixAsc_pairwise r).imp (fresh_of_lexLt hdir))]
        exact if_congr (mem_pixAsc r x y) rfl rfl
    · -- aliased but not overlapping: forward traversal, reads land outside r
      have hovf : r.overlaps (r.add (sp.sub r.min)) = false := Bool.eq_false_iff.mpr hov
      have h1 : drawRGBA dst r true srcAt sp mask mp op =
          (pixRect (intRange r.min.y 1 (loopCount r.min.y r.max.y 1))
                   (intRange r.min.x 1 (loopCount r.min.x r.max.x 1))).foldl
            (fun (b : RGBABuf) (p : Int × Int) => writePix b p.1 p.2
              (drawRGBAPixel op
                (maskAlphaOr mask (mp.x + p.1 - r.min.x) (mp.y + p.2 - r.min.y))
                ((b (sp.x + p.1 - r.min.x) (sp.y + p.2 - r.min.y)).rgba)
                (b p.1 p.2))) dst := by
        unfold drawRGBA
        rw [hovf]
        rw [foldl_pixRect]
        rfl
      have h2 : ∀ u v,
          ((pixRect (intRange r.min.y 1 (loopCount r.min.y r.max.y 1))
                    (intRange r.min.x 1 (loopCount r.min.x r.max.x 1))).foldl
            (fun (b : RGBABuf) (p : Int × Int) => writePix b p.1 p.2
              (drawRGBAPixel op
                (maskAlphaOr mask (mp.x + p.1 - r.min.x) (mp.y + p.2 - r.min.y))
                ((b (sp.x + p.1 - r.min.x) (sp.y + p.2 - r.min.y)).rgba)
                (b p.1 p.2))) dst) u v
          = passW (fun x y d s =>
              drawRGBAPixel op
                (maskAlphaOr mask (mp.x + x - r.min.x) (mp.y + y - r.min.y))
                (RGBAColor.rgba s) d)
              (sp.x - r.min.x) (sp.y - r.min.y)
              (pixRect (intRange r.min.y 1 (loopCount r.min.y r.max.y 1))
                       (intRange r.min.x 1 (loopCount r.min.x r.max.x 1)))
              dst u v := by
        unfold passW
        refine foldl_ptwise _ _ _ _ _ (fun _ _ => rfl) ?_
        intro c1 c2 p hp hc u v
        simp only [writePix, pwrite, hc, e1, e2]
      have hfr : (pixRect (intRange r.min.y 1 (loopCount r.min.y r.max.y 1))
                          (intRange r.min.x 1 (loopCount r.min.x r.max.x 1))).Pairwise
          (fun p q => ¬(q.1 + (sp.x - r.min.x) = p.1 ∧ q.2 + (sp.y - r.min.y) = p.2)) := by
        refine (pixAsc_pairwise r).imp_of_mem ?_
        intro p q hp hq hlex
        obtain ⟨p1, p2⟩ := p
        obtain ⟨q1, q2⟩ := q
        exact fresh_of_no_overlap r (sp.sub r.min) hovf
          ((mem_pixAsc r p1 p2).mp hp) ((mem_pixAsc r q1 q2).mp hq)
      rw [h1, h2 x y]
      rw [passW_fresh _ _ _ _ _ (pixAsc_nodup r) hfr]
      exact if_congr (mem_pixAsc r x y) rfl rfl

/-- `pwrite` of the cell's own value changes nothing. -/
theorem pwrite_self {β : Type} (b : Int → Int → β) (X Y u v : Int) :
    pwrite b X Y (b X Y) u v = b u v := by
  unfold pwrite
  split
  · next h => rw [h.1, h.2]
  · rfl

/-- The skip-or-write switch of the generic loop, as a `pwrite`. -/
theorem match_write16 (b : Color16Buf) (X Y : Int) (o : Option Color16) (u v : Int) :
    (match o with
      | none => b
      | some c => writePix16 b X Y c) u v
      = pwrite b X Y (o.getD (b X Y)) u v := by
  cases o with
  | none => exact (pwrite_self b X Y u v).symm
  | some c => rfl

/-- The value the generic loop's switch leaves at one pixel: `genericStep`
when it writes, the old destination value on the `ma == 0` Over no-op. -/
def genericApplied (op : Op) (ma : Nat) (s d : Color16) : Color16 :=
  (genericStep op ma s d).getD d

set_option maxRecDepth 4000 in
/-- Pointwise description of DrawMask's generic loop for non-RGBA
destinations, covering the aliased case in both traversal directions. -/
theorem drawGeneric_apply (dst : Color16Buf) (r : Rectangle) (srcIsDst : Bool)
    (srcAt : Int → Int → Color16) (sp : Point)
    (mask : Option (Int → Int → Nat)) (mp : Point) (op : Op) :
    ∀ x y, drawGeneric dst r srcIsDst srcAt sp mask mp op x y =
      if r.mem x y then
        genericApplied op
          (maskAlphaOr mask (mp.x + x - r.min.x) (mp.y + y - r.min.y))
          (if srcIsDst then dst (sp.x + x - r.min.x) (sp.y + y - r.min.y)
            else srcAt (sp.x + x - r.min.x) (sp.y + y - r.min.y))
          (dst x y)
      else dst x y := by
  intro x y
  have e1 : ∀ u : Int, sp.x + u - r.min.x = u + (sp.x - r.min.x) := fun u => by ring
  have e2 : ∀ u : Int, sp.y + u - r.min.y = u + (sp.y - r.min.y) := fun u => by ring
  cases srcIsDst with
  | false =>
    have h1 : drawGeneric dst r false srcAt sp mask mp op =
        (pixRect (intRange r.min.y 1 (loopCount r.min.y r.max.y 1))
                 (intRange r.min.x 1 (loopCount r.min.x r.max.x 1))).foldl
          (fun (b : Color16Buf) (p : Int × Int) =>
            match genericStep op
                (maskAlphaOr mask (mp.x + p.1 - r.min.x) (mp.y + p.2 - r.min.y))
                (srcAt (sp.x + p.1 - r.min.x) (sp.y + p.2 - r.min.y))
                (b p.1 p.2) with
              | none => b
              | some c => writePix16 b p.1 p.2 c) dst := by
      unfold drawGeneric loopTriples
      rw [foldl_pixRect]
      rfl
    have h2 : ∀ u v,
        ((pixRect (intRange r.min.y 1 (loopCount r.min.y r.max.y 1))
                  (intRange r.min.x 1 (loopCount r.min.x r.max.x 1))).foldl
          (fun (b : Color16Buf) (p : Int × Int) =>
            match genericStep op
                (maskAlphaOr mask (mp.x + p.1 - r.min.x) (mp.y + p.2 - r.min.y))
                (srcAt (sp.x + p.1 - r.min.x) (sp.y + p.2 - r.min.y))
                (b p.1 p.2) with
              | none => b
              | some c => writePix16 b p.1 p.2 c) dst) u v
        = passW (fun x y d _ =>
            genericApplied op
              (maskAlphaOr mask (mp.x + x - r.min.x) (mp.y + y - r.min.y))
              (srcAt (sp.x + x - r.min.x) (sp.y + y - r.min.y)) d) 0 0
          (pixRect (intRange r.min.y 1 (loopCount r.min.y r.max.y 1))
                   (intRange r.min.x 1 (loopCount r.min.x r.max.x 1))) dst u v := by
      unfold passW
      refine foldl_ptwise _ _ _ _ _ (fun _ _ => rfl) ?_
      intro c1 c2 p hp hc u v
      rw [match_write16]
      simp only [genericApplied, pwrite, hc]
    rw [h1, h2 x y]
    rw [passW_fresh _ _ _ _ _ (pixAsc_nodup r)
      ((pixAsc_pairwise r).imp (fresh_of_lexLt (Or.inr ⟨rfl, le_refl 0⟩)))]
    exact if_congr (mem_pixAsc r x y) rfl rfl
  | true =>
    simp only [e1 x, e2 y]
    by_cases hov : r.overlaps (r.add (sp.sub r.min)) = true
    · by_cases hbc : backwardCond r sp = true
      · have hdir : (sp.y - r.min.y) < 0 ∨ ((sp.y - r.min.y) = 0 ∧ (sp.x - r.min.x) ≤ 0) := by
          have hbc' := hbc
          simp only [backwardCond, Bool.or_eq_true, Bool.and_eq_true, decide_eq_true_eq] at hbc'
          omega
        have h1 : drawGeneric dst r true srcAt sp mask mp op =
            (pixRect (intRange (r.max.y - 1) (-1) (loopCount (r.max.y - 1) (r.min.y - 1) (-1)))
                     (intRange (r.max.x - 1) (-1) (loopCount (r.max.x - 1) (r.min.x - 1) (-1)))).foldl
              (fun (b : Color16Buf) (p : Int × Int) =>
                match genericStep op
                    (maskAlphaOr mask (mp.x + p.1 - r.min.x) (mp.y + p.2 - r.min.y))
                    (b (sp.x + p.1 - r.min.x) (sp.y + p.2 - r.min.y))
                    (b p.1 p.2) with
                  | none => b
                  | some c => writePix16 b p.1 p.2 c) dst := by
          unfold drawGeneric
          rw [hov, hbc]
          rw [foldl_pixRect]
          rfl
        have h2 : ∀ u v,
            ((pixRect (intRange (r.max.y - 1) (-1) (loopCount (r.max.y - 1) (r.min.y - 1) (-1)))
                      (intRange (r.max.x - 1) (-1) (loopCount (r.max.x - 1) (r.min.x - 1) (-1)))).foldl
              (fun (b : Color16Buf) (p : Int × Int) =>
                match genericStep op
                    (maskAlphaOr mask (mp.x + p.1 - r.min.x) (mp.y + p.2 - r.min.y))
                    (b (sp.x + p.1 - r.min.x) (sp.y + p.2 - r.min.y))
                    (b p.1 p.2) with
                  | none => b
                  | some c => writePix16 b p.1 p.2 c) dst) u v
            = passW (fun x y d s =>
                genericApplied op
                  (maskAlphaOr mask (mp.x + x - r.min.x) (mp.y + y - r.min.y)) s d)
                (sp.x - r.min.x) (sp.y - r.min.y)
                (pixRect (intRange (r.max.y - 1) (-1) (loopCount (r.max.y - 1) (r.min.y - 1) (-1)))
                         (intRange (r.max.x - 1) (-1) (loopCount (r.max.x - 1) (r.min.x - 1) (-1))))
                dst u v := by
          unfold passW
          refine foldl_ptwise _ _ _ _ _ (fun _ _ => rfl) ?_
          intro c1 c2 p hp hc u v
          rw [match_write16]
          simp only [genericApplied, pwrite, hc, e1, e2]
        rw [h1, h2 x y]
        rw [passW_fresh _ _ _ _ _ (pixDesc_nodup r)
          ((pixDesc_pairwise r).imp (fresh_of_lexGt hdir))]
        exact if_congr (mem_pixDesc r x y) rfl rfl
      · have hdir : 0 < (sp.y - r.min.y) ∨ ((sp.y - r.min.y) = 0 ∧ 0 ≤ (sp.x - r.min.x)) := by
          simp only [backwardCond, Bool.or_eq_true, Bool.and_eq_true, decide_eq_true_eq] at hbc
          omega
        have hbcf : backwardCond r sp = false := Bool.eq_false_iff.mpr hbc
        have h1 : drawGeneric dst r true srcAt sp mask mp op =
            (pixRect (intRange r.min.y 1 (loopCount r.min.y r.max.y 1))
                     (intRange r.min.x 1 (loopCount r.min.x r.max.x 1))).foldl
              (fun (b : Color16Buf) (p : Int × Int) =>
                match genericStep op
                    (maskAlphaOr mask (mp.x + p.1 - r.min.x) (mp.y + p.2 - r.min.y))
                    (b (sp.x + p.1 - r.min.x) (sp.y + p.2 - r.min.y))
                    (b p.1 p.2) with
                  | none => b
                  | some c => writePix16 b p.1 p.2 c) dst := by
          unfold drawGeneric
          rw [hov, hbcf]
          rw [foldl_pixRect]
          rfl
        have h2 : ∀ u v,
            ((pixRect (intRange r.min.y 1 (loopCount r.min.y r.max.y 1))
                      (intRange r.min.x 1 (loopCount r.min.x r.max.x 1))).foldl
              (fun (b : Color16Buf) (p : Int × Int) =>
                match genericStep op
                    (maskAlphaOr mask (mp.x + p.1 - r.min.x) (mp.y + p.2 - r.min.y))
                    (b (sp.x + p.1 - r.min.x) (sp.y + p.2 - r.min.y))
                    (b p.1 p.2) with
                  | none => b
                  | some c => writePix16 b p.1 p.2 c) dst) u v
            = passW (fun x y d s =>
                genericApplied op
                  (maskAlphaOr mask (mp.x + x - r.min.x) (mp.y + y - r.min.y)) s d)
                (sp.x - r.min.x) (sp.y - r.min.y)
                (pixRect (intRange r.min.y 1 (loopCount r.min.y r.max.y 1))
                         (intRange r.min.x 1 (loopCount r.min.x r.max.x 1)))
                dst u v := by
          unfold passW
          refine foldl_ptwise _ _ _ _ _ (fun _ _ => rfl) ?_
          intro c1 c2 p hp hc u v
          rw [match_write16]
          simp only [genericApplied, pwrite, hc, e1, e2]
        rw [h1, h2 x y]
        rw [passW_fresh _ _ _ _ _ (pixAsc_nodup r)
          ((pixAsc_pairwise r).imp (fresh_of_lexLt hdir))]
        exact if_congr (mem_pixAsc r x y) rfl rfl
    · have hovf : r.overlaps (r.add (sp.sub r.min)) = false := Bool.eq_false_iff.mpr hov
      have h1 : drawGeneric dst r true srcAt sp mask mp op =
          (pixRect (intRange r.min.y 1 (loopCount r.min.y r.max.y 1))
                   (intRange r.min.x 1 (loopCount r.min.x r.max.x 1))).foldl
            (fun (b : Color16Buf) (p : Int × Int) =>
              match genericStep op
                  (maskAlphaOr mask (mp.x + p.1 - r.min.x) (mp.y + p.2 - r.min.y))
                  (b (sp.x + p.1 - r.min.x) (sp.y + p.2 - r.min.y))
                  (b p.1 p.2) with
                | none => b
                | some c => writePix16 b p.1 p.2 c) dst := by
        unfold drawGeneric
        rw [hovf]
        rw [foldl_pixRect]
        rfl
      have h2 : ∀ u v,
          ((pixRect (intRange r.min.y 1 (loopCount r.min.y r.max.y 1))
                    (intRange r.min.x 1 (loopCount r.min.x r.max.x 1))).foldl
            (fun (b : Color16Buf) (p : Int × Int) =>
              match genericStep op
                  (maskAlphaOr mask (mp.x + p.1 - r.min.x) (mp.y + p.2 - r.min.y))
                  (b (sp.x + p.1 - r.min.x) (sp.y + p.2 - r.min.y))
                  (b p.1 p.2) with
                | none => b
                | some c => writePix16 b p.1 p.2 c) dst) u v
          = passW (fun x y d s =>
              genericApplied op
                (maskAlphaOr mask (mp.x + x - r.min.x) (mp.y + y - r.min.y)) s d)
              (sp.x - r.min.x) (sp.y - r.min.y)
              (pixRect (intRange r.min.y 1 (loopCount r.min.y r.max.y 1))
                       (intRange r.min.x 1 (loopCount r.min.x r.max.x 1)))
              dst u v := by
        unfold passW
        refine foldl_ptwise _ _ _ _ _ (fun _ _ => rfl) ?_
        intro c1 c2 p hp hc u v
        rw [match_write16]
        simp only [genericApplied, pwrite, hc, e1, e2]
      have hfr : (pixRect (intRange r.min.y 1 (loopCount r.min.y r.max.y 1))
                          (intRange r.min.x 1 (loopCount r.min.x r.max.x 1))).Pairwise
          (fun p q => ¬(q.1 + (sp.x - r.min.x) = p.1 ∧ q.2 + (sp.y - r.min.y) = p.2)) := by
        refine (pixAsc_pairwise r).imp_of_mem ?_
        intro p q hp hq hlex
        obtain ⟨p1, p2⟩ := p
        obtain ⟨q1, q2⟩ := q
        exact fresh_of_no_overlap r (sp.sub r.min) hovf
          ((mem_pixAsc r p1 p2).mp hp) ((mem_pixAsc r q1 q2).mp hq)
      rw [h1, h2 x y]
      rw [passW_fresh _ _ _ _ _ (pixAsc_nodup r) hfr]
      exact if_congr (mem_pixAsc r x y) rfl rfl

/-- Reindexing a fold through an injection of the index list. -/
theorem foldl_reindex {B α γ : Type} (l : List α) (f : α → γ)
    (g : B → α → B) (h : B → γ → B)
    (hcompat : ∀ b a, a ∈ l → g b a = h b (f a)) (b : B) :
    l.foldl g b = (l.map f).foldl h b := by
  induction l generalizing b with
  | nil => rfl
  | cons a rest ih =>
    rw [List.map_cons, List.foldl_cons, List.foldl_cons,
      hcompat b a (List.mem_cons_self a rest)]
    exact ih (fun b a ha => hcompat b a (List.mem_cons_of_mem _ ha)) _

/-- Shifting the start of an arithmetic index list. -/
theorem intRange_shift (c a d : Int) (n : Nat) :
    (intRange a d n).map (fun z => c + z) = intRange (c + a) d n := by
  unfold intRange
  rw [List.map_map]
  refine List.map_congr_left ?_
  intro i _
  show c + (a + d * (i : Int)) = c + a + d * (i : Int)
  ring

/-- `List.range` with an ascending affine step. -/
theorem range_map_add (a : Int) (n : Nat) :
    (List.range n).map (fun k : Nat => a + (k : Int)) = intRange a 1 n := by
  unfold intRange
  refine List.map_congr_left ?_
  intro i _
  show a + (i : Int) = a + 1 * (i : Int)
  ring

/-- `List.range` with a descending affine step. -/
theorem range_map_sub (a : Int) (n : Nat) :
    (List.range n).map (fun k : Nat => a - (k : Int)) = intRange a (-1) n := by
  unfold intRange
  refine List.map_congr_left ?_
  intro i _
  show a - (i : Int) = a + (-1) * (i : Int)
  ring

/-- The skip-or-blend of drawGlyphOver at one pixel, in terms of the
8-bit coverage value. -/
def glyphStep (c : Color16) (ma : Nat) (d : RGBAColor) : RGBAColor :=
  if ma = 0 then d else glyphOverPixel c (ma ||| (ma <<< 8)) d

/-- The skip-or-write switch of drawGlyphOver, as a `pwrite`. -/
theorem ite_write8 (b : RGBABuf) (X Y : Int) (c : Prop) [Decidable c]
    (v : RGBAColor) (u w : Int) :
    (if c then b else writePix b X Y v) u w
      = pwrite b X Y (if c then b X Y else v) u w := by
  split
  · exact (pwrite_self b X Y u w).symm
  · rfl

set_option maxRecDepth 4000 in
/-- Pointwise description of drawGlyphOver. -/
theorem drawGlyphOver_apply (dst : RGBABuf) (r : Rectangle) (src : Color16)
    (mask : Int → Int → AlphaColor) (mp : Point) :
    ∀ x y, drawGlyphOver dst r src mask mp x y =
      if r.mem x y then
        glyphStep src ((mask (mp.x + (x - r.min.x)) (mp.y + (y - r.min.y))).a.val) (dst x y)
      else dst x y := by
  intro x y
  have hw : (r.max.x - r.min.x).toNat = loopCount r.min.x r.max.x 1 := by
    unfold loopCount
    omega
  have hinner : ∀ (b : RGBABuf) (yy : Int),
      (intRange 0 1 (r.max.x - r.min.x).toNat).foldl
        (fun (b : RGBABuf) (i : Int) =>
          if (mask (mp.x + i) (mp.y + (yy - r.min.y))).a.val = 0 then b
          else writePix b (r.min.x + i) yy
            (glyphOverPixel src
              ((mask (mp.x + i) (mp.y + (yy - r.min.y))).a.val |||
                ((mask (mp.x + i) (mp.y + (yy - r.min.y))).a.val <<< 8))
              (b (r.min.x + i) yy))) b
      = (intRange r.min.x 1 (loopCount r.min.x r.max.x 1)).foldl
        (fun (b : RGBABuf) (xx : Int) =>
          if (mask (mp.x + (xx - r.min.x)) (mp.y + (yy - r.min.y))).a.val = 0 then b
          else writePix b xx yy
            (glyphOverPixel src
              ((mask (mp.x + (xx - r.min.x)) (mp.y + (yy - r.min.y))).a.val |||
                ((mask (mp.x + (xx - r.min.x)) (mp.y + (yy - r.min.y))).a.val <<< 8))
              (b xx yy))) b := by
    intro b yy
    rw [foldl_reindex (intRange 0 1 (r.max.x - r.min.x).toNat) (fun z => r.min.x + z) _
      (fun (b : RGBABuf) (xx : Int) =>
        if (mask (mp.x + (xx - r.min.x)) (mp.y + (yy - r.min.y))).a.val = 0 then b
        else writePix b xx yy
          (glyphOverPixel src
            ((mask (mp.x + (xx - r.min.x)) (mp.y + (yy - r.min.y))).a.val |||
              ((mask (mp.x + (xx - r.min.x)) (mp.y + (yy - r.min.y))).a.val <<< 8))
            (b xx yy)))
      (by
        intro b i _
        simp only [show ∀ z : Int, (r.min.x + z) - r.min.x = z from fun z => by ring]) b]
    rw [intRange_shift, add_zero, hw]
  have h0 : drawGlyphOver dst r src mask mp =
      (intRange r.min.y 1 (loopCount r.min.y r.max.y 1)).foldl
        (fun (b : RGBABuf) (yy : Int) =>
          (intRange 0 1 (r.max.x - r.min.x).toNat).foldl
            (fun (b : RGBABuf) (i : Int) =>
              if (mask (mp.x + i) (mp.y + (yy - r.min.y))).a.val = 0 then b
              else writePix b (r.min.x + i) yy
                (glyphOverPixel src
                  ((mask (mp.x + i) (mp.y + (yy - r.min.y))).a.val |||
                    ((mask (mp.x + i) (mp.y + (yy - r.min.y))).a.val <<< 8))
                  (b (r.min.x + i) yy))) b) dst := rfl
  have h1 : drawGlyphOver dst r src mask mp =
      (pixRect (intRange r.min.y 1 (loopCount r.min.y r.max.y 1))
               (intRange r.min.x 1 (loopCount r.min.x r.max.x 1))).foldl
        (fun (b : RGBABuf) (p : Int × Int) =>
          if (mask (mp.x + (p.1 - r.min.x)) (mp.y + (p.2 - r.min.y))).a.val = 0 then b
          else writePix b p.1 p.2
            (glyphOverPixel src
              ((mask (mp.x + (p.1 - r.min.x)) (mp.y + (p.2 - r.min.y))).a.val |||
                ((mask (mp.x + (p.1 - r.min.x)) (mp.y + (p.2 - r.min.y))).a.val <<< 8))
              (b p.1 p.2))) dst := by
    rw [h0]
    rw [show (fun (b : RGBABuf) (yy : Int) =>
          (intRange 0 1 (r.max.x - r.min.x).toNat).foldl
            (fun (b : RGBABuf) (i : Int) =>
              if (mask (mp.x + i) (mp.y + (yy - r.min.y))).a.val = 0 then b
              else writePix b (r.min.x + i) yy
                (glyphOverPixel src
                  ((mask (mp.x + i) (mp.y + (yy - r.min.y))).a.val |||
                    ((mask (mp.x + i) (mp.y + (yy - r.min.y))).a.val <<< 8))
                  (b (r.min.x + i) yy))) b)
        = (fun (b : RGBABuf) (yy : Int) =>
          (intRange r.min.x 1 (loopCount r.min.x r.max.x 1)).foldl
            (fun (b : RGBABuf) (xx : Int) =>
              if (mask (mp.x + (xx - r.min.x)) (mp.y + (yy - r.min.y))).a.val = 0 then b
              else writePix b xx yy
                (glyphOverPixel src
                  ((mask (mp.x + (xx - r.min.x)) (mp.y + (yy - r.min.y))).a.val |||
                    ((mask (mp.x + (xx - r.min.x)) (mp.y + (yy - r.min.y))).a.val <<< 8))
                  (b xx yy))) b)
      from funext fun b => funext fun yy => hinner b yy]
    rw [foldl_pixRect]
  have h2 : ∀ u v,
      ((pixRect (intRange r.min.y 1 (loopCount r.min.y r.max.y 1))
                (intRange r.min.x 1 (loopCount r.min.x r.max.x 1))).foldl
        (fun (b : RGBABuf) (p : Int × Int) =>
          if (mask (mp.x + (p.1 - r.min.x)) (mp.y + (p.2 - r.min.y))).a.val = 0 then b
          else writePix b p.1 p.2
            (glyphOverPixel src
              ((mask (mp.x + (p.1 - r.min.x)) (mp.y + (p.2 - r.min.y))).a.val |||
                ((mask (mp.x + (p.1 - r.min.x)) (mp.y + (p.2 - r.min.y))).a.val <<< 8))
              (b p.1 p.2))) dst) u v
      = passW (fun x y d _ =>
          glyphStep src ((mask (mp.x + (x - r.min.x)) (mp.y + (y - r.min.y))).a.val) d) 0 0
        (pixRect (intRange r.min.y 1 (loopCount r.min.y r.max.y 1))
                 (intRange r.min.x 1 (loopCount r.min.x r.max.x 1))) dst u v := by
    unfold passW
    refine foldl_ptwise _ _ _ _ _ (fun _ _ => rfl) ?_
    intro c1 c2 p hp hc u v
    rw [ite_write8]
    simp only [glyphStep, pwrite, hc]
  rw [h1, h2 x y]
  rw [passW_fresh _ _ _ _ _ (pixAsc_nodup r)
    ((pixAsc_pairwise r).imp (fresh_of_lexLt (Or.inr ⟨rfl, le_refl 0⟩)))]
  exact if_congr (mem_pixAsc r x y) rfl rfl

/-- Normalizing an ascending loop list to `loopCount` form. -/
theorem intRange_asc_norm (lo hi : Int) :
    intRange (lo + 0) 1 ((hi - lo).toNat) = intRange lo 1 (loopCount lo hi 1) := by
  rw [add_zero]
  congr 1
  unfold loopCount
  omega

/-- Normalizing a descending loop list to `loopCount` form (the start
is irrelevant when the count is zero). -/
theorem intRange_desc_norm (lo hi : Int) :
    intRange (lo + ((((hi - lo).toNat) : Int) - 1)) (-1) ((hi - lo).toNat)
      = intRange (hi - 1) (-1) (loopCount (hi - 1) (lo - 1) (-1)) := by
  have hc : loopCount (hi - 1) (lo - 1) (-1) = (hi - lo).toNat := by
    unfold loopCount
    omega
  rw [hc]
  rcases Nat.eq_zero_or_pos (hi - lo).toNat with h0 | hpos
  · rw [h0]
    rfl
  · congr 1
    omega

set_option maxRecDepth 4000 in
/-- Pointwise description of drawCopySrc: every pixel of `r` receives
the translated source pixel as it was before the call, in both row
orders and also when `src` is the destination itself. -/
theorem drawCopySrc_apply (dst : RGBABuf) (r : Rectangle) (srcIsDst : Bool)
    (src : RGBABuf) (sp : Point) :
    ∀ x y, drawCopySrc dst r srcIsDst src sp x y =
      if r.mem x y then
        (if srcIsDst then dst else src) (sp.x + (x - r.min.x)) (sp.y + (y - r.min.y))
      else dst x y := by
  intro x y
  by_cases hfw : r.min.y ≤ sp.y
  · have hB : decide (r.min.y ≤ sp.y) = true := decide_eq_true hfw
    have h0 : drawCopySrc dst r srcIsDst src sp =
        (List.range ((r.max.y - r.min.y).toNat)).foldl
          (fun (b : RGBABuf) (k : Nat) =>
            copyRow (if srcIsDst then b else src) b r.min.x (r.min.y + (k : Int))
              sp.x (sp.y + (k : Int)) ((r.max.x - r.min.x).toNat)) dst := by
      unfold drawCopySrc
      dsimp only
      rw [hB]
      rfl
    have hrows : (List.range ((r.max.y - r.min.y).toNat)).foldl
          (fun (b : RGBABuf) (k : Nat) =>
            copyRow (if srcIsDst then b else src) b r.min.x (r.min.y + (k : Int))
              sp.x (sp.y + (k : Int)) ((r.max.x - r.min.x).toNat)) dst
        = (intRange r.min.y 1 ((r.max.y - r.min.y).toNat)).foldl
          (fun (b : RGBABuf) (yy : Int) =>
            copyRow (if srcIsDst then b else src) b r.min.x yy
              sp.x (sp.y + (yy - r.min.y)) ((r.max.x - r.min.x).toNat)) dst := by
      rw [foldl_reindex (List.range ((r.max.y - r.min.y).toNat))
        (fun k : Nat => r.min.y + (k : Int)) _
        (fun (b : RGBABuf) (yy : Int) =>
          copyRow (if srcIsDst then b else src) b r.min.x yy
            sp.x (sp.y + (yy - r.min.y)) ((r.max.x - r.min.x).toNat))
        (by
          intro b k _
          simp only [show ∀ z : Int, (r.min.y + z) - r.min.y = z from fun z => by ring]) dst]
      rw [range_map_add]
    have hfr : (intRange r.min.y 1 ((r.max.y - r.min.y).toNat)).Pairwise
        (fun p q => sp.y + (q - r.min.y) ≠ p) := by
      refine (pairwise_intRange_one _ _).imp ?_
      intro p q h
      omega
    rw [h0, hrows]
    rw [copyRows_fresh _ (fun yy => sp.y + (yy - r.min.y)) _ _ _ _ _ _
      ((pairwise_intRange_one _ _).imp (fun h => by omega)) hfr x y]
    refine if_congr ?_ rfl rfl
    rw [mem_intRange_one]
    unfold Rectangle.mem
    constructor
    · intro h
      omega
    · intro h
      omega
  · have hB : decide (r.min.y ≤ sp.y) = false := decide_eq_false hfw
    have h0 : drawCopySrc dst r srcIsDst src sp =
        (List.range ((r.max.y - r.min.y).toNat)).foldl
          (fun (b : RGBABuf) (k : Nat) =>
            copyRow (if srcIsDst then b else src) b r.min.x
              (r.min.y + ((((r.max.y - r.min.y).toNat) : Int) - 1 - (k : Int)))
              sp.x (sp.y + ((((r.max.y - r.min.y).toNat) : Int) - 1 - (k : Int)))
              ((r.max.x - r.min.x).toNat)) dst := by
      unfold drawCopySrc
      dsimp only
      rw [hB]
      rfl
    have hrows : (List.range ((r.max.y - r.min.y).toNat)).foldl
          (fun (b : RGBABuf) (k : Nat) =>
            copyRow (if srcIsDst then b else src) b r.min.x
              (r.min.y + ((((r.max.y - r.min.y).toNat) : Int) - 1 - (k : Int)))
              sp.x (sp.y + ((((r.max.y - r.min.y).toNat) : Int) - 1 - (k : Int)))
              ((r.max.x - r.min.x).toNat)) dst
        = (intRange (r.min.y + ((((r.max.y - r.min.y).toNat) : Int) - 1)) (-1)
            ((r.max.y - r.min.y).toNat)).foldl
          (fun (b : RGBABuf) (yy : Int) =>
            copyRow (if srcIsDst then b else src) b r.min.x yy
              sp.x (sp.y + (yy - r.min.y)) ((r.max.x - r.min.x).toNat)) dst := by
      rw [foldl_reindex (List.range ((r.max.y - r.min.y).toNat))
        (fun k : Nat => (r.min.y + ((((r.max.y - r.min.y).toNat) : Int) - 1)) - (k : Int)) _
        (fun (b : RGBABuf) (yy : Int) =>
          copyRow (if srcIsDst then b else src) b r.min.x yy
            sp.x (sp.y + (yy - r.min.y)) ((r.max.x - r.min.x).toNat))
        (by
          intro b k _
          have ha : ∀ z : Int, r.min.y + ((((r.max.y - r.min.y).toNat) : Int) - 1 - z)
              = (r.min.y + ((((r.max.y - r.min.y).toNat) : Int) - 1)) - z := fun z => by ring
          have hb : ∀ z : Int,
              sp.y + (((r.min.y + ((((r.max.y - r.min.y).toNat) : Int) - 1)) - z) - r.min.y)
              = sp.y + ((((r.max.y - r.min.y).toNat) : Int) - 1 - z) := fun z => by ring
          rw [ha (k : Int), ← hb (k : Int)]) dst]
      rw [range_map_sub]
    have hfr : (intRange (r.min.y + ((((r.max.y - r.min.y).toNat) : Int) - 1)) (-1)
        ((r.max.y - r.min.y).toNat)).Pairwise
        (fun p q => sp.y + (q - r.min.y) ≠ p) := by
      refine (pairwise_intRange_negone _ _).imp ?_
      intro p q h
      omega
    rw [h0, hrows]
    rw [copyRows_fresh _ (fun yy => sp.y + (yy - r.min.y)) _ _ _ _ _ _
      ((pairwise_intRange_negone _ _).imp (fun h => by omega)) hfr x y]
    refine if_congr ?_ rfl rfl
    rw [mem_intRange_negone]
    unfold Rectangle.mem
    constructor
    · intro h
      omega
    · intro h
      omega

/-- A fold of constant writes along one row. -/
theorem fillConst_apply (l : List Int) (y0 : Int) (c : RGBAColor) (b : RGBABuf) :
    ∀ x y, (l.foldl (fun b xx => writePix b xx y0 c) b) x y
      = if x ∈ l ∧ y = y0 then c else b x y := by
  induction l generalizing b with
  | nil =>
    intro x y
    simp
  | cons a rest ih =>
    intro x y
    rw [List.foldl_cons, ih]
    by_cases hm : x ∈ rest ∧ y = y0
    · rw [if_pos hm,
        if_pos (show x ∈ a :: rest ∧ y = y0 from ⟨List.mem_cons_of_mem _ hm.1, hm.2⟩)]
    · rw [if_neg hm]
      unfold writePix
      by_cases hxy : x = a ∧ y = y0
      · rw [if_pos hxy,
          if_pos (show x ∈ a :: rest ∧ y = y0 from ⟨by rw [hxy.1]; exact List.mem_cons_self a rest, hxy.2⟩)]
      · rw [if_neg hxy,
          if_neg (show ¬(x ∈ a :: rest ∧ y = y0) by rw [List.mem_cons]; tauto)]

set_option maxRecDepth 4000 in
/-- Pointwise description of drawFillSrc: every pixel of a non-empty
`r` becomes the 8-bit image of the constant color. -/
theorem drawFillSrc_apply (dst : RGBABuf) (r : Rectangle) (src : Color16) :
    ∀ x y, drawFillSrc dst r src x y =
      if r.mem x y then rgba8OfColor16 src else dst x y := by
  intro x y
  by_cases hdy : r.max.y - r.min.y < 1
  · unfold drawFillSrc
    rw [if_pos hdy, if_neg (show ¬ r.mem x y by unfold Rectangle.mem; omega)]
  · have h0 : drawFillSrc dst r src =
        (intRange (r.min.y + 1) 1 (r.max.y - (r.min.y + 1)).toNat).foldl
          (fun (b : RGBABuf) (yy : Int) =>
            copyRow b b r.min.x yy r.min.x r.min.y ((r.max.x - r.min.x).toNat))
          ((intRange r.min.x 1 ((r.max.x - r.min.x).toNat)).foldl
            (fun (b : RGBABuf) (xx : Int) => writePix b xx r.min.y (rgba8OfColor16 src)) dst) := by
      unfold drawFillSrc
      rw [if_neg hdy]
    have hstep : (fun (b : RGBABuf) (yy : Int) =>
          copyRow b b r.min.x yy r.min.x r.min.y ((r.max.x - r.min.x).toNat))
        = (fun (b : RGBABuf) (yy : Int) =>
          copyRow (if true then b else dst) b r.min.x yy r.min.x
            ((fun _ : Int => r.min.y) yy) ((r.max.x - r.min.x).toNat)) := rfl
    rw [h0, hstep]
    rw [copyRows_fresh _ (fun _ : Int => r.min.y) _ _ _ true _ _
      ((pairwise_intRange_one _ _).imp (fun h => by omega))
      (by
        refine (pairwise_intRange_one _ _).imp_of_mem ?_
        intro p q hp hq h
        rw [mem_intRange_one] at hp
        show r.min.y ≠ p
        omega) x y]
    rw [fillConst_apply]
    by_cases hrows : y ∈ intRange (r.min.y + 1) 1 (r.max.y - (r.min.y + 1)).toNat ∧
        r.min.x ≤ x ∧ x < r.min.x + (((r.max.x - r.min.x).toNat : Int))
    · rw [if_pos hrows, if_pos (show true = true from rfl), fillConst_apply]
      have hx : r.min.x + (x - r.min.x) = x := by ring
      rw [hx]
      rw [mem_intRange_one] at hrows
      rw [if_pos (show x ∈ intRange r.min.x 1 ((r.max.x - r.min.x).toNat) ∧ r.min.y = r.min.y from
          ⟨(mem_intRange_one).mpr (by omega), rfl⟩),
        if_pos (show r.mem x y by unfold Rectangle.mem; omega)]
    · rw [if_neg hrows]
      rw [mem_intRange_one] at hrows
      by_cases hm1 : x ∈ intRange r.min.x 1 ((r.max.x - r.min.x).toNat) ∧ y = r.min.y
      · have hm1' := hm1
        rw [mem_intRange_one] at hm1'
        rw [if_pos hm1, if_pos (show r.mem x y by unfold Rectangle.mem; omega)]
      · have hm1' := hm1
        rw [mem_intRange_one] at hm1'
        rw [if_neg hm1, if_neg (show ¬ r.mem x y by unfold Rectangle.mem; omega)]

theorem loopCount_one (lo hi : Int) : loopCount lo hi 1 = (hi - lo).toNat := by
  unfold loopCount
  omega

set_option maxRecDepth 4000 in
/-- Pointwise description of drawCopyOver: every pixel of `r` is the
Over blend of the original destination pixel with the translated
original source pixel, in both traversal directions and also when
`src` is the destination itself. -/
theorem drawCopyOver_apply (dst : RGBABuf) (r : Rectangle) (srcIsDst : Bool)
    (src : RGBABuf) (sp : Point) :
    ∀ x y, drawCopyOver dst r srcIsDst src sp x y =
      if r.mem x y then
        blendOverPixel
          ((if srcIsDst then dst else src) (sp.x + (x - r.min.x)) (sp.y + (y - r.min.y))).rgba
          (dst x y)
      else dst x y := by
  intro x y
  have e1p : ∀ u : Int, sp.x + (u - r.min.x) = u + (sp.x - r.min.x) := fun u => by ring
  have e2p : ∀ u : Int, sp.y + (u - r.min.y) = u + (sp.y - r.min.y) := fun u => by ring
  cases srcIsDst with
  | false =>
    by_cases hB : (decide (r.min.y < sp.y) || (decide (r.min.y = sp.y) && decide (r.min.x ≤ sp.x))) = true
    · -- external source, forward rows and columns
      have h0 : drawCopyOver dst r false src sp =
          (List.range ((r.max.y - r.min.y).toNat)).foldl
            (fun (b : RGBABuf) (k : Nat) =>
              (intRange 0 1 ((r.max.x - r.min.x).toNat)).foldl
                (fun (b : RGBABuf) (i : Int) =>
                  writePix b (r.min.x + i) (r.min.y + (k : Int))
                    (blendOverPixel ((src (sp.x + i) (sp.y + (k : Int))).rgba)
                      (b (r.min.x + i) (r.min.y + (k : Int))))) b) dst := by
        unfold drawCopyOver
        dsimp only
        rw [hB]
        rfl
      have hinner : ∀ (b : RGBABuf) (yv sv : Int),
          (intRange 0 1 ((r.max.x - r.min.x).toNat)).foldl
            (fun (b : RGBABuf) (i : Int) =>
              writePix b (r.min.x + i) yv
                (blendOverPixel ((src (sp.x + i) sv).rgba) (b (r.min.x + i) yv))) b
          = (intRange r.min.x 1 (loopCount r.min.x r.max.x 1)).foldl
            (fun (b : RGBABuf) (xx : Int) =>
              writePix b xx yv
                (blendOverPixel ((src (sp.x + (xx - r.min.x)) sv).rgba) (b xx yv))) b := by
        intro b yv sv
        rw [foldl_reindex (intRange 0 1 ((r.max.x - r.min.x).toNat)) (fun z => r.min.x + z) _
          (fun (b : RGBABuf) (xx : Int) =>
            writePix b xx yv
              (blendOverPixel ((src (sp.x + (xx - r.min.x)) sv).rgba) (b xx yv)))
          (by
            intro b i _
            simp only [show ∀ z : Int, (r.min.x + z) - r.min.x = z from fun z => by ring]) b]
        rw [intRange_shift, intRange_asc_norm]
      have hrows : drawCopyOver dst r false src sp =
          (intRange r.min.y 1 (loopCount r.min.y r.max.y 1)).foldl
            (fun (b : RGBABuf) (yy : Int) =>
              (intRange r.min.x 1 (loopCount r.min.x r.max.x 1)).foldl
                (fun (b : RGBABuf) (xx : Int) =>
                  writePix b xx yy
                    (blendOverPixel ((src (sp.x + (xx - r.min.x)) (sp.y + (yy - r.min.y))).rgba)
                      (b xx yy))) b) dst := by
        rw [h0]
        rw [foldl_reindex (List.range ((r.max.y - r.min.y).toNat))
          (fun k : Nat => r.min.y + (k : Int)) _
          (fun (b : RGBABuf) (yy : Int) =>
            (intRange r.min.x 1 (loopCount r.min.x r.max.x 1)).foldl
              (fun (b : RGBABuf) (xx : Int) =>
                writePix b xx yy
                  (blendOverPixel ((src (sp.x + (xx - r.min.x)) (sp.y + (yy - r.min.y))).rgba)
                    (b xx yy))) b)
          (by
            intro b k _
            rw [hinner b (r.min.y + (k : Int)) (sp.y + (k : Int))]
            simp only [show ∀ z : Int, sp.y + ((r.min.y + z) - r.min.y) = sp.y + z from
              fun z => by ring]) dst]
        rw [range_map_add]
        rw [← loopCount_one r.min.y r.max.y]
      have h2 : ∀ u v,
          ((intRange r.min.y 1 (loopCount r.min.y r.max.y 1)).foldl
            (fun (b : RGBABuf) (yy : Int) =>
              (intRange r.min.x 1 (loopCount r.min.x r.max.x 1)).foldl
                (fun (b : RGBABuf) (xx : Int) =>
                  writePix b xx yy
                    (blendOverPixel ((src (sp.x + (xx - r.min.x)) (sp.y + (yy - r.min.y))).rgba)
                      (b xx yy))) b) dst) u v
          = passW (fun x y d _ =>
              blendOverPixel ((src (sp.x + (x - r.min.x)) (sp.y + (y - r.min.y))).rgba) d) 0 0
            (pixRect (intRange r.min.y 1 (loopCount r.min.y r.max.y 1))
                     (intRange r.min.x 1 (loopCount r.min.x r.max.x 1))) dst u v := by
        rw [← foldl_pixRect (s := fun (b : RGBABuf) (p : Int × Int) =>
          writePix b p.1 p.2
            (blendOverPixel ((src (sp.x + (p.1 - r.min.x)) (sp.y + (p.2 - r.min.y))).rgba)
              (b p.1 p.2)))]
        unfold passW
        refine foldl_ptwise _ _ _ _ _ (fun _ _ => rfl) ?_
        intro c1 c2 p hp hc u v
        simp only [writePix, pwrite, hc]
      rw [hrows, h2 x y]
      rw [passW_fresh _ _ _ _ _ (pixAsc_nodup r)
        ((pixAsc_pairwise r).imp (fresh_of_lexLt (Or.inr ⟨rfl, le_refl 0⟩)))]
      exact if_congr (mem_pixAsc r x y) rfl rfl
    · -- external source, backward rows and columns
      have hBf : (decide (r.min.y < sp.y) || (decide (r.min.y = sp.y) && decide (r.min.x ≤ sp.x))) = false :=
        Bool.eq_false_iff.mpr hB
      have h0 : drawCopyOver dst r false src sp =
          (List.range ((r.max.y - r.min.y).toNat)).foldl
            (fun (b : RGBABuf) (k : Nat) =>
              (intRange (((r.max.x - r.min.x).toNat : Int) - 1) (-1) ((r.max.x - r.min.x).toNat)).foldl
                (fun (b : RGBABuf) (i : Int) =>
                  writePix b (r.min.x + i)
                    (r.min.y + (((r.max.y - r.min.y).toNat : Int) - 1 - (k : Int)))
                    (blendOverPixel
                      ((src (sp.x + i) (sp.y + (((r.max.y - r.min.y).toNat : Int) - 1 - (k : Int)))).rgba)
                      (b (r.min.x + i)
                        (r.min.y + (((r.max.y - r.min.y).toNat : Int) - 1 - (k : Int)))))) b) dst := by
        unfold drawCopyOver
        dsimp only
        rw [hBf]
        rfl
      have hinner : ∀ (b : RGBABuf) (yv sv : Int),
          (intRange (((r.max.x - r.min.x).toNat : Int) - 1) (-1) ((r.max.x - r.min.x).toNat)).foldl
            (fun (b : RGBABuf) (i : Int) =>
              writePix b (r.min.x + i) yv
                (blendOverPixel ((src (sp.x + i) sv).rgba) (b (r.min.x + i) yv))) b
          = (intRange (r.max.x - 1) (-1) (loopCount (r.max.x - 1) (r.min.x - 1) (-1))).foldl
            (fun (b : RGBABuf) (xx : Int) =>
              writePix b xx yv
                (blendOverPixel ((src (sp.x + (xx - r.min.x)) sv).rgba) (b xx yv))) b := by
        intro b yv sv
        rw [foldl_reindex (intRange (((r.max.x - r.min.x).toNat : Int) - 1) (-1) ((r.max.x - r.min.x).toNat))
          (fun z => r.min.x + z) _
          (fun (b : RGBABuf) (xx : Int) =>
            writePix b xx yv
              (blendOverPixel ((src (sp.x + (xx - r.min.x)) sv).rgba) (b xx yv)))
          (by
            intro b i _
            simp only [show ∀ z : Int, (r.min.x + z) - r.min.x = z from fun z => by ring]) b]
        rw [intRange_shift, intRange_desc_norm]
      have hrows : drawCopyOver dst r false src sp =
          (intRange (r.max.y - 1) (-1) (loopCount (r.max.y - 1) (r.min.y - 1) (-1))).foldl
            (fun (b : RGBABuf) (yy : Int) =>
              (intRange (r.max.x - 1) (-1) (loopCount (r.max.x - 1) (r.min.x - 1) (-1))).foldl
                (fun (b : RGBABuf) (xx : Int) =>
                  writePix b xx yy
                    (blendOverPixel ((src (sp.x + (xx - r.min.x)) (sp.y + (yy - r.min.y))).rgba)
                      (b xx yy))) b) dst := by
        rw [h0]
        rw [foldl_reindex (List.range ((r.max.y - r.min.y).toNat))
          (fun k : Nat => (r.min.y + (((r.max.y - r.min.y).toNat : Int) - 1)) - (k : Int)) _
          (fun (b : RGBABuf) (yy : Int) =>
            (intRange (r.max.x - 1) (-1) (loopCount (r.max.x - 1) (r.min.x - 1) (-1))).foldl
              (fun (b : RGBABuf) (xx : Int) =>
                writePix b xx yy
                  (blendOverPixel ((src (sp.x + (xx - r.min.x)) (sp.y + (yy - r.min.y))).rgba)
                    (b xx yy))) b)
          (by
            intro b k _
            dsimp only
            rw [hinner b (r.min.y + (((r.max.y - r.min.y).toNat : Int) - 1 - (k : Int)))
              (sp.y + (((r.max.y - r.min.y).toNat : Int) - 1 - (k : Int)))]
            rw [show (r.min.y + (((r.max.y - r.min.y).toNat : Int) - 1)) - (k : Int)
                = r.min.y + (((r.max.y - r.min.y).toNat : Int) - 1 - (k : Int)) from by ring]
            simp only [show ∀ z : Int, sp.y + ((r.min.y + z) - r.min.y) = sp.y + z from
              fun z => by ring]) dst]
        rw [range_map_sub, intRange_desc_norm]
      have h2 : ∀ u v,
          ((intRange (r.max.y - 1) (-1) (loopCount (r.max.y - 1) (r.min.y - 1) (-1))).foldl
            (fun (b : RGBABuf) (yy : Int) =>
              (intRange (r.max.x - 1) (-1) (loopCount (r.max.x - 1) (r.min.x - 1) (-1))).foldl
                (fun (b : RGBABuf) (xx : Int) =>
                  writePix b xx yy
                    (blendOverPixel ((src (sp.x + (xx - r.min.x)) (sp.y + (yy - r.min.y))).rgba)
                      (b xx yy))) b) dst) u v
          = passW (fun x y d _ =>
              blendOverPixel ((src (sp.x + (x - r.min.x)) (sp.y + (y - r.min.y))).rgba) d) 0 0
            (pixRect (intRange (r.max.y - 1) (-1) (loopCount (r.max.y - 1) (r.min.y - 1) (-1)))
                     (intRange (r.max.x - 1) (-1) (loopCount (r.max.x - 1) (r.min.x - 1) (-1)))) dst u v := by
        rw [← foldl_pixRect (s := fun (b : RGBABuf) (p : Int × Int) =>
          writePix b p.1 p.2
            (blendOverPixel ((src (sp.x + (p.1 - r.min.x)) (sp.y + (p.2 - r.min.y))).rgba)
              (b p.1 p.2)))]
        unfold passW
        refine foldl_ptwise _ _ _ _ _ (fun _ _ => rfl) ?_
        intro c1 c2 p hp hc u v
        simp only [writePix, pwrite, hc]
      rw [hrows, h2 x y]
      rw [passW_fresh _ _ _ _ _ (pixDesc_nodup r)
        ((pixDesc_pairwise r).imp (fresh_of_lexGt (Or.inr ⟨rfl, le_refl 0⟩)))]
      exact if_congr (mem_pixDesc r x y) rfl rfl
  | true =>
    simp only [e1p x, e2p y]
    by_cases hB : (decide (r.min.y < sp.y) || (decide (r.min.y = sp.y) && decide (r.min.x ≤ sp.x))) = true
    · -- aliased, forward: the shift is lexicographically nonnegative
      have hdir : 0 < (sp.y - r.min.y) ∨ ((sp.y - r.min.y) = 0 ∧ 0 ≤ (sp.x - r.min.x)) := by
        have hB' := hB
        simp only [Bool.or_eq_true, Bool.and_eq_true, decide_eq_true_eq] at hB'
        omega
      have h0 : drawCopyOver dst r true src sp =
          (List.range ((r.max.y - r.min.y).toNat)).foldl
            (fun (b : RGBABuf) (k : Nat) =>
              (intRange 0 1 ((r.max.x - r.min.x).toNat)).foldl
                (fun (b : RGBABuf) (i : Int) =>
                  writePix b (r.min.x + i) (r.min.y + (k : Int))
                    (blendOverPixel ((b (sp.x + i) (sp.y + (k : Int))).rgba)
                      (b (r.min.x + i) (r.min.y + (k : Int))))) b) dst := by
        unfold drawCopyOver
        dsimp only
        rw [hB]
        rfl
      have hinner : ∀ (b : RGBABuf) (yv sv : Int),
          (intRange 0 1 ((r.max.x - r.min.x).toNat)).foldl
            (fun (b : RGBABuf) (i : Int) =>
              writePix b (r.min.x + i) yv
                (blendOverPixel ((b (sp.x + i) sv).rgba) (b (r.min.x + i) yv))) b
          = (intRange r.min.x 1 (loopCount r.min.x r.max.x 1)).foldl
            (fun (b : RGBABuf) (xx : Int) =>
              writePix b xx yv
                (blendOverPixel ((b (sp.x + (xx - r.min.x)) sv).rgba) (b xx yv))) b := by
        intro b yv sv
        rw [foldl_reindex (intRange 0 1 ((r.max.x - r.min.x).toNat)) (fun z => r.min.x + z) _
          (fun (b : RGBABuf) (xx : Int) =>
            writePix b xx yv
              (blendOverPixel ((b (sp.x + (xx - r.min.x)) sv).rgba) (b xx yv)))
          (by
            intro b i _
            simp only [show ∀ z : Int, (r.min.x + z) - r.min.x = z from fun z => by ring]) b]
        rw [intRange_shift, intRange_asc_norm]
      have hrows : drawCopyOver dst r true src sp =
          (intRange r.min.y 1 (loopCount r.min.y r.max.y 1)).foldl
            (fun (b : RGBABuf) (yy : Int) =>
              (intRange r.min.x 1 (loopCount r.min.x r.max.x 1)).foldl
                (fun (b : RGBABuf) (xx : Int) =>
                  writePix b xx yy
                    (blendOverPixel ((b (sp.x + (xx - r.min.x)) (sp.y + (yy - r.min.y))).rgba)
                      (b xx yy))) b) dst := by
        rw [h0]
        rw [foldl_reindex (List.range ((r.max.y - r.min.y).toNat))
          (fun k : Nat => r.min.y + (k : Int)) _
          (fun (b : RGBABuf) (yy : Int) =>
            (intRange r.min.x 1 (loopCount r.min.x r.max.x 1)).foldl
              (fun (b : RGBABuf) (xx : Int) =>
                writePix b xx yy
                  (blendOverPixel ((b (sp.x + (xx - r.min.x)) (sp.y + (yy - r.min.y))).rgba)
                    (b xx yy))) b)
          (by
            intro b k _
            rw [hinner b (r.min.y + (k : Int)) (sp.y + (k : Int))]
            simp only [show ∀ z : Int, sp.y + ((r.min.y + z) - r.min.y) = sp.y + z from
              fun z => by ring]) dst]
        rw [range_map_add]
        rw [← loopCount_one r.min.y r.max.y]
      have h2 : ∀ u v,
          ((intRange r.min.y 1 (loopCount r.min.y r.max.y 1)).foldl
            (fun (b : RGBABuf) (yy : Int) =>
              (intRange r.min.x 1 (loopCount r.min.x r.max.x 1)).foldl
                (fun (b : RGBABuf) (xx : Int) =>
                  writePix b xx yy
                    (blendOverPixel ((b (sp.x + (xx - r.min.x)) (sp.y + (yy - r.min.y))).rgba)
                      (b xx yy))) b) dst) u v
          = passW (fun x y d s => blendOverPixel s.rgba d)
              (sp.x - r.min.x) (sp.y - r.min.y)
              (pixRect (intRange r.min.y 1 (loopCount r.min.y r.max.y 1))
                       (intRange r.min.x 1 (loopCount r.min.x r.max.x 1))) dst u v := by
        rw [← foldl_pixRect (s := fun (b : RGBABuf) (p : Int × Int) =>
          writePix b p.1 p.2
            (blendOverPixel ((b (sp.x + (p.1 - r.min.x)) (sp.y + (p.2 - r.min.y))).rgba)
              (b p.1 p.2)))]
        unfold passW
        refine foldl_ptwise _ _ _ _ _ (fun _ _ => rfl) ?_
        intro c1 c2 p hp hc u v
        simp only [writePix, pwrite, hc, e1p, e2p]
      rw [hrows, h2 x y]
      rw [passW_fresh _ _ _ _ _ (pixAsc_nodup r)
        ((pixAsc_pairwise r).imp (fresh_of_lexLt hdir))]
      exact if_congr (mem_pixAsc r x y) rfl rfl
    · -- aliased, backward: the shift is lexicographically negative
      have hdir : (sp.y - r.min.y) < 0 ∨ ((sp.y - r.min.y) = 0 ∧ (sp.x - r.min.x) ≤ 0) := by
        have hB' := hB
        simp only [Bool.or_eq_true, Bool.and_eq_true, decide_eq_true_eq] at hB'
        omega
      have hBf : (decide (r.min.y < sp.y) || (decide (r.min.y = sp.y) && decide (r.min.x ≤ sp.x))) = false :=
        Bool.eq_false_iff.mpr hB
      have h0 : drawCopyOver dst r true src sp =
          (List.range ((r.max.y - r.min.y).toNat)).foldl
            (fun (b : RGBABuf) (k : Nat) =>
              (intRange (((r.max.x - r.min.x).toNat : Int) - 1) (-1) ((r.max.x - r.min.x).toNat)).foldl
                (fun (b : RGBABuf) (i : Int) =>
                  writePix b (r.min.x + i)
                    (r.min.y + (((r.max.y - r.min.y).toNat : Int) - 1 - (k : Int)))
                    (blendOverPixel
                      ((b (sp.x + i) (sp.y + (((r.max.y - r.min.y).toNat : Int) - 1 - (k : Int)))).rgba)
                      (b (r.min.x + i)
                        (r.min.y + (((r.max.y - r.min.y).toNat : Int) - 1 - (k : Int)))))) b) dst := by
        unfold drawCopyOver
        dsimp only
        rw [hBf]
        rfl
      have hinner : ∀ (b : RGBABuf) (yv sv : Int),
          (intRange (((r.max.x - r.min.x).toNat : Int) - 1) (-1) ((r.max.x - r.min.x).toNat)).foldl
            (fun (b : RGBABuf) (i : Int) =>
              writePix b (r.min.x + i) yv
                (blendOverPixel ((b (sp.x + i) sv).rgba) (b (r.min.x + i) yv))) b
          = (intRange (r.max.x - 1) (-1) (loopCount (r.max.x - 1) (r.min.x - 1) (-1))).foldl
            (fun (b : RGBABuf) (xx : Int) =>
              writePix b xx yv
                (blendOverPixel ((b (sp.x + (xx - r.min.x)) sv).rgba) (b xx yv))) b := by
        intro b yv sv
        rw [foldl_reindex (intRange (((r.max.x - r.min.x).toNat : Int) - 1) (-1) ((r.max.x - r.min.x).toNat))
          (fun z => r.min.x + z) _
          (fun (b : RGBABuf) (xx : Int) =>
            writePix b xx yv
              (blendOverPixel ((b (sp.x + (xx - r.min.x)) sv).rgba) (b xx yv)))
          (by
            intro b i _
            simp only [show ∀ z : Int, (r.min.x + z) - r.min.x = z from fun z => by ring]) b]
        rw [intRange_shift, intRange_desc_norm]
      have hrows : drawCopyOver dst r true src sp =
          (intRange (r.max.y - 1) (-1) (loopCount (r.max.y - 1) (r.min.y - 1) (-1))).foldl
            (fun (b : RGBABuf) (yy : Int) =>
              (intRange (r.max.x - 1) (-1) (loopCount (r.max.x - 1) (r.min.x - 1) (-1))).foldl
                (fun (b : RGBABuf) (xx : Int) =>
                  writePix b xx yy
                    (blendOverPixel ((b (sp.x + (xx - r.min.x)) (sp.y + (yy - r.min.y))).rgba)
                      (b xx yy))) b) dst := by
        rw [h0]
        rw [foldl_reindex (List.range ((r.max.y - r.min.y).toNat))
          (fun k : Nat => (r.min.y + (((r.max.y - r.min.y).toNat : Int) - 1)) - (k : Int)) _
          (fun (b : RGBABuf) (yy : Int) =>
            (intRange (r.max.x - 1) (-1) (loopCount (r.max.x - 1) (r.min.x - 1) (-1))).foldl
              (fun (b : RGBABuf) (xx : Int) =>
                writePix b xx yy
                  (blendOverPixel ((b (sp.x + (xx - r.min.x)) (sp.y + (yy - r.min.y))).rgba)
                    (b xx yy))) b)
          (by
            intro b k _
            dsimp only
            rw [hinner b (r.min.y + (((r.max.y - r.min.y).toNat : Int) - 1 - (k : Int)))
              (sp.y + (((r.max.y - r.min.y).toNat : Int) - 1 - (k : Int)))]
            rw [show (r.min.y + (((r.max.y - r.min.y).toNat : Int) - 1)) - (k : Int)
                = r.min.y + (((r.max.y - r.min.y).toNat : Int) - 1 - (k : Int)) from by ring]
            simp only [show ∀ z : Int, sp.y + ((r.min.y + z) - r.min.y) = sp.y + z from
              fun z => by ring]) dst]
        rw [range_map_sub, intRange_desc_norm]
      have h2 : ∀ u v,
          ((intRange (r.max.y - 1) (-1) (loopCount (r.max.y - 1) (r.min.y - 1) (-1))).foldl
            (fun (b : RGBABuf) (yy : Int) =>
              (intRange (r.max.x - 1) (-1) (loopCount (r.max.x - 1) (r.min.x - 1) (-1))).foldl
                (fun (b : RGBABuf) (xx : Int) =>
                  writePix b xx yy
                    (blendOverPixel ((b (sp.x + (xx - r.min.x)) (sp.y + (yy - r.min.y))).rgba)
                      (b xx yy))) b) dst) u v
          = passW (fun x y d s => blendOverPixel s.rgba d)
              (sp.x - r.min.x) (sp.y - r.min.y)
              (pixRect (intRange (r.max.y - 1) (-1) (loopCount (r.max.y - 1) (r.min.y - 1) (-1)))
                       (intRange (r.max.x - 1) (-1) (loopCount (r.max.x - 1) (r.min.x - 1) (-1)))) dst u v := by
        rw [← foldl_pixRect (s := fun (b : RGBABuf) (p : Int × Int) =>
          writePix b p.1 p.2
            (blendOverPixel ((b (sp.x + (p.1 - r.min.x)) (sp.y + (p.2 - r.min.y))).rgba)
              (b p.1 p.2)))]
        unfold passW
        refine foldl_ptwise _ _ _ _ _ (fun _ _ => rfl) ?_
        intro c1 c2 p hp hc u v
        simp only [writePix, pwrite, hc, e1p, e2p]
      rw [hrows, h2 x y]
      rw [passW_fresh _ _ _ _ _ (pixDesc_nodup r)
        ((pixDesc_pairwise r).imp (fresh_of_lexGt hdir))]
      exact if_congr (mem_pixDesc r x y) rfl rfl

/-! ### Arithmetic facts about the pixel formulas -/

theorem u32_eq_of_lt {n : Nat} (h : n < 4294967296) : u32 n = n := Nat.mod_eq_of_lt h

theorem m_pos : 0 < m := by decide

/-- A premultiplied 8-bit pixel widens to a color satisfying the 16-bit
premultiplied contract. -/
theorem premult_rgba_valid (c : RGBAColor) (h : c.premult) : c.rgba.valid := by
  obtain ⟨h1, h2, h3⟩ := h
  have ha := c.a.isLt
  unfold Color16.valid RGBAColor.rgba m
  dsimp only
  refine ⟨Nat.mul_le_mul_right _ h1, Nat.mul_le_mul_right _ h2, Nat.mul_le_mul_right _ h3, ?_⟩
  omega

/-- The non-premultiplied conversion always lands in the premultiplied
contract: each converted channel is at most the widened alpha. -/
theorem nrgba_rgba_valid (c : NRGBAColor) : c.rgba.valid := by
  have ha := c.a.isLt
  have key : ∀ v : Fin 256, v.val * 0x101 * c.a.val / 0xff ≤ c.a.val * 0x101 := by
    intro v
    have hv := v.isLt
    have h1 : v.val * 0x101 * c.a.val ≤ 0xff * (c.a.val * 0x101) := by nlinarith
    calc v.val * 0x101 * c.a.val / 0xff ≤ 0xff * (c.a.val * 0x101) / 0xff :=
          Nat.div_le_div_right h1
      _ = c.a.val * 0x101 := Nat.mul_div_cancel_left _ (by norm_num)
  unfold Color16.valid NRGBAColor.rgba
  dsimp only
  refine ⟨key c.r, key c.g, key c.b, ?_⟩
  unfold m
  omega

/-- Narrowing the widened channel recovers the 8-bit value: the 8-to-16
round trip is exact. -/
theorem rgba8_roundtrip (c : RGBAColor) : rgba8OfColor16 c.rgba = c := by
  cases c with
  | mk r g b a =>
    have hr := r.isLt
    have hg := g.isLt
    have hb := b.isLt
    have ha := a.isLt
    unfold rgba8OfColor16 RGBAColor.rgba mkU8
    dsimp only
    simp only [RGBAColor.mk.injEq]
    have e : ∀ v : Nat, v < 256 → v * 0x101 / 256 = v := by
      intro v hv
      omega
    refine ⟨Fin.ext ?_, Fin.ext ?_, Fin.ext ?_, Fin.ext ?_⟩ <;> simp only []
    · rw [e r.val hr]
      omega
    · rw [e g.val hg]
      omega
    · rw [e b.val hb]
      omega
    · rw [e a.val ha]
      omega

set_option maxRecDepth 4000 in
/-- The glyph loop widens the 8-bit coverage with `ma |= ma << 8`, which
is exactly multiplication by 0x101. -/
theorem lor_shift_widen : ∀ v : Fin 256, (v.val ||| (v.val <<< 8)) = v.val * 0x101 := by
  decide

/-- drawGlyphOver's per-pixel blend is the generic Over formula verbatim. -/
theorem glyphOver_eq_rgbaPixel (c : Color16) (ma : Nat) (d : RGBAColor) :
    glyphOverPixel c ma d = drawRGBAPixel Op.Over ma c d := rfl

/-- With zero coverage the generic Over blend leaves the destination
pixel unchanged: the scale is `m * 0x101` and narrowing is exact. -/
theorem rgbaPixel_over_zero (s : Color16) (d : RGBAColor) :
    drawRGBAPixel Op.Over 0 s d = d := by
  have key : ∀ (v : Fin 256) (sc : Nat),
      mkU8 (u32 (v.val * ((m - u32 (s.a * 0) / m) * 0x101) + sc * 0) / m / 256) = v := by
    intro v sc
    have hv := v.isLt
    apply Fin.ext
    unfold mkU8 u32 m
    dsimp only
    rw [Nat.mul_zero, Nat.mul_zero, Nat.add_zero]
    have h1 : v.val * ((65535 - 0 % 4294967296 / 65535) * 0x101) = v.val * 16842495 := by
      norm_num
    rw [h1]
    have h2 : v.val * 16842495 % 4294967296 = v.val * 16842495 := by omega
    rw [h2]
    have h3 : v.val * 16842495 / 65535 = v.val * 257 := by omega
    rw [h3]
    have h4 : v.val * 257 / 256 = v.val := by omega
    rw [h4]
    omega
  cases d with
  | mk dr dg db da =>
    unfold drawRGBAPixel
    dsimp only
    rw [key dr s.r, key dg s.g, key db s.b, key da s.a]

/-- The Over fast-path blend at full coverage equals the generic Over
formula: exact under the premultiplied contract, where the wrapped sum
stays below 2^32 and the division distributes exactly. -/
theorem blendOver_eq_rgbaPixel (s : Color16) (hs : s.valid) (d : RGBAColor) :
    blendOverPixel s d = drawRGBAPixel Op.Over m s d := by
  obtain ⟨h1, h2, h3, h4⟩ := hs
  have key : ∀ (v : Fin 256) (sc : Nat), sc ≤ s.a →
      v.val * ((m - s.a) * 0x101) / m + sc
        = u32 (v.val * ((m - u32 (s.a * m) / m) * 0x101) + sc * m) / m := by
    intro v sc hsc
    have hv := v.isLt
    have e1 : u32 (s.a * m) = s.a * m := u32_eq_of_lt (by
      unfold m at h4 ⊢
      omega)
    rw [e1]
    have e2 : s.a * m / m = s.a := by
      unfold m
      omega
    rw [e2]
    have b1 : v.val * ((m - s.a) * 0x101) ≤ 255 * ((m - s.a) * 0x101) :=
      Nat.mul_le_mul_right _ (by omega)
    have b2 : sc * m ≤ s.a * m := Nat.mul_le_mul_right _ hsc
    have e3 : v.val * ((m - s.a) * 0x101) + sc * m < 4294967296 := by
      unfold m at h4 b1 b2 ⊢
      omega
    rw [u32_eq_of_lt e3]
    rw [Nat.add_mul_div_right _ _ m_pos]
  unfold blendOverPixel drawRGBAPixel
  dsimp only
  rw [key d.r s.r h1, key d.g s.g h2, key d.b s.b h3, key d.a s.a (le_refl _)]

/-- The NRGBA Over blend equals the generic Over formula at full
coverage: the only difference is the already-exact `sa*m/m`. -/
theorem nrgbaOver_eq_rgbaPixel (s : Color16) (hsa : s.a ≤ m) (d : RGBAColor) :
    nrgbaOverPixel s d = drawRGBAPixel Op.Over m s d := by
  have e1 : u32 (s.a * m) = s.a * m := u32_eq_of_lt (by
    unfold m at hsa ⊢
    omega)
  have e2 : s.a * m / m = s.a := by
    unfold m
    omega
  unfold nrgbaOverPixel drawRGBAPixel
  dsimp only
  rw [e1, e2]

/-- The generic Src formula at full coverage stores exactly the 16-bit
source color narrowed to 8 bits. -/
theorem rgbaPixel_src8 (s : Color16) (hr : s.r ≤ m) (hg : s.g ≤ m)
    (hb : s.b ≤ m) (ha : s.a ≤ m) (d : RGBAColor) :
    drawRGBAPixel Op.Src m s d = rgba8OfColor16 s := by
  have key : ∀ sc : Nat, sc ≤ m → u32 (sc * m) / m = sc := by
    intro sc hsc
    have e1 : u32 (sc * m) = sc * m := u32_eq_of_lt (by
      unfold m at hsc ⊢
      omega)
    rw [e1]
    unfold m
    omega
  unfold drawRGBAPixel rgba8OfColor16
  dsimp only
  rw [key s.r hr, key s.g hg, key s.b hb, key s.a ha]

/-- Copying a widened 8-bit pixel through the generic Src formula at
full coverage reproduces the pixel exactly. -/
theorem rgbaPixel_src_self (c : RGBAColor) (d : RGBAColor) :
    drawRGBAPixel Op.Src m c.rgba d = c := by
  have h1 := c.r.isLt
  have h2 := c.g.isLt
  have h3 := c.b.isLt
  have h4 := c.a.isLt
  rw [rgbaPixel_src8 c.rgba
    (by show c.r.val * 0x101 ≤ m; unfold m; omega)
    (by show c.g.val * 0x101 ≤ m; unfold m; omega)
    (by show c.b.val * 0x101 ≤ m; unfold m; omega)
    (by show c.a.val * 0x101 ≤ m; unfold m; omega) d]
  exact rgba8_roundtrip c

/-- Narrowing a fully opaque widened color recovers its 8-bit channels
with alpha 255. -/
theorem opaque_roundtrip (r8 g8 b8 : Fin 256) :
    rgba8OfColor16 ⟨r8.val * 0x101, g8.val * 0x101, b8.val * 0x101, 0xffff⟩
      = ⟨r8, g8, b8, 255⟩ := by
  have key : ∀ v : Fin 256, mkU8 (v.val * 0x101 / 256) = v := by
    intro v
    have hv := v.isLt
    apply Fin.ext
    unfold mkU8
    dsimp only
    have h4 : v.val * 0x101 / 256 = v.val := by omega
    rw [h4]
    omega
  unfold rgba8OfColor16
  dsimp only
  rw [key r8, key g8, key b8]
  have hA : mkU8 ((0xffff : Nat) / 256) = (255 : Fin 256) := rfl
  rw [hA]

/-- An opaque widened source drawn with the generic Over formula at
full coverage overwrites the destination with its 8-bit channels. -/
theorem rgbaPixel_opaque_over (r8 g8 b8 : Fin 256) (d : RGBAColor) :
    drawRGBAPixel Op.Over m
        ⟨r8.val * 0x101, g8.val * 0x101, b8.val * 0x101, 0xffff⟩ d
      = ⟨r8, g8, b8, 255⟩ := by
  have key : ∀ (v dc : Fin 256),
      mkU8 (u32 (dc.val * ((m - u32 (0xffff * m) / m) * 0x101) + v.val * 0x101 * m) / m / 256)
        = v := by
    intro v dc
    have hv := v.isLt
    apply Fin.ext
    unfold mkU8 u32 m
    dsimp only
    have e1 : (65535 - 0xffff * 65535 % 4294967296 / 65535) = 0 := by norm_num
    rw [e1]
    rw [Nat.zero_mul, Nat.mul_zero, Nat.zero_add]
    have e2 : v.val * 0x101 * 65535 % 4294967296 = v.val * 0x101 * 65535 := by omega
    rw [e2]
    have e3 : v.val * 0x101 * 65535 / 65535 = v.val * 0x101 := by omega
    rw [e3]
    have e4 : v.val * 0x101 / 256 = v.val := by omega
    rw [e4]
    omega
  have keyA : ∀ dc : Fin 256,
      mkU8 (u32 (dc.val * ((m - u32 (0xffff * m) / m) * 0x101) + 0xffff * m) / m / 256)
        = (255 : Fin 256) := by
    intro dc
    apply Fin.ext
    unfold mkU8 u32 m
    dsimp only
    have e1 : (65535 - 0xffff * 65535 % 4294967296 / 65535) = 0 := by norm_num
    rw [e1]
    rw [Nat.zero_mul, Nat.mul_zero, Nat.zero_add]
    norm_num
    decide
  unfold drawRGBAPixel
  dsimp only
  rw [key r8 d.r, key g8 d.g, key b8 d.b, keyA d.a]

/-- An opaque widened source drawn with the generic Src formula at full
coverage also stores its 8-bit channels. -/
theorem rgbaPixel_opaque_src (r8 g8 b8 : Fin 256) (d : RGBAColor) :
    drawRGBAPixel Op.Src m
        ⟨r8.val * 0x101, g8.val * 0x101, b8.val * 0x101, 0xffff⟩ d
      = ⟨r8, g8, b8, 255⟩ := by
  have h1 := r8.isLt
  have h2 := g8.isLt
  have h3 := b8.isLt
  rw [rgbaPixel_src8 _
    (by show r8.val * 0x101 ≤ m; unfold m; omega)
    (by show g8.val * 0x101 ≤ m; unfold m; omega)
    (by show b8.val * 0x101 ≤ m; unfold m; omega)
    (by show (0xffff : Nat) ≤ m; unfold m; omega) d]
  exact opaque_roundtrip r8 g8 b8

/-! ### Claim theorems -/

/-- C6: for a chroma-subsampled (YCbCr) source with no mask into an
RGBA destination, DrawMask with Over and DrawMask with Src produce
identical destinations, and for either operator the result is the
single decode loop drawYCbCr run on the clipped rectangle. -/
theorem claim_C6_ycbcr_over_eq_src
    (toRGB : Fin 256 → Fin 256 → Fin 256 → Fin 256 × Fin 256 × Fin 256)
    (im : RGBAImage) (r : Rectangle) (s : YCbCrImage) (sp mp : Point) :
    DrawMask toRGB (.rgbaDst im) r (.ycbcrSrc s) sp none mp Op.Over
      = DrawMask toRGB (.rgbaDst im) r (.ycbcrSrc s) sp none mp Op.Src
    ∧ ∀ op : Op,
        DrawMask toRGB (.rgbaDst im) r (.ycbcrSrc s) sp none mp op
          = (if (clip im.rect r s.rect sp none mp).1.isEmpty then DstImage.rgbaDst im
             else .rgbaDst ⟨drawYCbCr toRGB im.pix (clip im.rect r s.rect sp none mp).1 s
                              (clip im.rect r s.rect sp none mp).2.1, im.rect⟩) := by
  refine ⟨rfl, ?_⟩
  intro op
  cases op <;> rfl

/-- C9: DrawMask is total and returns only the mutated destination —
the result keeps the destination's bounds for every input — and Draw is
DrawMask with a nil mask and the Over operator. -/
theorem claim_C9_total
    (toRGB : Fin 256 → Fin 256 → Fin 256 → Fin 256 × Fin 256 × Fin 256)
    (dst : DstImage) (r : Rectangle) (src : SrcImage) (sp : Point)
    (mask : Option MaskImage) (mp : Point) (op : Op) :
    (DrawMask toRGB dst r src sp mask mp op).bounds = dst.bounds
    ∧ Draw toRGB dst r src sp = DrawMask toRGB dst r src sp none ZP Op.Over := by
  refine ⟨?_, rfl⟩
  unfold DrawMask
  cases dst with
  | rgbaDst im =>
    dsimp only
    split
    · rfl
    · rfl
  | genericDst bnds pixmap =>
    dsimp only
    split
    · rfl
    · rfl

/-- C10: with a subsampling kind that is neither 4:2:2 nor 4:2:0,
drawYCbCr decodes with full-resolution index arithmetic — chroma read
at the same coordinates as luma — and every pixel it writes has alpha
exactly 255. -/
theorem claim_C10_fullres
    (toRGB : Fin 256 → Fin 256 → Fin 256 → Fin 256 × Fin 256 × Fin 256)
    (dst : RGBABuf) (r : Rectangle) (src : YCbCrImage) (sp : Point) (x y : Int)
    (h1 : src.subsample ≠ ss422) (h2 : src.subsample ≠ ss420) :
    drawYCbCr toRGB dst r src sp x y =
      if r.mem x y then
        ⟨(toRGB (src.yPl (sp.x + (x - r.min.x)) (sp.y + (y - r.min.y)))
                (src.cbPl (sp.x + (x - r.min.x)) (sp.y + (y - r.min.y)))
                (src.crPl (sp.x + (x - r.min.x)) (sp.y + (y - r.min.y)))).1,
         (toRGB (src.yPl (sp.x + (x - r.min.x)) (sp.y + (y - r.min.y)))
                (src.cbPl (sp.x + (x - r.min.x)) (sp.y + (y - r.min.y)))
                (src.crPl (sp.x + (x - r.min.x)) (sp.y + (y - r.min.y)))).2.1,
         (toRGB (src.yPl (sp.x + (x - r.min.x)) (sp.y + (y - r.min.y)))
                (src.cbPl (sp.x + (x - r.min.x)) (sp.y + (y - r.min.y)))
                (src.crPl (sp.x + (x - r.min.x)) (sp.y + (y - r.min.y)))).2.2,
         255⟩
      else dst x y := by
  rw [drawYCbCr_apply toRGB dst r src sp x y]
  unfold ycbcrStorePix
  rw [if_neg h1, if_neg h2]

/-- C10 witness: a concrete 4:4:4 image decoded at the origin. -/
theorem claim_C10_witness :
    drawYCbCr (fun a b c => (a, b, c)) (fun _ _ => ⟨0, 0, 0, 0⟩) ⟨⟨0, 0⟩, ⟨1, 1⟩⟩
        ⟨fun _ _ => 7, fun _ _ => 8, fun _ _ => 9, 0, ⟨⟨0, 0⟩, ⟨1, 1⟩⟩⟩ ⟨0, 0⟩ 0 0
      = if (⟨⟨0, 0⟩, ⟨1, 1⟩⟩ : Rectangle).mem 0 0 then ⟨7, 8, 9, 255⟩
        else ⟨0, 0, 0, 0⟩ :=
  claim_C10_fullres (fun a b c => (a, b, c)) (fun _ _ => ⟨0, 0, 0, 0⟩) ⟨⟨0, 0⟩, ⟨1, 1⟩⟩
    ⟨fun _ _ => 7, fun _ _ => 8, fun _ _ => 9, 0, ⟨⟨0, 0⟩, ⟨1, 1⟩⟩⟩ ⟨0, 0⟩ 0 0
    (by decide) (by decide)

/-- C3 counterexample: the spec's direction rule is inverted.  With the
source start point strictly above `r.Min` (here `sp = (0,0)`,
`r.Min = (1,1)`, overlapping aliased regions) the code sets
`backwardCond` and the loop triples step by `-1` (descending), not `1`
(ascending) as the claim requires. -/
theorem claim_C3_counterexample :
    ¬ (∀ (r : Rectangle) (sp : Point),
        (sp.y < r.min.y ∨ (sp.y = r.min.y ∧ sp.x < r.min.x)) →
        (loopTriples r (true && r.overlaps (r.add (sp.sub r.min)) && backwardCond r sp)).2.2.2
          = 1) := by
  intro h
  have hc := h ⟨⟨1, 1⟩, ⟨3, 3⟩⟩ ⟨0, 0⟩ (Or.inl (by decide))
  revert hc
  decide

/-- C3 amended: the direction decision is the opposite of the claim —
the loops run descending exactly when `sp` is above `r.Min` or on the
same row to its left (`backwardCond`), ascending otherwise; one
decision drives both axes of the loop triples, and drawCopyOver's
forward test is the negation of the same condition. -/
theorem claim_C3_direction (r : Rectangle) (sp : Point) :
    (backwardCond r sp = true ↔ (sp.y < r.min.y ∨ (sp.y = r.min.y ∧ sp.x < r.min.x)))
    ∧ loopTriples r true = ((r.max.x - 1, r.min.x - 1, -1), (r.max.y - 1, r.min.y - 1, -1))
    ∧ loopTriples r false = ((r.min.x, r.max.x, 1), (r.min.y, r.max.y, 1))
    ∧ ((decide (r.min.y < sp.y) || (decide (r.min.y = sp.y) && decide (r.min.x ≤ sp.x)))
        = !backwardCond r sp) := by
  refine ⟨?_, rfl, rfl, ?_⟩
  · unfold backwardCond
    simp only [Bool.or_eq_true, Bool.and_eq_true, decide_eq_true_eq]
  · unfold backwardCond
    rw [Bool.eq_iff_iff]
    simp only [Bool.or_eq_true, Bool.and_eq_true, decide_eq_true_eq, Bool.not_eq_true',
      Bool.or_eq_false_iff, Bool.and_eq_false_iff, decide_eq_false_iff_not]
    omega

set_option maxRecDepth 4000 in
/-- C7: multiplying an 8-bit value by 0x101 is exactly the widening
v*65535/255, and the NRGBA fast paths' conversion is bit-identical to
the generic path's NRGBAColor.RGBA() and always lands in the 16-bit
premultiplied contract. -/
theorem claim_C7_widening :
    (∀ v : Fin 256, v.val * 0x101 = v.val * 65535 / 255)
    ∧ (∀ c : NRGBAColor, nrgbaToPremult c = c.rgba ∧ (nrgbaToPremult c).valid) := by
  constructor
  · decide
  · intro c
    exact ⟨rfl, nrgba_rgba_valid c⟩

/-- C8: the concrete scenario — a 4×4 fully transparent destination,
a 2×2 opaque red solid fill drawn with Src at offset (1,1): pixels of
the 2×2 interior read back exactly (65535,0,0,65535) and every other
pixel stays (0,0,0,0). -/
theorem claim_C8_scenario
    (toRGB : Fin 256 → Fin 256 → Fin 256 → Fin 256 × Fin 256 × Fin 256) :
    ∀ x y : Int,
      (DrawMask toRGB (.rgbaDst ⟨fun _ _ => ⟨0, 0, 0, 0⟩, ⟨⟨0, 0⟩, ⟨4, 4⟩⟩⟩)
          ⟨⟨1, 1⟩, ⟨3, 3⟩⟩ (.colorImage ⟨65535, 0, 0, 65535⟩) ZP none ZP Op.Src).at16 x y
        = if (⟨⟨1, 1⟩, ⟨3, 3⟩⟩ : Rectangle).mem x y then ⟨65535, 0, 0, 65535⟩
          else ⟨0, 0, 0, 0⟩ := by
  intro x y
  have hD : DrawMask toRGB (.rgbaDst ⟨fun _ _ => ⟨0, 0, 0, 0⟩, ⟨⟨0, 0⟩, ⟨4, 4⟩⟩⟩)
        ⟨⟨1, 1⟩, ⟨3, 3⟩⟩ (.colorImage ⟨65535, 0, 0, 65535⟩) ZP none ZP Op.Src
      = .rgbaDst ⟨drawFillSrc (fun _ _ => ⟨0, 0, 0, 0⟩) ⟨⟨1, 1⟩, ⟨3, 3⟩⟩
          ⟨65535, 0, 0, 65535⟩, ⟨⟨0, 0⟩, ⟨4, 4⟩⟩⟩ := rfl
  rw [hD]
  show (drawFillSrc (fun _ _ => ⟨0, 0, 0, 0⟩) ⟨⟨1, 1⟩, ⟨3, 3⟩⟩
      ⟨65535, 0, 0, 65535⟩ x y).rgba = _
  rw [drawFillSrc_apply]
  by_cases hm : (⟨⟨1, 1⟩, ⟨3, 3⟩⟩ : Rectangle).mem x y
  · rw [if_pos hm, if_pos hm]
    rfl
  · rw [if_neg hm, if_neg hm]
    rfl

/-- One Src pass writes every pixel of the clipped rectangle a value
independent of the destination's prior contents, so a second identical
pass reproduces the same buffer. -/
theorem srcPass_idem2 (rr : Rectangle) (path : RGBABuf → RGBABuf) (dst0 : RGBABuf)
    (val : Int → Int → RGBAColor → RGBAColor)
    (hval : ∀ x y d e, val x y d = val x y e)
    (hpath : ∀ b x y, path b x y = if rr.mem x y then val x y (b x y) else b x y) :
    ∀ x y, path (path dst0) x y = path dst0 x y := by
  intro x y
  rw [hpath (path dst0) x y]
  by_cases hm : rr.mem x y
  · rw [if_pos hm, hpath dst0 x y, if_pos hm]
    exact hval x y _ _
  · rw [if_neg hm]

/-- srcPass_idem2 for the generic destination's stored-color buffers. -/
theorem srcPass_idem16 (rr : Rectangle) (path : Color16Buf → Color16Buf) (dst0 : Color16Buf)
    (val : Int → Int → Color16 → Color16)
    (hval : ∀ x y d e, val x y d = val x y e)
    (hpath : ∀ b x y, path b x y = if rr.mem x y then val x y (b x y) else b x y) :
    ∀ x y, path (path dst0) x y = path dst0 x y := by
  intro x y
  rw [hpath (path dst0) x y]
  by_cases hm : rr.mem x y
  · rw [if_pos hm, hpath dst0 x y, if_pos hm]
    exact hval x y _ _
  · rw [if_neg hm]

/-- The generic loop's Src step always stores a value that does not
depend on the destination pixel. -/
theorem genericApplied_src_const (ma : Nat) (s : Color16) (d e : Color16) :
    genericApplied Op.Src ma s d = genericApplied Op.Src ma s e := by
  unfold genericApplied genericStep
  by_cases h0 : ma = 0
  · rw [if_pos h0, if_pos h0]
    rfl
  · rw [if_neg h0, if_neg h0]
    by_cases h1 : ma = m ∧ Op.Src = Op.Src
    · rw [if_pos h1, if_pos h1]
      rfl
    · rw [if_neg h1, if_neg h1]
      rfl

/-- C5 counterexample: when the source is the destination itself and
the translated region overlaps, the second Src pass reads pixels the
first pass already overwrote.  A 3×1 buffer with distinct alphas,
copied one pixel to the right, differs at (2,0) after one and after two
passes. -/
theorem claim_C5_counterexample :
    ((fun d => DrawMask (fun a b c => (a, b, c)) d ⟨⟨1, 0⟩, ⟨3, 1⟩⟩ .dstItself ⟨0, 0⟩
        none ZP Op.Src)
      ((fun d => DrawMask (fun a b c => (a, b, c)) d ⟨⟨1, 0⟩, ⟨3, 1⟩⟩ .dstItself ⟨0, 0⟩
        none ZP Op.Src)
        (.rgbaDst ⟨fun x _ => if x = 0 then ⟨0, 0, 0, 10⟩
            else if x = 1 then ⟨0, 0, 0, 20⟩ else ⟨0, 0, 0, 30⟩,
          ⟨⟨0, 0⟩, ⟨3, 1⟩⟩⟩))).at16 2 0
      ≠ ((fun d => DrawMask (fun a b c => (a, b, c)) d ⟨⟨1, 0⟩, ⟨3, 1⟩⟩ .dstItself ⟨0, 0⟩
          none ZP Op.Src)
          (.rgbaDst ⟨fun x _ => if x = 0 then ⟨0, 0, 0, 10⟩
              else if x = 1 then ⟨0, 0, 0, 20⟩ else ⟨0, 0, 0, 30⟩,
            ⟨⟨0, 0⟩, ⟨3, 1⟩⟩⟩)).at16 2 0 := by
  decide

/-- C5 amended: with any source other than the destination itself,
DrawMask with op = Src is idempotent — a second call with identical
arguments leaves the destination exactly as after the first. -/
theorem claim_C5_src_idempotent
    (toRGB : Fin 256 → Fin 256 → Fin 256 → Fin 256 × Fin 256 × Fin 256)
    (dst : DstImage) (r : Rectangle) (src : SrcImage) (sp : Point)
    (mask : Option MaskImage) (mp : Point) (h : src.isSelf = false) :
    DrawMask toRGB (DrawMask toRGB dst r src sp mask mp Op.Src) r src sp mask mp Op.Src
      = DrawMask toRGB dst r src sp mask mp Op.Src := by
  cases dst with
  | rgbaDst im =>
    cases mask with
    | none =>
      cases src with
      | colorImage cc =>
        by_cases hE : (clip im.rect r colorImageBounds sp none mp).1.isEmpty = true
        · have hI : DrawMask toRGB (.rgbaDst im) r (SrcImage.colorImage cc) sp none mp Op.Src
              = .rgbaDst im := by
            unfold DrawMask
            dsimp only
            split
            · rfl
            · next hne => exact absurd hE hne
          rw [hI]
          exact hI
        · have hI : DrawMask toRGB (.rgbaDst im) r (SrcImage.colorImage cc) sp none mp Op.Src
              = .rgbaDst ⟨drawFillSrc im.pix (clip im.rect r colorImageBounds sp none mp).1 cc, im.rect⟩ := by
            unfold DrawMask
            dsimp only
            split
            · next hpos => exact absurd hpos hE
            · rfl
          have hI2 : DrawMask toRGB (.rgbaDst ⟨drawFillSrc im.pix (clip im.rect r colorImageBounds sp none mp).1 cc, im.rect⟩) r (SrcImage.colorImage cc) sp none mp Op.Src
              = .rgbaDst ⟨drawFillSrc (drawFillSrc im.pix (clip im.rect r colorImageBounds sp none mp).1 cc) (clip im.rect r colorImageBounds sp none mp).1 cc, im.rect⟩ := by
            unfold DrawMask
            dsimp only
            split
            · next hpos => exact absurd hpos hE
            · rfl
          have hfun : drawFillSrc (drawFillSrc im.pix (clip im.rect r colorImageBounds sp none mp).1 cc) (clip im.rect r colorImageBounds sp none mp).1 cc
              = drawFillSrc im.pix (clip im.rect r colorImageBounds sp none mp).1 cc :=
            funext fun u => funext fun v =>
              srcPass_idem2 (clip im.rect r colorImageBounds sp none mp).1
                (fun b => drawFillSrc b (clip im.rect r colorImageBounds sp none mp).1 cc) im.pix
                (fun _ _ _ => rgba8OfColor16 cc)
                (fun _ _ _ _ => rfl)
                (fun b x y => drawFillSrc_apply b (clip im.rect r colorImageBounds sp none mp).1 cc x y) u v
          rw [hI, hI2, hfun]
      | rgba s =>
        by_cases hE : (clip im.rect r s.rect sp none mp).1.isEmpty = true
        · have hI : DrawMask toRGB (.rgbaDst im) r (SrcImage.rgba s) sp none mp Op.Src
              = .rgbaDst im := by
            unfold DrawMask
            dsimp only
            split
            · rfl
            · next hne => exact absurd hE hne
          rw [hI]
          exact hI
        · have hI : DrawMask toRGB (.rgbaDst im) r (SrcImage.rgba s) sp none mp Op.Src
              = .rgbaDst ⟨drawCopySrc im.pix (clip im.rect r s.rect sp none mp).1 false s.pix (clip im.rect r s.rect sp none mp).2.1, im.rect⟩ := by
            unfold DrawMask
            dsimp only
            split
            · next hpos => exact absurd hpos hE
            · rfl
          have hI2 : DrawMask toRGB (.rgbaDst ⟨drawCopySrc im.pix (clip im.rect r s.rect sp none mp).1 false s.pix (clip im.rect r s.rect sp none mp).2.1, im.rect⟩) r (SrcImage.rgba s) sp none mp Op.Src
              = .rgbaDst ⟨drawCopySrc (drawCopySrc im.pix (clip im.rect r s.rect sp none mp).1 false s.pix (clip im.rect r s.rect sp none mp).2.1) (clip im.rect r s.rect sp none mp).1 false s.pix (clip im.rect r s.rect sp none mp).2.1, im.rect⟩ := by
            unfold DrawMask
            dsimp only
            split
            · next hpos => exact absurd hpos hE
            · rfl
          have hfun : drawCopySrc (drawCopySrc im.pix (clip im.rect r s.rect sp none mp).1 false s.pix (clip im.rect r s.rect sp none mp).2.1) (clip im.rect r s.rect sp none mp).1 false s.pix (clip im.rect r s.rect sp none mp).2.1
              = drawCopySrc im.pix (clip im.rect r s.rect sp none mp).1 false s.pix (clip im.rect r s.rect sp none mp).2.1 :=
            funext fun u => funext fun v =>
              srcPass_idem2 (clip im.rect r s.rect sp none mp).1
                (fun b => drawCopySrc b (clip im.rect r s.rect sp none mp).1 false s.pix (clip im.rect r s.rect sp none mp).2.1) im.pix
                (fun x y _ => s.pix ((clip im.rect r s.rect sp none mp).2.1.x + (x - (clip im.rect r s.rect sp none mp).1.min.x)) ((clip im.rect r s.rect sp none mp).2.1.y + (y - (clip im.rect r s.rect sp none mp).1.min.y)))
                (fun _ _ _ _ => rfl)
                (fun b x y => drawCopySrc_apply b (clip im.rect r s.rect sp none mp).1 false s.pix (clip im.rect r s.rect sp none mp).2.1 x y) u v
          rw [hI, hI2, hfun]
      | dstItself => exact absurd h (by decide)
      | nrgba s =>
        by_cases hE : (clip im.rect r s.rect sp none mp).1.isEmpty = true
        · have hI : DrawMask toRGB (.rgbaDst im) r (SrcImage.nrgba s) sp none mp Op.Src
              = .rgbaDst im := by
            unfold DrawMask
            dsimp only
            split
            · rfl
            · next hne => exact absurd hE hne
          rw [hI]
          exact hI
        · have hI : DrawMask toRGB (.rgbaDst im) r (SrcImage.nrgba s) sp none mp Op.Src
              = .rgbaDst ⟨drawNRGBASrc im.pix (clip im.rect r s.rect sp none mp).1 s.pix (clip im.rect r s.rect sp none mp).2.1, im.rect⟩ := by
            unfold DrawMask
            dsimp only
            split
            · next hpos => exact absurd hpos hE
            · rfl
          have hI2 : DrawMask toRGB (.rgbaDst ⟨drawNRGBASrc im.pix (clip im.rect r s.rect sp none mp).1 s.pix (clip im.rect r s.rect sp none mp).2.1, im.rect⟩) r (SrcImage.nrgba s) sp none mp Op.Src
              = .rgbaDst ⟨drawNRGBASrc (drawNRGBASrc im.pix (clip im.rect r s.rect sp none mp).1 s.pix (clip im.rect r s.rect sp none mp).2.1) (clip im.rect r s.rect sp none mp).1 s.pix (clip im.rect r s.rect sp none mp).2.1, im.rect⟩ := by
            unfold DrawMask
            dsimp only
            split
            · next hpos => exact absurd hpos hE
            · rfl
          have hfun : drawNRGBASrc (drawNRGBASrc im.pix (clip im.rect r s.rect sp none mp).1 s.pix (clip im.rect r s.rect sp none mp).2.1) (clip im.rect r s.rect sp none mp).1 s.pix (clip im.rect r s.rect sp none mp).2.1
              = drawNRGBASrc im.pix (clip im.rect r s.rect sp none mp).1 s.pix (clip im.rect r s.rect sp none mp).2.1 :=
            funext fun u => funext fun v =>
              srcPass_idem2 (clip im.rect r s.rect sp none mp).1
                (fun b => drawNRGBASrc b (clip im.rect r s.rect sp none mp).1 s.pix (clip im.rect r s.rect sp none mp).2.1) im.pix
                (fun x y _ => rgba8OfColor16 (nrgbaToPremult (s.pix ((clip im.rect r s.rect sp none mp).2.1.x + (x - (clip im.rect r s.rect sp none mp).1.min.x)) ((clip im.rect r s.rect sp none mp).2.1.y + (y - (clip im.rect r s.rect sp none mp).1.min.y)))))
                (fun _ _ _ _ => rfl)
                (fun b x y => drawNRGBASrc_apply b (clip im.rect r s.rect sp none mp).1 s.pix (clip im.rect r s.rect sp none mp).2.1 x y) u v
          rw [hI, hI2, hfun]
      | ycbcrSrc s =>
        by_cases hE : (clip im.rect r s.rect sp none mp).1.isEmpty = true
        · have hI : DrawMask toRGB (.rgbaDst im) r (SrcImage.ycbcrSrc s) sp none mp Op.Src
              = .rgbaDst im := by
            unfold DrawMask
            dsimp only
            split
            · rfl
            · next hne => exact absurd hE hne
          rw [hI]
          exact hI
        · have hI : DrawMask toRGB (.rgbaDst im) r (SrcImage.ycbcrSrc s) sp none mp Op.Src
              = .rgbaDst ⟨drawYCbCr toRGB im.pix (clip im.rect r s.rect sp none mp).1 s (clip im.rect r s.rect sp none mp).2.1, im.rect⟩ := by
            unfold DrawMask
            dsimp only
            split
            · next hpos => exact absurd hpos hE
            · rfl
          have hI2 : DrawMask toRGB (.rgbaDst ⟨drawYCbCr toRGB im.pix (clip im.rect r s.rect sp none mp).1 s (clip im.rect r s.rect sp none mp).2.1, im.rect⟩) r (SrcImage.ycbcrSrc s) sp none mp Op.Src
              = .rgbaDst ⟨drawYCbCr toRGB (drawYCbCr toRGB im.pix (clip im.rect r s.rect sp none mp).1 s (clip im.rect r s.rect sp none mp).2.1) (clip im.rect r s.rect sp none mp).1 s (clip im.rect r s.rect sp none mp).2.1, im.rect⟩ := by
            unfold DrawMask
            dsimp only
            split
            · next hpos => exact absurd hpos hE
            · rfl
          have hfun : drawYCbCr toRGB (drawYCbCr toRGB im.pix (clip im.rect r s.rect sp none mp).1 s (clip im.rect r s.rect sp none mp).2.1) (clip im.rect r s.rect sp none mp).1 s (clip im.rect r s.rect sp none mp).2.1
              = drawYCbCr toRGB im.pix (clip im.rect r s.rect sp none mp).1 s (clip im.rect r s.rect sp none mp).2.1 :=
            funext fun u => funext fun v =>
              srcPass_idem2 (clip im.rect r s.rect sp none mp).1
                (fun b => drawYCbCr toRGB b (clip im.rect r s.rect sp none mp).1 s (clip im.rect r s.rect sp none mp).2.1) im.pix
                (fun x y _ => ycbcrStorePix toRGB s ((clip im.rect r s.rect sp none mp).2.1.x + (x - (clip im.rect r s.rect sp none mp).1.min.x)) ((clip im.rect r s.rect sp none mp).2.1.y + (y - (clip im.rect r s.rect sp none mp).1.min.y)))
                (fun _ _ _ _ => rfl)
                (fun b x y => drawYCbCr_apply toRGB b (clip im.rect r s.rect sp none mp).1 s (clip im.rect r s.rect sp none mp).2.1 x y) u v
          rw [hI, hI2, hfun]
      | generic bnds colorAt =>
        by_cases hE : (clip im.rect r bnds sp none mp).1.isEmpty = true
        · have hI : DrawMask toRGB (.rgbaDst im) r (SrcImage.generic bnds colorAt) sp none mp Op.Src
              = .rgbaDst im := by
            unfold DrawMask
            dsimp only
            split
            · rfl
            · next hne => exact absurd hE hne
          rw [hI]
          exact hI
        · have hI : DrawMask toRGB (.rgbaDst im) r (SrcImage.generic bnds colorAt) sp none mp Op.Src
              = .rgbaDst ⟨drawRGBA im.pix (clip im.rect r bnds sp none mp).1 false (SrcImage.at16 toRGB (SrcImage.generic bnds colorAt)) (clip im.rect r bnds sp none mp).2.1 none (clip im.rect r bnds sp none mp).2.2 Op.Src, im.rect⟩ := by
            unfold DrawMask
            dsimp only
            split
            · next hpos => exact absurd hpos hE
            · rfl
          have hI2 : DrawMask toRGB (.rgbaDst ⟨drawRGBA im.pix (clip im.rect r bnds sp none mp).1 false (SrcImage.at16 toRGB (SrcImage.generic bnds colorAt)) (clip im.rect r bnds sp none mp).2.1 none (clip im.rect r bnds sp none mp).2.2 Op.Src, im.rect⟩) r (SrcImage.generic bnds colorAt) sp none mp Op.Src
              = .rgbaDst ⟨drawRGBA (drawRGBA im.pix (clip im.rect r bnds sp none mp).1 false (SrcImage.at16 toRGB (SrcImage.generic bnds colorAt)) (clip im.rect r bnds sp none mp).2.1 none (clip im.rect r bnds sp none mp).2.2 Op.Src) (clip im.rect r bnds sp none mp).1 false (SrcImage.at16 toRGB (SrcImage.generic bnds colorAt)) (clip im.rect r bnds sp none mp).2.1 none (clip im.rect r bnds sp none mp).2.2 Op.Src, im.rect⟩ := by
            unfold DrawMask
            dsimp only
            split
            · next hpos => exact absurd hpos hE
            · rfl
          have hfun : drawRGBA (drawRGBA im.pix (clip im.rect r bnds sp none mp).1 false (SrcImage.at16 toRGB (SrcImage.generic bnds colorAt)) (clip im.rect r bnds sp none mp).2.1 none (clip im.rect r bnds sp none mp).2.2 Op.Src) (clip im.rect r bnds sp none mp).1 false (SrcImage.at16 toRGB (SrcImage.generic bnds colorAt)) (clip im.rect r bnds sp none mp).2.1 none (clip im.rect r bnds sp none mp).2.2 Op.Src
              = drawRGBA im.pix (clip im.rect r bnds sp none mp).1 false (SrcImage.at16 toRGB (SrcImage.generic bnds colorAt)) (clip im.rect r bnds sp none mp).2.1 none (clip im.rect r bnds sp none mp).2.2 Op.Src :=
            funext fun u => funext fun v =>
              srcPass_idem2 (clip im.rect r bnds sp none mp).1
                (fun b => drawRGBA b (clip im.rect r bnds sp none mp).1 false (SrcImage.at16 toRGB (SrcImage.generic bnds colorAt)) (clip im.rect r bnds sp none mp).2.1 none (clip im.rect r bnds sp none mp).2.2 Op.Src) im.pix
                (fun x y d => drawRGBAPixel Op.Src
                  (maskAlphaOr none ((clip im.rect r bnds sp none mp).2.2.x + x - (clip im.rect r bnds sp none mp).1.min.x) ((clip im.rect r bnds sp none mp).2.2.y + y - (clip im.rect r bnds sp none mp).1.min.y))
                  (SrcImage.at16 toRGB (SrcImage.generic bnds colorAt) ((clip im.rect r bnds sp none mp).2.1.x + x - (clip im.rect r bnds sp none mp).1.min.x) ((clip im.rect r bnds sp none mp).2.1.y + y - (clip im.rect r bnds sp none mp).1.min.y)) d)
                (fun _ _ _ _ => rfl)
                (fun b x y => drawRGBA_apply b (clip im.rect r bnds sp none mp).1 false (SrcImage.at16 toRGB (SrcImage.generic bnds colorAt)) (clip im.rect r bnds sp none mp).2.1 none (clip im.rect r bnds sp none mp).2.2 Op.Src x y) u v
          rw [hI, hI2, hfun]
    | some mk =>
      cases src with
      | colorImage cc =>
        by_cases hE : (clip im.rect r colorImageBounds sp (some mk.bounds) mp).1.isEmpty = true
        · have hI : DrawMask toRGB (.rgbaDst im) r (SrcImage.colorImage cc) sp (some mk) mp Op.Src
              = .rgbaDst im := by
            unfold DrawMask
            dsimp only
            split
            · rfl
            · next hne => exact absurd hE hne
          rw [hI]
          exact hI
        · have hI : DrawMask toRGB (.rgbaDst im) r (SrcImage.colorImage cc) sp (some mk) mp Op.Src
              = .rgbaDst ⟨drawRGBA im.pix (clip im.rect r colorImageBounds sp (some mk.bounds) mp).1 false (SrcImage.at16 toRGB (SrcImage.colorImage cc)) (clip im.rect r colorImageBounds sp (some mk.bounds) mp).2.1 (some (MaskImage.alphaAt16 mk)) (clip im.rect r colorImageBounds sp (some mk.bounds) mp).2.2 Op.Src, im.rect⟩ := by
            unfold DrawMask
            dsimp only
            split
            · next hpos => exact absurd hpos hE
            · rfl
          have hI2 : DrawMask toRGB (.rgbaDst ⟨drawRGBA im.pix (clip im.rect r colorImageBounds sp (some mk.bounds) mp).1 false (SrcImage.at16 toRGB (SrcImage.colorImage cc)) (clip im.rect r colorImageBounds sp (some mk.bounds) mp).2.1 (some (MaskImage.alphaAt16 mk)) (clip im.rect r colorImageBounds sp (some mk.bounds) mp).2.2 Op.Src, im.rect⟩) r (SrcImage.colorImage cc) sp (some mk) mp Op.Src
              = .rgbaDst ⟨drawRGBA (drawRGBA im.pix (clip im.rect r colorImageBounds sp (some mk.bounds) mp).1 false (SrcImage.at16 toRGB (SrcImage.colorImage cc)) (clip im.rect r colorImageBounds sp (some mk.bounds) mp).2.1 (some (MaskImage.alphaAt16 mk)) (clip im.rect r colorImageBounds sp (some mk.bounds) mp).2.2 Op.Src) (clip im.rect r colorImageBounds sp (some mk.bounds) mp).1 false (SrcImage.at16 toRGB (SrcImage.colorImage cc)) (clip im.rect r colorImageBounds sp (some mk.bounds) mp).2.1 (some (MaskImage.alphaAt16 mk)) (clip im.rect r colorImageBounds sp (some mk.bounds) mp).2.2 Op.Src, im.rect⟩ := by
            unfold DrawMask
            dsimp only
            split
            · next hpos => exact absurd hpos hE
            · rfl
          have hfun : drawRGBA (drawRGBA im.pix (clip im.rect r colorImageBounds sp (some mk.bounds) mp).1 false (SrcImage.at16 toRGB (SrcImage.colorImage cc)) (clip im.rect r colorImageBounds sp (some mk.bounds) mp).2.1 (some (MaskImage.alphaAt16 mk)) (clip im.rect r colorImageBounds sp (some mk.bounds) mp).2.2 Op.Src) (clip im.rect r colorImageBounds sp (some mk.bounds) mp).1 false (SrcImage.at16 toRGB (SrcImage.colorImage cc)) (clip im.rect r colorImageBounds sp (some mk.bounds) mp).2.1 (some (MaskImage.alphaAt16 mk)) (clip im.rect r colorImageBounds sp (some mk.bounds) mp).2.2 Op.Src
              = drawRGBA im.pix (clip im.rect r colorImageBounds sp (some mk.bounds) mp).1 false (SrcImage.at16 toRGB (SrcImage.colorImage cc)) (clip im.rect r colorImageBounds sp (some mk.bounds) mp).2.1 (some (MaskImage.alphaAt16 mk)) (clip im.rect r colorImageBounds sp (some mk.bounds) mp).2.2 Op.Src :=
            funext fun u => funext fun v =>
              srcPass_idem2 (clip im.rect r colorImageBounds sp (some mk.bounds) mp).1
                (fun b => drawRGBA b (clip im.rect r colorImageBounds sp (some mk.bounds) mp).1 false (SrcImage.at16 toRGB (SrcImage.colorImage cc)) (clip im.rect r colorImageBounds sp (some mk.bounds) mp).2.1 (some (MaskImage.alphaAt16 mk)) (clip im.rect r colorImageBounds sp (some mk.bounds) mp).2.2 Op.Src) im.pix
                (fun x y d => drawRGBAPixel Op.Src
                  (maskAlphaOr (some (MaskImage.alphaAt16 mk)) ((clip im.rect r colorImageBounds sp (some mk.bounds) mp).2.2.x + x - (clip im.rect r colorImageBounds sp (some mk.bounds) mp).1.min.x) ((clip im.rect r colorImageBounds sp (some mk.bounds) mp).2.2.y + y - (clip im.rect r colorImageBounds sp (some mk.bounds) mp).1.min.y))
                  (SrcImage.at16 toRGB (SrcImage.colorImage cc) ((clip im.rect r colorImageBounds sp (some mk.bounds) mp).2.1.x + x - (clip im.rect r colorImageBounds sp (some mk.bounds) mp).1.min.x) ((clip im.rect r colorImageBounds sp (some mk.bounds) mp).2.1.y + y - (clip im.rect r colorImageBounds sp (some mk.bounds) mp).1.min.y)) d)
                (fun _ _ _ _ => rfl)
                (fun b x y => drawRGBA_apply b (clip im.rect r colorImageBounds sp (some mk.bounds) mp).1 false (SrcImage.at16 toRGB (SrcImage.colorImage cc)) (clip im.rect r colorImageBounds sp (some mk.bounds) mp).2.1 (some (MaskImage.alphaAt16 mk)) (clip im.rect r colorImageBounds sp (some mk.bounds) mp).2.2 Op.Src x y) u v
          rw [hI, hI2, hfun]
      | rgba s =>
        by_cases hE : (clip im.rect r s.rect sp (some mk.bounds) mp).1.isEmpty = true
        · have hI : DrawMask toRGB (.rgbaDst im) r (SrcImage.rgba s) sp (some mk) mp Op.Src
              = .rgbaDst im := by
            unfold DrawMask
            dsimp only
            split
            · rfl
            · next hne => exact absurd hE hne
          rw [hI]
          exact hI
        · have hI : DrawMask toRGB (.rgbaDst im) r (SrcImage.rgba s) sp (some mk) mp Op.Src
              = .rgbaDst ⟨drawRGBA im.pix (clip im.rect r s.rect sp (some mk.bounds) mp).1 false (SrcImage.at16 toRGB (SrcImage.rgba s)) (clip im.rect r s.rect sp (some mk.bounds) mp).2.1 (some (MaskImage.alphaAt16 mk)) (clip im.rect r s.rect sp (some mk.bounds) mp).2.2 Op.Src, im.rect⟩ := by
            unfold DrawMask
            dsimp only
            split
            · next hpos => exact absurd hpos hE
            · rfl
          have hI2 : DrawMask toRGB (.rgbaDst ⟨drawRGBA im.pix (clip im.rect r s.rect sp (some mk.bounds) mp).1 false (SrcImage.at16 toRGB (SrcImage.rgba s)) (clip im.rect r s.rect sp (some mk.bounds) mp).2.1 (some (MaskImage.alphaAt16 mk)) (clip im.rect r s.rect sp (some mk.bounds) mp).2.2 Op.Src, im.rect⟩) r (SrcImage.rgba s) sp (some mk) mp Op.Src
              = .rgbaDst ⟨drawRGBA (drawRGBA im.pix (clip im.rect r s.rect sp (some mk.bounds) mp).1 false (SrcImage.at16 toRGB (SrcImage.rgba s)) (clip im.rect r s.rect sp (some mk.bounds) mp).2.1 (some (MaskImage.alphaAt16 mk)) (clip im.rect r s.rect sp (some mk.bounds) mp).2.2 Op.Src) (clip im.rect r s.rect sp (some mk.bounds) mp).1 false (SrcImage.at16 toRGB (SrcImage.rgba s)) (clip im.rect r s.rect sp (some mk.bounds) mp).2.1 (some (MaskImage.alphaAt16 mk)) (clip im.rect r s.rect sp (some mk.bounds) mp).2.2 Op.Src, im.rect⟩ := by
            unfold DrawMask
            dsimp only
            split
            · next hpos => exact absurd hpos hE
            · rfl
          have hfun : drawRGBA (drawRGBA im.pix (clip im.rect r s.rect sp (some mk.bounds) mp).1 false (SrcImage.at16 toRGB (SrcImage.rgba s)) (clip im.rect r s.rect sp (some mk.bounds) mp).2.1 (some (MaskImage.alphaAt16 mk)) (clip im.rect r s.rect sp (some mk.bounds) mp).2.2 Op.Src) (clip im.rect r s.rect sp (some mk.bounds) mp).1 false (SrcImage.at16 toRGB (SrcImage.rgba s)) (clip im.rect r s.rect sp (some mk.bounds) mp).2.1 (some (MaskImage.alphaAt16 mk)) (clip im.rect r s.rect sp (some mk.bounds) mp).2.2 Op.Src
              = drawRGBA im.pix (clip im.rect r s.rect sp (some mk.bounds) mp).1 false (SrcImage.at16 toRGB (SrcImage.rgba s)) (clip im.rect r s.rect sp (some mk.bounds) mp).2.1 (some (MaskImage.alphaAt16 mk)) (clip im.rect r s.rect sp (some mk.bounds) mp).2.2 Op.Src :=
            funext fun u => funext fun v =>
              srcPass_idem2 (clip im.rect r s.rect sp (some mk.bounds) mp).1
                (fun b => drawRGBA b (clip im.rect r s.rect sp (some mk.bounds) mp).1 false (SrcImage.at16 toRGB (SrcImage.rgba s)) (clip im.rect r s.rect sp (some mk.bounds) mp).2.1 (some (MaskImage.alphaAt16 mk)) (clip im.rect r s.rect sp (some mk.bounds) mp).2.2 Op.Src) im.pix
                (fun x y d => drawRGBAPixel Op.Src
                  (maskAlphaOr (some (MaskImage.alphaAt16 mk)) ((clip im.rect r s.rect sp (some mk.bounds) mp).2.2.x + x - (clip im.rect r s.rect sp (some mk.bounds) mp).1.min.x) ((clip im.rect r s.rect sp (some mk.bounds) mp).2.2.y + y - (clip im.rect r s.rect sp (some mk.bounds) mp).1.min.y))
                  (SrcImage.at16 toRGB (SrcImage.rgba s) ((clip im.rect r s.rect sp (some mk.bounds) mp).2.1.x + x - (clip im.rect r s.rect sp (some mk.bounds) mp).1.min.x) ((clip im.rect r s.rect sp (some mk.bounds) mp).2.1.y + y - (clip im.rect r s.rect sp (some mk.bounds) mp).1.min.y)) d)
                (fun _ _ _ _ => rfl)
                (fun b x y => drawRGBA_apply b (clip im.rect r s.rect sp (some mk.bounds) mp).1 false (SrcImage.at16 toRGB (SrcImage.rgba s)) (clip im.rect r s.rect sp (some mk.bounds) mp).2.1 (some (MaskImage.alphaAt16 mk)) (clip im.rect r s.rect sp (some mk.bounds) mp).2.2 Op.Src x y) u v
          rw [hI, hI2, hfun]
      | dstItself => exact absurd h (by decide)
      | nrgba s =>
        by_cases hE : (clip im.rect r s.rect sp (some mk.bounds) mp).1.isEmpty = true
        · have hI : DrawMask toRGB (.rgbaDst im) r (SrcImage.nrgba s) sp (some mk) mp Op.Src
              = .rgbaDst im := by
            unfold DrawMask
            dsimp only
            split
            · rfl
            · next hne => exact absurd hE hne
          rw [hI]
          exact hI
        · have hI : DrawMask toRGB (.rgbaDst im) r (SrcImage.nrgba s) sp (some mk) mp Op.Src
              = .rgbaDst ⟨drawRGBA im.pix (clip im.rect r s.rect sp (some mk.bounds) mp).1 false (SrcImage.at16 toRGB (SrcImage.nrgba s)) (clip im.rect r s.rect sp (some mk.bounds) mp).2.1 (some (MaskImage.alphaAt16 mk)) (clip im.rect r s.rect sp (some mk.bounds) mp).2.2 Op.Src, im.rect⟩ := by
            unfold DrawMask
            dsimp only
            split
            · next hpos => exact absurd hpos hE
            · rfl
          have hI2 : DrawMask toRGB (.rgbaDst ⟨drawRGBA im.pix (clip im.rect r s.rect sp (some mk.bounds) mp).1 false (SrcImage.at16 toRGB (SrcImage.nrgba s)) (clip im.rect r s.rect sp (some mk.bounds) mp).2.1 (some (MaskImage.alphaAt16 mk)) (clip im.rect r s.rect sp (some mk.bounds) mp).2.2 Op.Src, im.rect⟩) r (SrcImage.nrgba s) sp (some mk) mp Op.Src
              = .rgbaDst ⟨drawRGBA (drawRGBA im.pix (clip im.rect r s.rect sp (some mk.bounds) mp).1 false (SrcImage.at16 toRGB (SrcImage.nrgba s)) (clip im.rect r s.rect sp (some mk.bounds) mp).2.1 (some (MaskImage.alphaAt16 mk)) (clip im.rect r s.rect sp (some mk.bounds) mp).2.2 Op.Src) (clip im.rect r s.rect sp (some mk.bounds) mp).1 false (SrcImage.at16 toRGB (SrcImage.nrgba s)) (clip im.rect r s.rect sp (some mk.bounds) mp).2.1 (some (MaskImage.alphaAt16 mk)) (clip im.rect r s.rect sp (some mk.bounds) mp).2.2 Op.Src, im.rect⟩ := by
            unfold DrawMask
            dsimp only
            split
            · next hpos => exact absurd hpos hE
            · rfl
          have hfun : drawRGBA (drawRGBA im.pix (clip im.rect r s.rect sp (some mk.bounds) mp).1 false (SrcImage.at16 toRGB (SrcImage.nrgba s)) (clip im.rect r s.rect sp (some mk.bounds) mp).2.1 (some (MaskImage.alphaAt16 mk)) (clip im.rect r s.rect sp (some mk.bounds) mp).2.2 Op.Src) (clip im.rect r s.rect sp (some mk.bounds) mp).1 false (SrcImage.at16 toRGB (SrcImage.nrgba s)) (clip im.rect r s.rect sp (some mk.bounds) mp).2.1 (some (MaskImage.alphaAt16 mk)) (clip im.rect r s.rect sp (some mk.bounds) mp).2.2 Op.Src
              = drawRGBA im.pix (clip im.rect r s.rect sp (some mk.bounds) mp).1 false (SrcImage.at16 toRGB (SrcImage.nrgba s)) (clip im.rect r s.rect sp (some mk.bounds) mp).2.1 (some (MaskImage.alphaAt16 mk)) (clip im.rect r s.rect sp (some mk.bounds) mp).2.2 Op.Src :=
            funext fun u => funext fun v =>
              srcPass_idem2 (clip im.rect r s.rect sp (some mk.bounds) mp).1
                (fun b => drawRGBA b (clip im.rect r s.rect sp (some mk.bounds) mp).1 false (SrcImage.at16 toRGB (SrcImage.nrgba s)) (clip im.rect r s.rect sp (some mk.bounds) mp).2.1 (some (MaskImage.alphaAt16 mk)) (clip im.rect r s.rect sp (some mk.bounds) mp).2.2 Op.Src) im.pix
                (fun x y d => drawRGBAPixel Op.Src
                  (maskAlphaOr (some (MaskImage.alphaAt16 mk)) ((clip im.rect r s.rect sp (some mk.bounds) mp).2.2.x + x - (clip im.rect r s.rect sp (some mk.bounds) mp).1.min.x) ((clip im.rect r s.rect sp (some mk.bounds) mp).2.2.y + y - (clip im.rect r s.rect sp (some mk.bounds) mp).1.min.y))
                  (SrcImage.at16 toRGB (SrcImage.nrgba s) ((clip im.rect r s.rect sp (some mk.bounds) mp).2.1.x + x - (clip im.rect r s.rect sp (some mk.bounds) mp).1.min.x) ((clip im.rect r s.rect sp (some mk.bounds) mp).2.1.y + y - (clip im.rect r s.rect sp (some mk.bounds) mp).1.min.y)) d)
                (fun _ _ _ _ => rfl)
                (fun b x y => drawRGBA_apply b (clip im.rect r s.rect sp (some mk.bounds) mp).1 false (SrcImage.at16 toRGB (SrcImage.nrgba s)) (clip im.rect r s.rect sp (some mk.bounds) mp).2.1 (some (MaskImage.alphaAt16 mk)) (clip im.rect r s.rect sp (some mk.bounds) mp).2.2 Op.Src x y) u v
          rw [hI, hI2, hfun]
      | ycbcrSrc s =>
        by_cases hE : (clip im.rect r s.rect sp (some mk.bounds) mp).1.isEmpty = true
        · have hI : DrawMask toRGB (.rgbaDst im) r (SrcImage.ycbcrSrc s) sp (some mk) mp Op.Src
              = .rgbaDst im := by
            unfold DrawMask
            dsimp only
            split
            · rfl
            · next hne => exact absurd hE hne
          rw [hI]
          exact hI
        · have hI : DrawMask toRGB (.rgbaDst im) r (SrcImage.ycbcrSrc s) sp (some mk) mp Op.Src
              = .rgbaDst ⟨drawRGBA im.pix (clip im.rect r s.rect sp (some mk.bounds) mp).1 false (SrcImage.at16 toRGB (SrcImage.ycbcrSrc s)) (clip im.rect r s.rect sp (some mk.bounds) mp).2.1 (some (MaskImage.alphaAt16 mk)) (clip im.rect r s.rect sp (some mk.bounds) mp).2.2 Op.Src, im.rect⟩ := by
            unfold DrawMask
            dsimp only
            split
            · next hpos => exact absurd hpos hE
            · rfl
          have hI2 : DrawMask toRGB (.rgbaDst ⟨drawRGBA im.pix (clip im.rect r s.rect sp (some mk.bounds) mp).1 false (SrcImage.at16 toRGB (SrcImage.ycbcrSrc s)) (clip im.rect r s.rect sp (some mk.bounds) mp).2.1 (some (MaskImage.alphaAt16 mk)) (clip im.rect r s.rect sp (some mk.bounds) mp).2.2 Op.Src, im.rect⟩) r (SrcImage.ycbcrSrc s) sp (some mk) mp Op.Src
              = .rgbaDst ⟨drawRGBA (drawRGBA im.pix (clip im.rect r s.rect sp (some mk.bounds) mp).1 false (SrcImage.at16 toRGB (SrcImage.ycbcrSrc s)) (clip im.rect r s.rect sp (some mk.bounds) mp).2.1 (some (MaskImage.alphaAt16 mk)) (clip im.rect r s.rect sp (some mk.bounds) mp).2.2 Op.Src) (clip im.rect r s.rect sp (some mk.bounds) mp).1 false (SrcImage.at16 toRGB (SrcImage.ycbcrSrc s)) (clip im.rect r s.rect sp (some mk.bounds) mp).2.1 (some (MaskImage.alphaAt16 mk)) (clip im.rect r s.rect sp (some mk.bounds) mp).2.2 Op.Src, im.rect⟩ := by
            unfold DrawMask
            dsimp only
            split
            · next hpos => exact absurd hpos hE
            · rfl
          have hfun : drawRGBA (drawRGBA im.pix (clip im.rect r s.rect sp (some mk.bounds) mp).1 false (SrcImage.at16 toRGB (SrcImage.ycbcrSrc s)) (clip im.rect r s.rect sp (some mk.bounds) mp).2.1 (some (MaskImage.alphaAt16 mk)) (clip im.rect r s.rect sp (some mk.bounds) mp).2.2 Op.Src) (clip im.rect r s.rect sp (some mk.bounds) mp).1 false (SrcImage.at16 toRGB (SrcImage.ycbcrSrc s)) (clip im.rect r s.rect sp (some mk.bounds) mp).2.1 (some (MaskImage.alphaAt16 mk)) (clip im.rect r s.rect sp (some mk.bounds) mp).2.2 Op.Src
              = drawRGBA im.pix (clip im.rect r s.rect sp (some mk.bounds) mp).1 false (SrcImage.at16 toRGB (SrcImage.ycbcrSrc s)) (clip im.rect r s.rect sp (some mk.bounds) mp).2.1 (some (MaskImage.alphaAt16 mk)) (clip im.rect r s.rect sp (some mk.bounds) mp).2.2 Op.Src :=
            funext fun u => funext fun v =>
              srcPass_idem2 (clip im.rect r s.rect sp (some mk.bounds) mp).1
                (fun b => drawRGBA b (clip im.rect r s.rect sp (some mk.bounds) mp).1 false (SrcImage.at16 toRGB (SrcImage.ycbcrSrc s)) (clip im.rect r s.rect sp (some mk.bounds) mp).2.1 (some (MaskImage.alphaAt16 mk)) (clip im.rect r s.rect sp (some mk.bounds) mp).2.2 Op.Src) im.pix
                (fun x y d => drawRGBAPixel Op.Src
                  (maskAlphaOr (some (MaskImage.alphaAt16 mk)) ((clip im.rect r s.rect sp (some mk.bounds) mp).2.2.x + x - (clip im.rect r s.rect sp (some mk.bounds) mp).1.min.x) ((clip im.rect r s.rect sp (some mk.bounds) mp).2.2.y + y - (clip im.rect r s.rect sp (some mk.bounds) mp).1.min.y))
                  (SrcImage.at16 toRGB (SrcImage.ycbcrSrc s) ((clip im.rect r s.rect sp (some mk.bounds) mp).2.1.x + x - (clip im.rect r s.rect sp (some mk.bounds) mp).1.min.x) ((clip im.rect r s.rect sp (some mk.bounds) mp).2.1.y + y - (clip im.rect r s.rect sp (some mk.bounds) mp).1.min.y)) d)
                (fun _ _ _ _ => rfl)
                (fun b x y => drawRGBA_apply b (clip im.rect r s.rect sp (some mk.bounds) mp).1 false (SrcImage.at16 toRGB (SrcImage.ycbcrSrc s)) (clip im.rect r s.rect sp (some mk.bounds) mp).2.1 (some (MaskImage.alphaAt16 mk)) (clip im.rect r s.rect sp (some mk.bounds) mp).2.2 Op.Src x y) u v
          rw [hI, hI2, hfun]
      | generic bnds colorAt =>
        by_cases hE : (clip im.rect r bnds sp (some mk.bounds) mp).1.isEmpty = true
        · have hI : DrawMask toRGB (.rgbaDst im) r (SrcImage.generic bnds colorAt) sp (some mk) mp Op.Src
              = .rgbaDst im := by
            unfold DrawMask
            dsimp only
            split
            · rfl
            · next hne => exact absurd hE hne
          rw [hI]
          exact hI
        · have hI : DrawMask toRGB (.rgbaDst im) r (SrcImage.generic bnds colorAt) sp (some mk) mp Op.Src
              = .rgbaDst ⟨drawRGBA im.pix (clip im.rect r bnds sp (some mk.bounds) mp).1 false (SrcImage.at16 toRGB (SrcImage.generic bnds colorAt)) (clip im.rect r bnds sp (some mk.bounds) mp).2.1 (some (MaskImage.alphaAt16 mk)) (clip im.rect r bnds sp (some mk.bounds) mp).2.2 Op.Src, im.rect⟩ := by
            unfold DrawMask
            dsimp only
            split
            · next hpos => exact absurd hpos hE
            · rfl
          have hI2 : DrawMask toRGB (.rgbaDst ⟨drawRGBA im.pix (clip im.rect r bnds sp (some mk.bounds) mp).1 false (SrcImage.at16 toRGB (SrcImage.generic bnds colorAt)) (clip im.rect r bnds sp (some mk.bounds) mp).2.1 (some (MaskImage.alphaAt16 mk)) (clip im.rect r bnds sp (some mk.bounds) mp).2.2 Op.Src, im.rect⟩) r (SrcImage.generic bnds colorAt) sp (some mk) mp Op.Src
              = .rgbaDst ⟨drawRGBA (drawRGBA im.pix (clip im.rect r bnds sp (some mk.bounds) mp).1 false (SrcImage.at16 toRGB (SrcImage.generic bnds colorAt)) (clip im.rect r bnds sp (some mk.bounds) mp).2.1 (some (MaskImage.alphaAt16 mk)) (clip im.rect r bnds sp (some mk.bounds) mp).2.2 Op.Src) (clip im.rect r bnds sp (some mk.bounds) mp).1 false (SrcImage.at16 toRGB (SrcImage.generic bnds colorAt)) (clip im.rect r bnds sp (some mk.bounds) mp).2.1 (some (MaskImage.alphaAt16 mk)) (clip im.rect r bnds sp (some mk.bounds) mp).2.2 Op.Src, im.rect⟩ := by
            unfold DrawMask
            dsimp only
            split
            · next hpos => exact absurd hpos hE
            · rfl
          have hfun : drawRGBA (drawRGBA im.pix (clip im.rect r bnds sp (some mk.bounds) mp).1 false (SrcImage.at16 toRGB (SrcImage.generic bnds colorAt)) (clip im.rect r bnds sp (some mk.bounds) mp).2.1 (some (MaskImage.alphaAt16 mk)) (clip im.rect r bnds sp (some mk.bounds) mp).2.2 Op.Src) (clip im.rect r bnds sp (some mk.bounds) mp).1 false (SrcImage.at16 toRGB (SrcImage.generic bnds colorAt)) (clip im.rect r bnds sp (some mk.bounds) mp).2.1 (some (MaskImage.alphaAt16 mk)) (clip im.rect r bnds sp (some mk.bounds) mp).2.2 Op.Src
              = drawRGBA im.pix (clip im.rect r bnds sp (some mk.bounds) mp).1 false (SrcImage.at16 toRGB (SrcImage.generic bnds colorAt)) (clip im.rect r bnds sp (some mk.bounds) mp).2.1 (some (MaskImage.alphaAt16 mk)) (clip im.rect r bnds sp (some mk.bounds) mp).2.2 Op.Src :=
            funext fun u => funext fun v =>
              srcPass_idem2 (clip im.rect r bnds sp (some mk.bounds) mp).1
                (fun b => drawRGBA b (clip im.rect r bnds sp (some mk.bounds) mp).1 false (SrcImage.at16 toRGB (SrcImage.generic bnds colorAt)) (clip im.rect r bnds sp (some mk.bounds) mp).2.1 (some (MaskImage.alphaAt16 mk)) (clip im.rect r bnds sp (some mk.bounds) mp).2.2 Op.Src) im.pix
                (fun x y d => drawRGBAPixel Op.Src
                  (maskAlphaOr (some (MaskImage.alphaAt16 mk)) ((clip im.rect r bnds sp (some mk.bounds) mp).2.2.x + x - (clip im.rect r bnds sp (some mk.bounds) mp).1.min.x) ((clip im.rect r bnds sp (some mk.bounds) mp).2.2.y + y - (clip im.rect r bnds sp (some mk.bounds) mp).1.min.y))
                  (SrcImage.at16 toRGB (SrcImage.generic bnds colorAt) ((clip im.rect r bnds sp (some mk.bounds) mp).2.1.x + x - (clip im.rect r bnds sp (some mk.bounds) mp).1.min.x) ((clip im.rect r bnds sp (some mk.bounds) mp).2.1.y + y - (clip im.rect r bnds sp (some mk.bounds) mp).1.min.y)) d)
                (fun _ _ _ _ => rfl)
                (fun b x y => drawRGBA_apply b (clip im.rect r bnds sp (some mk.bounds) mp).1 false (SrcImage.at16 toRGB (SrcImage.generic bnds colorAt)) (clip im.rect r bnds sp (some mk.bounds) mp).2.1 (some (MaskImage.alphaAt16 mk)) (clip im.rect r bnds sp (some mk.bounds) mp).2.2 Op.Src x y) u v
          rw [hI, hI2, hfun]
  | genericDst bnds pixmap =>
    by_cases hE : (clip bnds r (SrcImage.boundsIn bnds src) sp (Option.map MaskImage.bounds mask) mp).1.isEmpty = true
    · have hI : DrawMask toRGB (.genericDst bnds pixmap) r src sp mask mp Op.Src
          = .genericDst bnds pixmap := by
        unfold DrawMask
        dsimp only
        split
        · rfl
        · next hne => exact absurd hE hne
      rw [hI]
      exact hI
    · have hI : DrawMask toRGB (.genericDst bnds pixmap) r src sp mask mp Op.Src
          = .genericDst bnds (drawGeneric pixmap (clip bnds r (SrcImage.boundsIn bnds src) sp (Option.map MaskImage.bounds mask) mp).1 false (SrcImage.at16 toRGB src) (clip bnds r (SrcImage.boundsIn bnds src) sp (Option.map MaskImage.bounds mask) mp).2.1 (Option.map MaskImage.alphaAt16 mask) (clip bnds r (SrcImage.boundsIn bnds src) sp (Option.map MaskImage.bounds mask) mp).2.2 Op.Src) := by
        unfold DrawMask
        dsimp only
        split
        · next hpos => exact absurd hpos hE
        · rw [h]
          rfl
      have hI2 : DrawMask toRGB (.genericDst bnds (drawGeneric pixmap (clip bnds r (SrcImage.boundsIn bnds src) sp (Option.map MaskImage.bounds mask) mp).1 false (SrcImage.at16 toRGB src) (clip bnds r (SrcImage.boundsIn bnds src) sp (Option.map MaskImage.bounds mask) mp).2.1 (Option.map MaskImage.alphaAt16 mask) (clip bnds r (SrcImage.boundsIn bnds src) sp (Option.map MaskImage.bounds mask) mp).2.2 Op.Src)) r src sp mask mp Op.Src
          = .genericDst bnds (drawGeneric (drawGeneric pixmap (clip bnds r (SrcImage.boundsIn bnds src) sp (Option.map MaskImage.bounds mask) mp).1 false (SrcImage.at16 toRGB src) (clip bnds r (SrcImage.boundsIn bnds src) sp (Option.map MaskImage.bounds mask) mp).2.1 (Option.map MaskImage.alphaAt16 mask) (clip bnds r (SrcImage.boundsIn bnds src) sp (Option.map MaskImage.bounds mask) mp).2.2 Op.Src) (clip bnds r (SrcImage.boundsIn bnds src) sp (Option.map MaskImage.bounds mask) mp).1 false (SrcImage.at16 toRGB src) (clip bnds r (SrcImage.boundsIn bnds src) sp (Option.map MaskImage.bounds mask) mp).2.1 (Option.map MaskImage.alphaAt16 mask) (clip bnds r (SrcImage.boundsIn bnds src) sp (Option.map MaskImage.bounds mask) mp).2.2 Op.Src) := by
        unfold DrawMask
        dsimp only
        split
        · next hpos => exact absurd hpos hE
        · rw [h]
          rfl
      have hfun : drawGeneric (drawGeneric pixmap (clip bnds r (SrcImage.boundsIn bnds src) sp (Option.map MaskImage.bounds mask) mp).1 false (SrcImage.at16 toRGB src) (clip bnds r (SrcImage.boundsIn bnds src) sp (Option.map MaskImage.bounds mask) mp).2.1 (Option.map MaskImage.alphaAt16 mask) (clip bnds r (SrcImage.boundsIn bnds src) sp (Option.map MaskImage.bounds mask) mp).2.2 Op.Src) (clip bnds r (SrcImage.boundsIn bnds src) sp (Option.map MaskImage.bounds mask) mp).1 false (SrcImage.at16 toRGB src) (clip bnds r (SrcImage.boundsIn bnds src) sp (Option.map MaskImage.bounds mask) mp).2.1 (Option.map MaskImage.alphaAt16 mask) (clip bnds r (SrcImage.boundsIn bnds src) sp (Option.map MaskImage.bounds mask) mp).2.2 Op.Src
          = drawGeneric pixmap (clip bnds r (SrcImage.boundsIn bnds src) sp (Option.map MaskImage.bounds mask) mp).1 false (SrcImage.at16 toRGB src) (clip bnds r (SrcImage.boundsIn bnds src) sp (Option.map MaskImage.bounds mask) mp).2.1 (Option.map MaskImage.alphaAt16 mask) (clip bnds r (SrcImage.boundsIn bnds src) sp (Option.map MaskImage.bounds mask) mp).2.2 Op.Src :=
        funext fun u => funext fun v =>
          srcPass_idem16 (clip bnds r (SrcImage.boundsIn bnds src) sp (Option.map MaskImage.bounds mask) mp).1
            (fun b => drawGeneric b (clip bnds r (SrcImage.boundsIn bnds src) sp (Option.map MaskImage.bounds mask) mp).1 false (SrcImage.at16 toRGB src) (clip bnds r (SrcImage.boundsIn bnds src) sp (Option.map MaskImage.bounds mask) mp).2.1 (Option.map MaskImage.alphaAt16 mask) (clip bnds r (SrcImage.boundsIn bnds src) sp (Option.map MaskImage.bounds mask) mp).2.2 Op.Src) pixmap
            (fun x y d => genericApplied Op.Src
                  (maskAlphaOr (Option.map MaskImage.alphaAt16 mask) ((clip bnds r (SrcImage.boundsIn bnds src) sp (Option.map MaskImage.bounds mask) mp).2.2.x + x - (clip bnds r (SrcImage.boundsIn bnds src) sp (Option.map MaskImage.bounds mask) mp).1.min.x) ((clip bnds r (SrcImage.boundsIn bnds src) sp (Option.map MaskImage.bounds mask) mp).2.2.y + y - (clip bnds r (SrcImage.boundsIn bnds src) sp (Option.map MaskImage.bounds mask) mp).1.min.y))
                  (SrcImage.at16 toRGB src ((clip bnds r (SrcImage.boundsIn bnds src) sp (Option.map MaskImage.bounds mask) mp).2.1.x + x - (clip bnds r (SrcImage.boundsIn bnds src) sp (Option.map MaskImage.bounds mask) mp).1.min.x) ((clip bnds r (SrcImage.boundsIn bnds src) sp (Option.map MaskImage.bounds mask) mp).2.1.y + y - (clip bnds r (SrcImage.boundsIn bnds src) sp (Option.map MaskImage.bounds mask) mp).1.min.y)) d)
            (fun _ _ d e => genericApplied_src_const _ _ d e)
            (fun b x y => drawGeneric_apply b (clip bnds r (SrcImage.boundsIn bnds src) sp (Option.map MaskImage.bounds mask) mp).1 false (SrcImage.at16 toRGB src) (clip bnds r (SrcImage.boundsIn bnds src) sp (Option.map MaskImage.bounds mask) mp).2.1 (Option.map MaskImage.alphaAt16 mask) (clip bnds r (SrcImage.boundsIn bnds src) sp (Option.map MaskImage.bounds mask) mp).2.2 Op.Src x y) u v
      rw [hI, hI2, hfun]

/-- C5 witness: a concrete solid Src fill applied twice. -/
theorem claim_C5_witness :
    DrawMask (fun a b c => (a, b, c))
        (DrawMask (fun a b c => (a, b, c))
          (.rgbaDst ⟨fun _ _ => ⟨0, 0, 0, 0⟩, ⟨⟨0, 0⟩, ⟨2, 2⟩⟩⟩) ⟨⟨0, 0⟩, ⟨2, 2⟩⟩
          (.colorImage ⟨1, 1, 1, 1⟩) ZP none ZP Op.Src) ⟨⟨0, 0⟩, ⟨2, 2⟩⟩
        (.colorImage ⟨1, 1, 1, 1⟩) ZP none ZP Op.Src
      = DrawMask (fun a b c => (a, b, c))
          (.rgbaDst ⟨fun _ _ => ⟨0, 0, 0, 0⟩, ⟨⟨0, 0⟩, ⟨2, 2⟩⟩⟩) ⟨⟨0, 0⟩, ⟨2, 2⟩⟩
          (.colorImage ⟨1, 1, 1, 1⟩) ZP none ZP Op.Src :=
  claim_C5_src_idempotent (fun a b c => (a, b, c))
    (.rgbaDst ⟨fun _ _ => ⟨0, 0, 0, 0⟩, ⟨⟨0, 0⟩, ⟨2, 2⟩⟩⟩) ⟨⟨0, 0⟩, ⟨2, 2⟩⟩
    (.colorImage ⟨1, 1, 1, 1⟩) ZP none ZP (by decide)

/-- A point of an intersection lies in both rectangles (also through
the empty-normalization, whose result has no points). -/
theorem mem_intersect {r s : Rectangle} {x y : Int}
    (h : (r.intersect s).mem x y) : r.mem x y ∧ s.mem x y := by
  unfold Rectangle.intersect at h
  dsimp only at h
  split at h
  · unfold Rectangle.mem ZR ZP at h
    dsimp only at h
    omega
  · unfold Rectangle.mem at h ⊢
    dsimp only at h
    omega

/-- What clip guarantees: every point of the returned rectangle lies in
the destination bounds, its translated source coordinate lies in the
source bounds, and (when a mask is present) its translated mask
coordinate lies in the mask bounds — for the returned, shifted start
points. -/
theorem clip_mem_bounds (dstB r srcB : Rectangle) (sp : Point)
    (maskB : Option Rectangle) (mp : Point) (x y : Int)
    (h : (clip dstB r srcB sp maskB mp).1.mem x y) :
    dstB.mem x y
    ∧ srcB.mem
        ((clip dstB r srcB sp maskB mp).2.1.x + (x - (clip dstB r srcB sp maskB mp).1.min.x))
        ((clip dstB r srcB sp maskB mp).2.1.y + (y - (clip dstB r srcB sp maskB mp).1.min.y))
    ∧ ∀ mb, maskB = some mb →
        mb.mem
          ((clip dstB r srcB sp maskB mp).2.2.x + (x - (clip dstB r srcB sp maskB mp).1.min.x))
          ((clip dstB r srcB sp maskB mp).2.2.y + (y - (clip dstB r srcB sp maskB mp).1.min.y)) := by
  cases maskB with
  | none =>
    have hr3 : (clip dstB r srcB sp none mp).1
        = (r.intersect dstB).intersect (srcB.add (r.min.sub sp)) := by
      unfold clip
      dsimp only
      split <;> rfl
    have hsx : (clip dstB r srcB sp none mp).2.1.x - (clip dstB r srcB sp none mp).1.min.x
        = sp.x - r.min.x := by
      unfold clip
      dsimp only
      split
      · next hc =>
        dsimp only
        omega
      · next hc =>
        dsimp only
        omega
    have hsy : (clip dstB r srcB sp none mp).2.1.y - (clip dstB r srcB sp none mp).1.min.y
        = sp.y - r.min.y := by
      unfold clip
      dsimp only
      split
      · next hc =>
        dsimp only
        omega
      · next hc =>
        dsimp only
        omega
    rw [hr3] at h
    have h12 := mem_intersect h
    have h1 := mem_intersect h12.1
    refine ⟨h1.2, ?_, fun mb hmb => by cases hmb⟩
    have h2 := h12.2
    unfold Rectangle.mem Rectangle.add Point.add Point.sub at h2
    unfold Rectangle.mem
    dsimp only at h2
    omega
  | some mb0 =>
    have hr3 : (clip dstB r srcB sp (some mb0) mp).1
        = ((r.intersect dstB).intersect (srcB.add (r.min.sub sp))).intersect
            (mb0.add (r.min.sub mp)) := by
      unfold clip
      dsimp only
      split <;> rfl
    have hsx : (clip dstB r srcB sp (some mb0) mp).2.1.x
          - (clip dstB r srcB sp (some mb0) mp).1.min.x
        = sp.x - r.min.x := by
      unfold clip
      dsimp only
      split
      · next hc =>
        dsimp only
        omega
      · next hc =>
        dsimp only
        omega
    have hsy : (clip dstB r srcB sp (some mb0) mp).2.1.y
          - (clip dstB r srcB sp (some mb0) mp).1.min.y
        = sp.y - r.min.y := by
      unfold clip
      dsimp only
      split
      · next hc =>
        dsimp only
        omega
      · next hc =>
        dsimp only
        omega
    have hmx : (clip dstB r srcB sp (some mb0) mp).2.2.x
          - (clip dstB r srcB sp (some mb0) mp).1.min.x
        = mp.x - r.min.x := by
      unfold clip
      dsimp only
      split
      · next hc =>
        dsimp only
        omega
      · next hc =>
        dsimp only
        omega
    have hmy : (clip dstB r srcB sp (some mb0) mp).2.2.y
          - (clip dstB r srcB sp (some mb0) mp).1.min.y
        = mp.y - r.min.y := by
      unfold clip
      dsimp only
      split
      · next hc =>
        dsimp only
        omega
      · next hc =>
        dsimp only
        omega
    rw [hr3] at h
    have h123 := mem_intersect h
    have h12 := mem_intersect h123.1
    have h1 := mem_intersect h12.1
    refine ⟨h1.2, ?_, fun mb hmb => ?_⟩
    · have h2 := h12.2
      unfold Rectangle.mem Rectangle.add Point.add Point.sub at h2
      unfold Rectangle.mem
      dsimp only at h2
      omega
    · cases hmb
      have h3 := h123.2
      unfold Rectangle.mem Rectangle.add Point.add Point.sub at h3
      unfold Rectangle.mem
      dsimp only at h3
      omega

set_option maxHeartbeats 1000000 in
/-- C1: for every DrawMask call — any rectangle, offsets, operator and
mask — each point of the clipped rectangle lies in the destination
bounds, its translated source coordinate lies in the source bounds and
its translated mask coordinate in the mask bounds (so no read or write
leaves any buffer); and every destination pixel outside the clipped
rectangle is untouched. -/
theorem claim_C1_bounds_safety
    (toRGB : Fin 256 → Fin 256 → Fin 256 → Fin 256 × Fin 256 × Fin 256)
    (dst : DstImage) (r : Rectangle) (src : SrcImage) (sp : Point)
    (mask : Option MaskImage) (mp : Point) (op : Op) (x y : Int) :
    ((clip dst.bounds r (SrcImage.boundsIn dst.bounds src) sp
        (Option.map MaskImage.bounds mask) mp).1.mem x y →
      dst.bounds.mem x y
      ∧ (SrcImage.boundsIn dst.bounds src).mem
          ((clip dst.bounds r (SrcImage.boundsIn dst.bounds src) sp
        (Option.map MaskImage.bounds mask) mp).2.1.x + (x - (clip dst.bounds r (SrcImage.boundsIn dst.bounds src) sp
        (Option.map MaskImage.bounds mask) mp).1.min.x))
          ((clip dst.bounds r (SrcImage.boundsIn dst.bounds src) sp
        (Option.map MaskImage.bounds mask) mp).2.1.y + (y - (clip dst.bounds r (SrcImage.boundsIn dst.bounds src) sp
        (Option.map MaskImage.bounds mask) mp).1.min.y))
      ∧ ∀ mk, mask = some mk →
          mk.bounds.mem
            ((clip dst.bounds r (SrcImage.boundsIn dst.bounds src) sp
        (Option.map MaskImage.bounds mask) mp).2.2.x + (x - (clip dst.bounds r (SrcImage.boundsIn dst.bounds src) sp
        (Option.map MaskImage.bounds mask) mp).1.min.x))
            ((clip dst.bounds r (SrcImage.boundsIn dst.bounds src) sp
        (Option.map MaskImage.bounds mask) mp).2.2.y + (y - (clip dst.bounds r (SrcImage.boundsIn dst.bounds src) sp
        (Option.map MaskImage.bounds mask) mp).1.min.y)))
    ∧ (¬ (clip dst.bounds r (SrcImage.boundsIn dst.bounds src) sp
        (Option.map MaskImage.bounds mask) mp).1.mem x y →
        (DrawMask toRGB dst r src sp mask mp op).at16 x y = dst.at16 x y) := by
  constructor
  · intro hm
    have hc := clip_mem_bounds dst.bounds r (SrcImage.boundsIn dst.bounds src) sp
      (Option.map MaskImage.bounds mask) mp x y hm
    exact ⟨hc.1, hc.2.1, fun mk hmk => hc.2.2 mk.bounds (by rw [hmk]; rfl)⟩
  · intro hmem
    by_cases hE : (clip dst.bounds r (SrcImage.boundsIn dst.bounds src) sp
        (Option.map MaskImage.bounds mask) mp).1.isEmpty = true
    · have hI : DrawMask toRGB dst r src sp mask mp op = dst := by
        unfold DrawMask
        dsimp only
        split
        · rfl
        · next hne => exact absurd hE hne
      rw [hI]
    · cases dst with
      | rgbaDst im =>
        cases op with
        | Over =>
          cases mask with
          | none =>
            cases src with
            | colorImage cc =>
              have hI : DrawMask toRGB (.rgbaDst im) r (SrcImage.colorImage cc) sp none mp Op.Over
                  = .rgbaDst ⟨drawFillOver im.pix (clip im.rect r colorImageBounds sp none mp).1 cc, im.rect⟩ := by
                unfold DrawMask
                dsimp only
                split
                · next hpos => exact absurd hpos hE
                · rfl
              rw [hI]
              show (drawFillOver im.pix (clip im.rect r colorImageBounds sp none mp).1 cc x y).rgba = (im.pix x y).rgba
              rw [drawFillOver_apply im.pix (clip im.rect r colorImageBounds sp none mp).1 cc x y,
                if_neg (show ¬ (clip im.rect r colorImageBounds sp none mp).1.mem x y from hmem)]
            | rgba s =>
              have hI : DrawMask toRGB (.rgbaDst im) r (SrcImage.rgba s) sp none mp Op.Over
                  = .rgbaDst ⟨drawCopyOver im.pix (clip im.rect r s.rect sp none mp).1 false s.pix (clip im.rect r s.rect sp none mp).2.1, im.rect⟩ := by
                unfold DrawMask
                dsimp only
                split
                · next hpos => exact absurd hpos hE
                · rfl
              rw [hI]
              show (drawCopyOver im.pix (clip im.rect r s.rect sp none mp).1 false s.pix (clip im.rect r s.rect sp none mp).2.1 x y).rgba = (im.pix x y).rgba
              rw [drawCopyOver_apply im.pix (clip im.rect r s.rect sp none mp).1 false s.pix (clip im.rect r s.rect sp none mp).2.1 x y,
                if_neg (show ¬ (clip im.rect r s.rect sp none mp).1.mem x y from hmem)]
            | dstItself =>
              have hI : DrawMask toRGB (.rgbaDst im) r (SrcImage.dstItself) sp none mp Op.Over
                  = .rgbaDst ⟨drawCopyOver im.pix (clip im.rect r im.rect sp none mp).1 true im.pix (clip im.rect r im.rect sp none mp).2.1, im.rect⟩ := by
                unfold DrawMask
                dsimp only
                split
                · next hpos => exact absurd hpos hE
                · rfl
              rw [hI]
              show (drawCopyOver im.pix (clip im.rect r im.rect sp none mp).1 true im.pix (clip im.rect r im.rect sp none mp).2.1 x y).rgba = (im.pix x y).rgba
              rw [drawCopyOver_apply im.pix (clip im.rect r im.rect sp none mp).1 true im.pix (clip im.rect r im.rect sp none mp).2.1 x y,
                if_neg (show ¬ (clip im.rect r im.rect sp none mp).1.mem x y from hmem)]
            | nrgba s =>
              have hI : DrawMask toRGB (.rgbaDst im) r (SrcImage.nrgba s) sp none mp Op.Over
                  = .rgbaDst ⟨drawNRGBAOver im.pix (clip im.rect r s.rect sp none mp).1 s.pix (clip im.rect r s.rect sp none mp).2.1, im.rect⟩ := by
                unfold DrawMask
                dsimp only
                split
                · next hpos => exact absurd hpos hE
                · rfl
              rw [hI]
              show (drawNRGBAOver im.pix (clip im.rect r s.rect sp none mp).1 s.pix (clip im.rect r s.rect sp none mp).2.1 x y).rgba = (im.pix x y).rgba
              rw [drawNRGBAOver_apply im.pix (clip im.rect r s.rect sp none mp).1 s.pix (clip im.rect r s.rect sp none mp).2.1 x y,
                if_neg (show ¬ (clip im.rect r s.rect sp none mp).1.mem x y from hmem)]
            | ycbcrSrc s =>
              have hI : DrawMask toRGB (.rgbaDst im) r (SrcImage.ycbcrSrc s) sp none mp Op.Over
                  = .rgbaDst ⟨drawYCbCr toRGB im.pix (clip im.rect r s.rect sp none mp).1 s (clip im.rect r s.rect sp none mp).2.1, im.rect⟩ := by
                unfold DrawMask
                dsimp only
                split
                · next hpos => exact absurd hpos hE
                · rfl
              rw [hI]
              show (drawYCbCr toRGB im.pix (clip im.rect r s.rect sp none mp).1 s (clip im.rect r s.rect sp none mp).2.1 x y).rgba = (im.pix x y).rgba
              rw [drawYCbCr_apply toRGB im.pix (clip im.rect r s.rect sp none mp).1 s (clip im.rect r s.rect sp none mp).2.1 x y,
                if_neg (show ¬ (clip im.rect r s.rect sp none mp).1.mem x y from hmem)]
            | generic bnds colorAt =>
              have hI : DrawMask toRGB (.rgbaDst im) r (SrcImage.generic bnds colorAt) sp none mp Op.Over
                  = .rgbaDst ⟨drawRGBA im.pix (clip im.rect r bnds sp none mp).1 false (SrcImage.at16 toRGB (SrcImage.generic bnds colorAt)) (clip im.rect r bnds sp none mp).2.1 none (clip im.rect r bnds sp none mp).2.2 Op.Over, im.rect⟩ := by
                unfold DrawMask
                dsimp only
                split
                · next hpos => exact absurd hpos hE
                · rfl
              rw [hI]
              show (drawRGBA im.pix (clip im.rect r bnds sp none mp).1 false (SrcImage.at16 toRGB (SrcImage.generic bnds colorAt)) (clip im.rect r bnds sp none mp).2.1 none (clip im.rect r bnds sp none mp).2.2 Op.Over x y).rgba = (im.pix x y).rgba
              rw [drawRGBA_apply im.pix (clip im.rect r bnds sp none mp).1 false (SrcImage.at16 toRGB (SrcImage.generic bnds colorAt)) (clip im.rect r bnds sp none mp).2.1 none (clip im.rect r bnds sp none mp).2.2 Op.Over x y,
                if_neg (show ¬ (clip im.rect r bnds sp none mp).1.mem x y from hmem)]
          | some mk =>
            cases mk with
            | alpha am =>
              cases src with
              | colorImage cc =>
                have hI : DrawMask toRGB (.rgbaDst im) r (SrcImage.colorImage cc) sp (some (MaskImage.alpha am)) mp Op.Over
                    = .rgbaDst ⟨drawGlyphOver im.pix (clip im.rect r colorImageBounds sp (some am.rect) mp).1 cc am.pix (clip im.rect r colorImageBounds sp (some am.rect) mp).2.2, im.rect⟩ := by
                  unfold DrawMask
                  dsimp only
                  split
                  · next hpos => exact absurd hpos hE
                  · rfl
                rw [hI]
                show (drawGlyphOver im.pix (clip im.rect r colorImageBounds sp (some am.rect) mp).1 cc am.pix (clip im.rect r colorImageBounds sp (some am.rect) mp).2.2 x y).rgba = (im.pix x y).rgba
                rw [drawGlyphOver_apply im.pix (clip im.rect r colorImageBounds sp (some am.rect) mp).1 cc am.pix (clip im.rect r colorImageBounds sp (some am.rect) mp).2.2 x y,
                  if_neg (show ¬ (clip im.rect r colorImageBounds sp (some am.rect) mp).1.mem x y from hmem)]
              | rgba s =>
                have hI : DrawMask toRGB (.rgbaDst im) r (SrcImage.rgba s) sp (some (MaskImage.alpha am)) mp Op.Over
                    = .rgbaDst ⟨drawRGBA im.pix (clip im.rect r s.rect sp (some am.rect) mp).1 false (SrcImage.at16 toRGB (SrcImage.rgba s)) (clip im.rect r s.rect sp (some am.rect) mp).2.1 (some (MaskImage.alphaAt16 (MaskImage.alpha am))) (clip im.rect r s.rect sp (some am.rect) mp).2.2 Op.Over, im.rect⟩ := by
                  unfold DrawMask
                  dsimp only
                  split
                  · next hpos => exact absurd hpos hE
                  · rfl
                rw [hI]
                show (drawRGBA im.pix (clip im.rect r s.rect sp (some am.rect) mp).1 false (SrcImage.at16 toRGB (SrcImage.rgba s)) (clip im.rect r s.rect sp (some am.rect) mp).2.1 (some (MaskImage.alphaAt16 (MaskImage.alpha am))) (clip im.rect r s.rect sp (some am.rect) mp).2.2 Op.Over x y).rgba = (im.pix x y).rgba
                rw [drawRGBA_apply im.pix (clip im.rect r s.rect sp (some am.rect) mp).1 false (SrcImage.at16 toRGB (SrcImage.rgba s)) (clip im.rect r s.rect sp (some am.rect) mp).2.1 (some (MaskImage.alphaAt16 (MaskImage.alpha am))) (clip im.rect r s.rect sp (some am.rect) mp).2.2 Op.Over x y,
                  if_neg (show ¬ (clip im.rect r s.rect sp (some am.rect) mp).1.mem x y from hmem)]
              | dstItself =>
                have hI : DrawMask toRGB (.rgbaDst im) r (SrcImage.dstItself) sp (some (MaskImage.alpha am)) mp Op.Over
                    = .rgbaDst ⟨drawRGBA im.pix (clip im.rect r im.rect sp (some am.rect) mp).1 true (SrcImage.at16 toRGB (SrcImage.dstItself)) (clip im.rect r im.rect sp (some am.rect) mp).2.1 (some (MaskImage.alphaAt16 (MaskImage.alpha am))) (clip im.rect r im.rect sp (some am.rect) mp).2.2 Op.Over, im.rect⟩ := by
                  unfold DrawMask
                  dsimp only
                  split
                  · next hpos => exact absurd hpos hE
                  · rfl
                rw [hI]
                show (drawRGBA im.pix (clip im.rect r im.rect sp (some am.rect) mp).1 true (SrcImage.at16 toRGB (SrcImage.dstItself)) (clip im.rect r im.rect sp (some am.rect) mp).2.1 (some (MaskImage.alphaAt16 (MaskImage.alpha am))) (clip im.rect r im.rect sp (some am.rect) mp).2.2 Op.Over x y).rgba = (im.pix x y).rgba
                rw [drawRGBA_apply im.pix (clip im.rect r im.rect sp (some am.rect) mp).1 true (SrcImage.at16 toRGB (SrcImage.dstItself)) (clip im.rect r im.rect sp (some am.rect) mp).2.1 (some (MaskImage.alphaAt16 (MaskImage.alpha am))) (clip im.rect r im.rect sp (some am.rect) mp).2.2 Op.Over x y,
                  if_neg (show ¬ (clip im.rect r im.rect sp (some am.rect) mp).1.mem x y from hmem)]
              | nrgba s =>
                have hI : DrawMask toRGB (.rgbaDst im) r (SrcImage.nrgba s) sp (some (MaskImage.alpha am)) mp Op.Over
                    = .rgbaDst ⟨drawRGBA im.pix (clip im.rect r s.rect sp (some am.rect) mp).1 false (SrcImage.at16 toRGB (SrcImage.nrgba s)) (clip im.rect r s.rect sp (some am.rect) mp).2.1 (some (MaskImage.alphaAt16 (MaskImage.alpha am))) (clip im.rect r s.rect sp (some am.rect) mp).2.2 Op.Over, im.rect⟩ := by
                  unfold DrawMask
                  dsimp only
                  split
                  · next hpos => exact absurd hpos hE
                  · rfl
                rw [hI]
                show (drawRGBA im.pix (clip im.rect r s.rect sp (some am.rect) mp).1 false (SrcImage.at16 toRGB (SrcImage.nrgba s)) (clip im.rect r s.rect sp (some am.rect) mp).2.1 (some (MaskImage.alphaAt16 (MaskImage.alpha am))) (clip im.rect r s.rect sp (some am.rect) mp).2.2 Op.Over x y).rgba = (im.pix x y).rgba
                rw [drawRGBA_apply im.pix (clip im.rect r s.rect sp (some am.rect) mp).1 false (SrcImage.at16 toRGB (SrcImage.nrgba s)) (clip im.rect r s.rect sp (some am.rect) mp).2.1 (some (MaskImage.alphaAt16 (MaskImage.alpha am))) (clip im.rect r s.rect sp (some am.rect) mp).2.2 Op.Over x y,
                  if_neg (show ¬ (clip im.rect r s.rect sp (some am.rect) mp).1.mem x y from hmem)]
              | ycbcrSrc s =>
                have hI : DrawMask toRGB (.rgbaDst im) r (SrcImage.ycbcrSrc s) sp (some (MaskImage.alpha am)) mp Op.Over
                    = .rgbaDst ⟨drawRGBA im.pix (clip im.rect r s.rect sp (some am.rect) mp).1 false (SrcImage.at16 toRGB (SrcImage.ycbcrSrc s)) (clip im.rect r s.rect sp (some am.rect) mp).2.1 (some (MaskImage.alphaAt16 (MaskImage.alpha am))) (clip im.rect r s.rect sp (some am.rect) mp).2.2 Op.Over, im.rect⟩ := by
                  unfold DrawMask
                  dsimp only
                  split
                  · next hpos => exact absurd hpos hE
                  · rfl
                rw [hI]
                show (drawRGBA im.pix (clip im.rect r s.rect sp (some am.rect) mp).1 false (SrcImage.at16 toRGB (SrcImage.ycbcrSrc s)) (clip im.rect r s.rect sp (some am.rect) mp).2.1 (some (MaskImage.alphaAt16 (MaskImage.alpha am))) (clip im.rect r s.rect sp (some am.rect) mp).2.2 Op.Over x y).rgba = (im.pix x y).rgba
                rw [drawRGBA_apply im.pix (clip im.rect r s.rect sp (some am.rect) mp).1 false (SrcImage.at16 toRGB (SrcImage.ycbcrSrc s)) (clip im.rect r s.rect sp (some am.rect) mp).2.1 (some (MaskImage.alphaAt16 (MaskImage.alpha am))) (clip im.rect r s.rect sp (some am.rect) mp).2.2 Op.Over x y,
                  if_neg (show ¬ (clip im.rect r s.rect sp (some am.rect) mp).1.mem x y from hmem)]
              | generic bnds colorAt =>
                have hI : DrawMask toRGB (.rgbaDst im) r (SrcImage.generic bnds colorAt) sp (some (MaskImage.alpha am)) mp Op.Over
                    = .rgbaDst ⟨drawRGBA im.pix (clip im.rect r bnds sp (some am.rect) mp).1 false (SrcImage.at16 toRGB (SrcImage.generic bnds colorAt)) (clip im.rect r bnds sp (some am.rect) mp).2.1 (some (MaskImage.alphaAt16 (MaskImage.alpha am))) (clip im.rect r bnds sp (some am.rect) mp).2.2 Op.Over, im.rect⟩ := by
                  unfold DrawMask
                  dsimp only
                  split
                  · next hpos => exact absurd hpos hE
                  · rfl
                rw [hI]
                show (drawRGBA im.pix (clip im.rect r bnds sp (some am.rect) mp).1 false (SrcImage.at16 toRGB (SrcImage.generic bnds colorAt)) (clip im.rect r bnds sp (some am.rect) mp).2.1 (some (MaskImage.alphaAt16 (MaskImage.alpha am))) (clip im.rect r bnds sp (some am.rect) mp).2.2 Op.Over x y).rgba = (im.pix x y).rgba
                rw [drawRGBA_apply im.pix (clip im.rect r bnds sp (some am.rect) mp).1 false (SrcImage.at16 toRGB (SrcImage.generic bnds colorAt)) (clip im.rect r bnds sp (some am.rect) mp).2.1 (some (MaskImage.alphaAt16 (MaskImage.alpha am))) (clip im.rect r bnds sp (some am.rect) mp).2.2 Op.Over x y,
                  if_neg (show ¬ (clip im.rect r bnds sp (some am.rect) mp).1.mem x y from hmem)]
            | genericMask mb mAt =>
              cases src with
              | colorImage cc =>
                have hI : DrawMask toRGB (.rgbaDst im) r (SrcImage.colorImage cc) sp (some (MaskImage.genericMask mb mAt)) mp Op.Over
                    = .rgbaDst ⟨drawRGBA im.pix (clip im.rect r colorImageBounds sp (some mb) mp).1 false (SrcImage.at16 toRGB (SrcImage.colorImage cc)) (clip im.rect r colorImageBounds sp (some mb) mp).2.1 (some (MaskImage.alphaAt16 (MaskImage.genericMask mb mAt))) (clip im.rect r colorImageBounds sp (some mb) mp).2.2 Op.Over, im.rect⟩ := by
                  unfold DrawMask
                  dsimp only
                  split
                  · next hpos => exact absurd hpos hE
                  · rfl
                rw [hI]
                show (drawRGBA im.pix (clip im.rect r colorImageBounds sp (some mb) mp).1 false (SrcImage.at16 toRGB (SrcImage.colorImage cc)) (clip im.rect r colorImageBounds sp (some mb) mp).2.1 (some (MaskImage.alphaAt16 (MaskImage.genericMask mb mAt))) (clip im.rect r colorImageBounds sp (some mb) mp).2.2 Op.Over x y).rgba = (im.pix x y).rgba
                rw [drawRGBA_apply im.pix (clip im.rect r colorImageBounds sp (some mb) mp).1 false (SrcImage.at16 toRGB (SrcImage.colorImage cc)) (clip im.rect r colorImageBounds sp (some mb) mp).2.1 (some (MaskImage.alphaAt16 (MaskImage.genericMask mb mAt))) (clip im.rect r colorImageBounds sp (some mb) mp).2.2 Op.Over x y,
                  if_neg (show ¬ (clip im.rect r colorImageBounds sp (some mb) mp).1.mem x y from hmem)]
              | rgba s =>
                have hI : DrawMask toRGB (.rgbaDst im) r (SrcImage.rgba s) sp (some (MaskImage.genericMask mb mAt)) mp Op.Over
                    = .rgbaDst ⟨drawRGBA im.pix (clip im.rect r s.rect sp (some mb) mp).1 false (SrcImage.at16 toRGB (SrcImage.rgba s)) (clip im.rect r s.rect sp (some mb) mp).2.1 (some (MaskImage.alphaAt16 (MaskImage.genericMask mb mAt))) (clip im.rect r s.rect sp (some mb) mp).2.2 Op.Over, im.rect⟩ := by
                  unfold DrawMask
                  dsimp only
                  split
                  · next hpos => exact absurd hpos hE
                  · rfl
                rw [hI]
                show (drawRGBA im.pix (clip im.rect r s.rect sp (some mb) mp).1 false (SrcImage.at16 toRGB (SrcImage.rgba s)) (clip im.rect r s.rect sp (some mb) mp).2.1 (some (MaskImage.alphaAt16 (MaskImage.genericMask mb mAt))) (clip im.rect r s.rect sp (some mb) mp).2.2 Op.Over x y).rgba = (im.pix x y).rgba
                rw [drawRGBA_apply im.pix (clip im.rect r s.rect sp (some mb) mp).1 false (SrcImage.at16 toRGB (SrcImage.rgba s)) (clip im.rect r s.rect sp (some mb) mp).2.1 (some (MaskImage.alphaAt16 (MaskImage.genericMask mb mAt))) (clip im.rect r s.rect sp (some mb) mp).2.2 Op.Over x y,
                  if_neg (show ¬ (clip im.rect r s.rect sp (some mb) mp).1.mem x y from hmem)]
              | dstItself =>
                have hI : DrawMask toRGB (.rgbaDst im) r (SrcImage.dstItself) sp (some (MaskImage.genericMask mb mAt)) mp Op.Over
                    = .rgbaDst ⟨drawRGBA im.pix (clip im.rect r im.rect sp (some mb) mp).1 true (SrcImage.at16 toRGB (SrcImage.dstItself)) (clip im.rect r im.rect sp (some mb) mp).2.1 (some (MaskImage.alphaAt16 (MaskImage.genericMask mb mAt))) (clip im.rect r im.rect sp (some mb) mp).2.2 Op.Over, im.rect⟩ := by
                  unfold DrawMask
                  dsimp only
                  split
                  · next hpos => exact absurd hpos hE
                  · rfl
                rw [hI]
                show (drawRGBA im.pix (clip im.rect r im.rect sp (some mb) mp).1 true (SrcImage.at16 toRGB (SrcImage.dstItself)) (clip im.rect r im.rect sp (some mb) mp).2.1 (some (MaskImage.alphaAt16 (MaskImage.genericMask mb mAt))) (clip im.rect r im.rect sp (some mb) mp).2.2 Op.Over x y).rgba = (im.pix x y).rgba
                rw [drawRGBA_apply im.pix (clip im.rect r im.rect sp (some mb) mp).1 true (SrcImage.at16 toRGB (SrcImage.dstItself)) (clip im.rect r im.rect sp (some mb) mp).2.1 (some (MaskImage.alphaAt16 (MaskImage.genericMask mb mAt))) (clip im.rect r im.rect sp (some mb) mp).2.2 Op.Over x y,
                  if_neg (show ¬ (clip im.rect r im.rect sp (some mb) mp).1.mem x y from hmem)]
              | nrgba s =>
                have hI : DrawMask toRGB (.rgbaDst im) r (SrcImage.nrgba s) sp (some (MaskImage.genericMask mb mAt)) mp Op.Over
                    = .rgbaDst ⟨drawRGBA im.pix (clip im.rect r s.rect sp (some mb) mp).1 false (SrcImage.at16 toRGB (SrcImage.nrgba s)) (clip im.rect r s.rect sp (some mb) mp).2.1 (some (MaskImage.alphaAt16 (MaskImage.genericMask mb mAt))) (clip im.rect r s.rect sp (some mb) mp).2.2 Op.Over, im.rect⟩ := by
                  unfold DrawMask
                  dsimp only
                  split
                  · next hpos => exact absurd hpos hE
                  · rfl
                rw [hI]
                show (drawRGBA im.pix (clip im.rect r s.rect sp (some mb) mp).1 false (SrcImage.at16 toRGB (SrcImage.nrgba s)) (clip im.rect r s.rect sp (some mb) mp).2.1 (some (MaskImage.alphaAt16 (MaskImage.genericMask mb mAt))) (clip im.rect r s.rect sp (some mb) mp).2.2 Op.Over x y).rgba = (im.pix x y).rgba
                rw [drawRGBA_apply im.pix (clip im.rect r s.rect sp (some mb) mp).1 false (SrcImage.at16 toRGB (SrcImage.nrgba s)) (clip im.rect r s.rect sp (some mb) mp).2.1 (some (MaskImage.alphaAt16 (MaskImage.genericMask mb mAt))) (clip im.rect r s.rect sp (some mb) mp).2.2 Op.Over x y,
                  if_neg (show ¬ (clip im.rect r s.rect sp (some mb) mp).1.mem x y from hmem)]
              | ycbcrSrc s =>
                have hI : DrawMask toRGB (.rgbaDst im) r (SrcImage.ycbcrSrc s) sp (some (MaskImage.genericMask mb mAt)) mp Op.Over
                    = .rgbaDst ⟨drawRGBA im.pix (clip im.rect r s.rect sp (some mb) mp).1 false (SrcImage.at16 toRGB (SrcImage.ycbcrSrc s)) (clip im.rect r s.rect sp (some mb) mp).2.1 (some (MaskImage.alphaAt16 (MaskImage.genericMask mb mAt))) (clip im.rect r s.rect sp (some mb) mp).2.2 Op.Over, im.rect⟩ := by
                  unfold DrawMask
                  dsimp only
                  split
                  · next hpos => exact absurd hpos hE
                  · rfl
                rw [hI]
                show (drawRGBA im.pix (clip im.rect r s.rect sp (some mb) mp).1 false (SrcImage.at16 toRGB (SrcImage.ycbcrSrc s)) (clip im.rect r s.rect sp (some mb) mp).2.1 (some (MaskImage.alphaAt16 (MaskImage.genericMask mb mAt))) (clip im.rect r s.rect sp (some mb) mp).2.2 Op.Over x y).rgba = (im.pix x y).rgba
                rw [drawRGBA_apply im.pix (clip im.rect r s.rect sp (some mb) mp).1 false (SrcImage.at16 toRGB (SrcImage.ycbcrSrc s)) (clip im.rect r s.rect sp (some mb) mp).2.1 (some (MaskImage.alphaAt16 (MaskImage.genericMask mb mAt))) (clip im.rect r s.rect sp (some mb) mp).2.2 Op.Over x y,
                  if_neg (show ¬ (clip im.rect r s.rect sp (some mb) mp).1.mem x y from hmem)]
              | generic bnds colorAt =>
                have hI : DrawMask toRGB (.rgbaDst im) r (SrcImage.generic bnds colorAt) sp (some (MaskImage.genericMask mb mAt)) mp Op.Over
                    = .rgbaDst ⟨drawRGBA im.pix (clip im.rect r bnds sp (some mb) mp).1 false (SrcImage.at16 toRGB (SrcImage.generic bnds colorAt)) (clip im.rect r bnds sp (some mb) mp).2.1 (some (MaskImage.alphaAt16 (MaskImage.genericMask mb mAt))) (clip im.rect r bnds sp (some mb) mp).2.2 Op.Over, im.rect⟩ := by
                  unfold DrawMask
                  dsimp only
                  split
                  · next hpos => exact absurd hpos hE
                  · rfl
                rw [hI]
                show (drawRGBA im.pix (clip im.rect r bnds sp (some mb) mp).1 false (SrcImage.at16 toRGB (SrcImage.generic bnds colorAt)) (clip im.rect r bnds sp (some mb) mp).2.1 (some (MaskImage.alphaAt16 (MaskImage.genericMask mb mAt))) (clip im.rect r bnds sp (some mb) mp).2.2 Op.Over x y).rgba = (im.pix x y).rgba
                rw [drawRGBA_apply im.pix (clip im.rect r bnds sp (some mb) mp).1 false (SrcImage.at16 toRGB (SrcImage.generic bnds colorAt)) (clip im.rect r bnds sp (some mb) mp).2.1 (some (MaskImage.alphaAt16 (MaskImage.genericMask mb mAt))) (clip im.rect r bnds sp (some mb) mp).2.2 Op.Over x y,
                  if_neg (show ¬ (clip im.rect r bnds sp (some mb) mp).1.mem x y from hmem)]
        | Src =>
          cases mask with
          | none =>
            cases src with
            | colorImage cc =>
              have hI : DrawMask toRGB (.rgbaDst im) r (SrcImage.colorImage cc) sp none mp Op.Src
                  = .rgbaDst ⟨drawFillSrc im.pix (clip im.rect r colorImageBounds sp none mp).1 cc, im.rect⟩ := by
                unfold DrawMask
                dsimp only
                split
                · next hpos => exact absurd hpos hE
                · rfl
              rw [hI]
              show (drawFillSrc im.pix (clip im.rect r colorImageBounds sp none mp).1 cc x y).rgba = (im.pix x y).rgba
              rw [drawFillSrc_apply im.pix (clip im.rect r colorImageBounds sp none mp).1 cc x y,
                if_neg (show ¬ (clip im.rect r colorImageBounds sp none mp).1.mem x y from hmem)]
            | rgba s =>
              have hI : DrawMask toRGB (.rgbaDst im) r (SrcImage.rgba s) sp none mp Op.Src
                  = .rgbaDst ⟨drawCopySrc im.pix (clip im.rect r s.rect sp none mp).1 false s.pix (clip im.rect r s.rect sp none mp).2.1, im.rect⟩ := by
                unfold DrawMask
                dsimp only
                split
                · next hpos => exact absurd hpos hE
                · rfl
              rw [hI]
              show (drawCopySrc im.pix (clip im.rect r s.rect sp none mp).1 false s.pix (clip im.rect r s.rect sp none mp).2.1 x y).rgba = (im.pix x y).rgba
              rw [drawCopySrc_apply im.pix (clip im.rect r s.rect sp none mp).1 false s.pix (clip im.rect r s.rect sp none mp).2.1 x y,
                if_neg (show ¬ (clip im.rect r s.rect sp none mp).1.mem x y from hmem)]
            | dstItself =>
              have hI : DrawMask toRGB (.rgbaDst im) r (SrcImage.dstItself) sp none mp Op.Src
                  = .rgbaDst ⟨drawCopySrc im.pix (clip im.rect r im.rect sp none mp).1 true im.pix (clip im.rect r im.rect sp none mp).2.1, im.rect⟩ := by
                unfold DrawMask
                dsimp only
                split
                · next hpos => exact absurd hpos hE
                · rfl
              rw [hI]
              show (drawCopySrc im.pix (clip im.rect r im.rect sp none mp).1 true im.pix (clip im.rect r im.rect sp none mp).2.1 x y).rgba = (im.pix x y).rgba
              rw [drawCopySrc_apply im.pix (clip im.rect r im.rect sp none mp).1 true im.pix (clip im.rect r im.rect sp none mp).2.1 x y,
                if_neg (show ¬ (clip im.rect r im.rect sp none mp).1.mem x y from hmem)]
            | nrgba s =>
              have hI : DrawMask toRGB (.rgbaDst im) r (SrcImage.nrgba s) sp none mp Op.Src
                  = .rgbaDst ⟨drawNRGBASrc im.pix (clip im.rect r s.rect sp none mp).1 s.pix (clip im.rect r s.rect sp none mp).2.1, im.rect⟩ := by
                unfold DrawMask
                dsimp only
                split
                · next hpos => exact absurd hpos hE
                · rfl
              rw [hI]
              show (drawNRGBASrc im.pix (clip im.rect r s.rect sp none mp).1 s.pix (clip im.rect r s.rect sp none mp).2.1 x y).rgba = (im.pix x y).rgba
              rw [drawNRGBASrc_apply im.pix (clip im.rect r s.rect sp none mp).1 s.pix (clip im.rect r s.rect sp none mp).2.1 x y,
                if_neg (show ¬ (clip im.rect r s.rect sp none mp).1.mem x y from hmem)]
            | ycbcrSrc s =>
              have hI : DrawMask toRGB (.rgbaDst im) r (SrcImage.ycbcrSrc s) sp none mp Op.Src
                  = .rgbaDst ⟨drawYCbCr toRGB im.pix (clip im.rect r s.rect sp none mp).1 s (clip im.rect r s.rect sp none mp).2.1, im.rect⟩ := by
                unfold DrawMask
                dsimp only
                split
                · next hpos => exact absurd hpos hE
                · rfl
              rw [hI]
              show (drawYCbCr toRGB im.pix (clip im.rect r s.rect sp none mp).1 s (clip im.rect r s.rect sp none mp).2.1 x y).rgba = (im.pix x y).rgba
              rw [drawYCbCr_apply toRGB im.pix (clip im.rect r s.rect sp none mp).1 s (clip im.rect r s.rect sp none mp).2.1 x y,
                if_neg (show ¬ (clip im.rect r s.rect sp none mp).1.mem x y from hmem)]
            | generic bnds colorAt =>
              have hI : DrawMask toRGB (.rgbaDst im) r (SrcImage.generic bnds colorAt) sp none mp Op.Src
                  = .rgbaDst ⟨drawRGBA im.pix (clip im.rect r bnds sp none mp).1 false (SrcImage.at16 toRGB (SrcImage.generic bnds colorAt)) (clip im.rect r bnds sp none mp).2.1 none (clip im.rect r bnds sp none mp).2.2 Op.Src, im.rect⟩ := by
                unfold DrawMask
                dsimp only
                split
                · next hpos => exact absurd hpos hE
                · rfl
              rw [hI]
              show (drawRGBA im.pix (clip im.rect r bnds sp none mp).1 false (SrcImage.at16 toRGB (SrcImage.generic bnds colorAt)) (clip im.rect r bnds sp none mp).2.1 none (clip im.rect r bnds sp none mp).2.2 Op.Src x y).rgba = (im.pix x y).rgba
              rw [drawRGBA_apply im.pix (clip im.rect r bnds sp none mp).1 false (SrcImage.at16 toRGB (SrcImage.generic bnds colorAt)) (clip im.rect r bnds sp none mp).2.1 none (clip im.rect r bnds sp none mp).2.2 Op.Src x y,
                if_neg (show ¬ (clip im.rect r bnds sp none mp).1.mem x y from hmem)]
          | some mk =>
            cases mk with
            | alpha am =>
              cases src with
              | colorImage cc =>
                have hI : DrawMask toRGB (.rgbaDst im) r (SrcImage.colorImage cc) sp (some (MaskImage.alpha am)) mp Op.Src
                    = .rgbaDst ⟨drawRGBA im.pix (clip im.rect r colorImageBounds sp (some am.rect) mp).1 false (SrcImage.at16 toRGB (SrcImage.colorImage cc)) (clip im.rect r colorImageBounds sp (some am.rect) mp).2.1 (some (MaskImage.alphaAt16 (MaskImage.alpha am))) (clip im.rect r colorImageBounds sp (some am.rect) mp).2.2 Op.Src, im.rect⟩ := by
                  unfold DrawMask
                  dsimp only
                  split
                  · next hpos => exact absurd hpos hE
                  · rfl
                rw [hI]
                show (drawRGBA im.pix (clip im.rect r colorImageBounds sp (some am.rect) mp).1 false (SrcImage.at16 toRGB (SrcImage.colorImage cc)) (clip im.rect r colorImageBounds sp (some am.rect) mp).2.1 (some (MaskImage.alphaAt16 (MaskImage.alpha am))) (clip im.rect r colorImageBounds sp (some am.rect) mp).2.2 Op.Src x y).rgba = (im.pix x y).rgba
                rw [drawRGBA_apply im.pix (clip im.rect r colorImageBounds sp (some am.rect) mp).1 false (SrcImage.at16 toRGB (SrcImage.colorImage cc)) (clip im.rect r colorImageBounds sp (some am.rect) mp).2.1 (some (MaskImage.alphaAt16 (MaskImage.alpha am))) (clip im.rect r colorImageBounds sp (some am.rect) mp).2.2 Op.Src x y,
                  if_neg (show ¬ (clip im.rect r colorImageBounds sp (some am.rect) mp).1.mem x y from hmem)]
              | rgba s =>
                have hI : DrawMask toRGB (.rgbaDst im) r (SrcImage.rgba s) sp (some (MaskImage.alpha am)) mp Op.Src
                    = .rgbaDst ⟨drawRGBA im.pix (clip im.rect r s.rect sp (some am.rect) mp).1 false (SrcImage.at16 toRGB (SrcImage.rgba s)) (clip im.rect r s.rect sp (some am.rect) mp).2.1 (some (MaskImage.alphaAt16 (MaskImage.alpha am))) (clip im.rect r s.rect sp (some am.rect) mp).2.2 Op.Src, im.rect⟩ := by
                  unfold DrawMask
                  dsimp only
                  split
                  · next hpos => exact absurd hpos hE
                  · rfl
                rw [hI]
                show (drawRGBA im.pix (clip im.rect r s.rect sp (some am.rect) mp).1 false (SrcImage.at16 toRGB (SrcImage.rgba s)) (clip im.rect r s.rect sp (some am.rect) mp).2.1 (some (MaskImage.alphaAt16 (MaskImage.alpha am))) (clip im.rect r s.rect sp (some am.rect) mp).2.2 Op.Src x y).rgba = (im.pix x y).rgba
                rw [drawRGBA_apply im.pix (clip im.rect r s.rect sp (some am.rect) mp).1 false (SrcImage.at16 toRGB (SrcImage.rgba s)) (clip im.rect r s.rect sp (some am.rect) mp).2.1 (some (MaskImage.alphaAt16 (MaskImage.alpha am))) (clip im.rect r s.rect sp (some am.rect) mp).2.2 Op.Src x y,
                  if_neg (show ¬ (clip im.rect r s.rect sp (some am.rect) mp).1.mem x y from hmem)]
              | dstItself =>
                have hI : DrawMask toRGB (.rgbaDst im) r (SrcImage.dstItself) sp (some (MaskImage.alpha am)) mp Op.Src
                    = .rgbaDst ⟨drawRGBA im.pix (clip im.rect r im.rect sp (some am.rect) mp).1 true (SrcImage.at16 toRGB (SrcImage.dstItself)) (clip im.rect r im.rect sp (some am.rect) mp).2.1 (some (MaskImage.alphaAt16 (MaskImage.alpha am))) (clip im.rect r im.rect sp (some am.rect) mp).2.2 Op.Src, im.rect⟩ := by
                  unfold DrawMask
                  dsimp only
                  split
                  · next hpos => exact absurd hpos hE
                  · rfl
                rw [hI]
                show (drawRGBA im.pix (clip im.rect r im.rect sp (some am.rect) mp).1 true (SrcImage.at16 toRGB (SrcImage.dstItself)) (clip im.rect r im.rect sp (some am.rect) mp).2.1 (some (MaskImage.alphaAt16 (MaskImage.alpha am))) (clip im.rect r im.rect sp (some am.rect) mp).2.2 Op.Src x y).rgba = (im.pix x y).rgba
                rw [drawRGBA_apply im.pix (clip im.rect r im.rect sp (some am.rect) mp).1 true (SrcImage.at16 toRGB (SrcImage.dstItself)) (clip im.rect r im.rect sp (some am.rect) mp).2.1 (some (MaskImage.alphaAt16 (MaskImage.alpha am))) (clip im.rect r im.rect sp (some am.rect) mp).2.2 Op.Src x y,
                  if_neg (show ¬ (clip im.rect r im.rect sp (some am.rect) mp).1.mem x y from hmem)]
              | nrgba s =>
                have hI : DrawMask toRGB (.rgbaDst im) r (SrcImage.nrgba s) sp (some (MaskImage.alpha am)) mp Op.Src
                    = .rgbaDst ⟨drawRGBA im.pix (clip im.rect r s.rect sp (some am.rect) mp).1 false (SrcImage.at16 toRGB (SrcImage.nrgba s)) (clip im.rect r s.rect sp (some am.rect) mp).2.1 (some (MaskImage.alphaAt16 (MaskImage.alpha am))) (clip im.rect r s.rect sp (some am.rect) mp).2.2 Op.Src, im.rect⟩ := by
                  unfold DrawMask
                  dsimp only
                  split
                  · next hpos => exact absurd hpos hE
                  · rfl
                rw [hI]
                show (drawRGBA im.pix (clip im.rect r s.rect sp (some am.rect) mp).1 false (SrcImage.at16 toRGB (SrcImage.nrgba s)) (clip im.rect r s.rect sp (some am.rect) mp).2.1 (some (MaskImage.alphaAt16 (MaskImage.alpha am))) (clip im.rect r s.rect sp (some am.rect) mp).2.2 Op.Src x y).rgba = (im.pix x y).rgba
                rw [drawRGBA_apply im.pix (clip im.rect r s.rect sp (some am.rect) mp).1 false (SrcImage.at16 toRGB (SrcImage.nrgba s)) (clip im.rect r s.rect sp (some am.rect) mp).2.1 (some (MaskImage.alphaAt16 (MaskImage.alpha am))) (clip im.rect r s.rect sp (some am.rect) mp).2.2 Op.Src x y,
                  if_neg (show ¬ (clip im.rect r s.rect sp (some am.rect) mp).1.mem x y from hmem)]
              | ycbcrSrc s =>
                have hI : DrawMask toRGB (.rgbaDst im) r (SrcImage.ycbcrSrc s) sp (some (MaskImage.alpha am)) mp Op.Src
                    = .rgbaDst ⟨drawRGBA im.pix (clip im.rect r s.rect sp (some am.rect) mp).1 false (SrcImage.at16 toRGB (SrcImage.ycbcrSrc s)) (clip im.rect r s.rect sp (some am.rect) mp).2.1 (some (MaskImage.alphaAt16 (MaskImage.alpha am))) (clip im.rect r s.rect sp (some am.rect) mp).2.2 Op.Src, im.rect⟩ := by
                  unfold DrawMask
                  dsimp only
                  split
                  · next hpos => exact absurd hpos hE
                  · rfl
                rw [hI]
                show (drawRGBA im.pix (clip im.rect r s.rect sp (some am.rect) mp).1 false (SrcImage.at16 toRGB (SrcImage.ycbcrSrc s)) (clip im.rect r s.rect sp (some am.rect) mp).2.1 (some (MaskImage.alphaAt16 (MaskImage.alpha am))) (clip im.rect r s.rect sp (some am.rect) mp).2.2 Op.Src x y).rgba = (im.pix x y).rgba
                rw [drawRGBA_apply im.pix (clip im.rect r s.rect sp (some am.rect) mp).1 false (SrcImage.at16 toRGB (SrcImage.ycbcrSrc s)) (clip im.rect r s.rect sp (some am.rect) mp).2.1 (some (MaskImage.alphaAt16 (MaskImage.alpha am))) (clip im.rect r s.rect sp (some am.rect) mp).2.2 Op.Src x y,
                  if_neg (show ¬ (clip im.rect r s.rect sp (some am.rect) mp).1.mem x y from hmem)]
              | generic bnds colorAt =>
                have hI : DrawMask toRGB (.rgbaDst im) r (SrcImage.generic bnds colorAt) sp (some (MaskImage.alpha am)) mp Op.Src
                    = .rgbaDst ⟨drawRGBA im.pix (clip im.rect r bnds sp (some am.rect) mp).1 false (SrcImage.at16 toRGB (SrcImage.generic bnds colorAt)) (clip im.rect r bnds sp (some am.rect) mp).2.1 (some (MaskImage.alphaAt16 (MaskImage.alpha am))) (clip im.rect r bnds sp (some am.rect) mp).2.2 Op.Src, im.rect⟩ := by
                  unfold DrawMask
                  dsimp only
                  split
                  · next hpos => exact absurd hpos hE
                  · rfl
                rw [hI]
                show (drawRGBA im.pix (clip im.rect r bnds sp (some am.rect) mp).1 false (SrcImage.at16 toRGB (SrcImage.generic bnds colorAt)) (clip im.rect r bnds sp (some am.rect) mp).2.1 (some (MaskImage.alphaAt16 (MaskImage.alpha am))) (clip im.rect r bnds sp (some am.rect) mp).2.2 Op.Src x y).rgba = (im.pix x y).rgba
                rw [drawRGBA_apply im.pix (clip im.rect r bnds sp (some am.rect) mp).1 false (SrcImage.at16 toRGB (SrcImage.generic bnds colorAt)) (clip im.rect r bnds sp (some am.rect) mp).2.1 (some (MaskImage.alphaAt16 (MaskImage.alpha am))) (clip im.rect r bnds sp (some am.rect) mp).2.2 Op.Src x y,
                  if_neg (show ¬ (clip im.rect r bnds sp (some am.rect) mp).1.mem x y from hmem)]
            | genericMask mb mAt =>
              cases src with
              | colorImage cc =>
                have hI : DrawMask toRGB (.rgbaDst im) r (SrcImage.colorImage cc) sp (some (MaskImage.genericMask mb mAt)) mp Op.Src
                    = .rgbaDst ⟨drawRGBA im.pix (clip im.rect r colorImageBounds sp (some mb) mp).1 false (SrcImage.at16 toRGB (SrcImage.colorImage cc)) (clip im.rect r colorImageBounds sp (some mb) mp).2.1 (some (MaskImage.alphaAt16 (MaskImage.genericMask mb mAt))) (clip im.rect r colorImageBounds sp (some mb) mp).2.2 Op.Src, im.rect⟩ := by
                  unfold DrawMask
                  dsimp only
                  split
                  · next hpos => exact absurd hpos hE
                  · rfl
                rw [hI]
                show (drawRGBA im.pix (clip im.rect r colorImageBounds sp (some mb) mp).1 false (SrcImage.at16 toRGB (SrcImage.colorImage cc)) (clip im.rect r colorImageBounds sp (some mb) mp).2.1 (some (MaskImage.alphaAt16 (MaskImage.genericMask mb mAt))) (clip im.rect r colorImageBounds sp (some mb) mp).2.2 Op.Src x y).rgba = (im.pix x y).rgba
                rw [drawRGBA_apply im.pix (clip im.rect r colorImageBounds sp (some mb) mp).1 false (SrcImage.at16 toRGB (SrcImage.colorImage cc)) (clip im.rect r colorImageBounds sp (some mb) mp).2.1 (some (MaskImage.alphaAt16 (MaskImage.genericMask mb mAt))) (clip im.rect r colorImageBounds sp (some mb) mp).2.2 Op.Src x y,
                  if_neg (show ¬ (clip im.rect r colorImageBounds sp (some mb) mp).1.mem x y from hmem)]
              | rgba s =>
                have hI : DrawMask toRGB (.rgbaDst im) r (SrcImage.rgba s) sp (some (MaskImage.genericMask mb mAt)) mp Op.Src
                    = .rgbaDst ⟨drawRGBA im.pix (clip im.rect r s.rect sp (some mb) mp).1 false (SrcImage.at16 toRGB (SrcImage.rgba s)) (clip im.rect r s.rect sp (some mb) mp).2.1 (some (MaskImage.alphaAt16 (MaskImage.genericMask mb mAt))) (clip im.rect r s.rect sp (some mb) mp).2.2 Op.Src, im.rect⟩ := by
                  unfold DrawMask
                  dsimp only
                  split
                  · next hpos => exact absurd hpos hE
                  · rfl
                rw [hI]
                show (drawRGBA im.pix (clip im.rect r s.rect sp (some mb) mp).1 false (SrcImage.at16 toRGB (SrcImage.rgba s)) (clip im.rect r s.rect sp (some mb) mp).2.1 (some (MaskImage.alphaAt16 (MaskImage.genericMask mb mAt))) (clip im.rect r s.rect sp (some mb) mp).2.2 Op.Src x y).rgba = (im.pix x y).rgba
                rw [drawRGBA_apply im.pix (clip im.rect r s.rect sp (some mb) mp).1 false (SrcImage.at16 toRGB (SrcImage.rgba s)) (clip im.rect r s.rect sp (some mb) mp).2.1 (some (MaskImage.alphaAt16 (MaskImage.genericMask mb mAt))) (clip im.rect r s.rect sp (some mb) mp).2.2 Op.Src x y,
                  if_neg (show ¬ (clip im.rect r s.rect sp (some mb) mp).1.mem x y from hmem)]
              | dstItself =>
                have hI : DrawMask toRGB (.rgbaDst im) r (SrcImage.dstItself) sp (some (MaskImage.genericMask mb mAt)) mp Op.Src
                    = .rgbaDst ⟨drawRGBA im.pix (clip im.rect r im.rect sp (some mb) mp).1 true (SrcImage.at16 toRGB (SrcImage.dstItself)) (clip im.rect r im.rect sp (some mb) mp).2.1 (some (MaskImage.alphaAt16 (MaskImage.genericMask mb mAt))) (clip im.rect r im.rect sp (some mb) mp).2.2 Op.Src, im.rect⟩ := by
                  unfold DrawMask
                  dsimp only
                  split
                  · next hpos => exact absurd hpos hE
                  · rfl
                rw [hI]
                show (drawRGBA im.pix (clip im.rect r im.rect sp (some mb) mp).1 true (SrcImage.at16 toRGB (SrcImage.dstItself)) (clip im.rect r im.rect sp (some mb) mp).2.1 (some (MaskImage.alphaAt16 (MaskImage.genericMask mb mAt))) (clip im.rect r im.rect sp (some mb) mp).2.2 Op.Src x y).rgba = (im.pix x y).rgba
                rw [drawRGBA_apply im.pix (clip im.rect r im.rect sp (some mb) mp).1 true (SrcImage.at16 toRGB (SrcImage.dstItself)) (clip im.rect r im.rect sp (some mb) mp).2.1 (some (MaskImage.alphaAt16 (MaskImage.genericMask mb mAt))) (clip im.rect r im.rect sp (some mb) mp).2.2 Op.Src x y,
                  if_neg (show ¬ (clip im.rect r im.rect sp (some mb) mp).1.mem x y from hmem)]
              | nrgba s =>
                have hI : DrawMask toRGB (.rgbaDst im) r (SrcImage.nrgba s) sp (some (MaskImage.genericMask mb mAt)) mp Op.Src
                    = .rgbaDst ⟨drawRGBA im.pix (clip im.rect r s.rect sp (some mb) mp).1 false (SrcImage.at16 toRGB (SrcImage.nrgba s)) (clip im.rect r s.rect sp (some mb) mp).2.1 (some (MaskImage.alphaAt16 (MaskImage.genericMask mb mAt))) (clip im.rect r s.rect sp (some mb) mp).2.2 Op.Src, im.rect⟩ := by
                  unfold DrawMask
                  dsimp only
                  split
                  · next hpos => exact absurd hpos hE
                  · rfl
                rw [hI]
                show (drawRGBA im.pix (clip im.rect r s.rect sp (some mb) mp).1 false (SrcImage.at16 toRGB (SrcImage.nrgba s)) (clip im.rect r s.rect sp (some mb) mp).2.1 (some (MaskImage.alphaAt16 (MaskImage.genericMask mb mAt))) (clip im.rect r s.rect sp (some mb) mp).2.2 Op.Src x y).rgba = (im.pix x y).rgba
                rw [drawRGBA_apply im.pix (clip im.rect r s.rect sp (some mb) mp).1 false (SrcImage.at16 toRGB (SrcImage.nrgba s)) (clip im.rect r s.rect sp (some mb) mp).2.1 (some (MaskImage.alphaAt16 (MaskImage.genericMask mb mAt))) (clip im.rect r s.rect sp (some mb) mp).2.2 Op.Src x y,
                  if_neg (show ¬ (clip im.rect r s.rect sp (some mb) mp).1.mem x y from hmem)]
              | ycbcrSrc s =>
                have hI : DrawMask toRGB (.rgbaDst im) r (SrcImage.ycbcrSrc s) sp (some (MaskImage.genericMask mb mAt)) mp Op.Src
                    = .rgbaDst ⟨drawRGBA im.pix (clip im.rect r s.rect sp (some mb) mp).1 false (SrcImage.at16 toRGB (SrcImage.ycbcrSrc s)) (clip im.rect r s.rect sp (some mb) mp).2.1 (some (MaskImage.alphaAt16 (MaskImage.genericMask mb mAt))) (clip im.rect r s.rect sp (some mb) mp).2.2 Op.Src, im.rect⟩ := by
                  unfold DrawMask
                  dsimp only
                  split
                  · next hpos => exact absurd hpos hE
                  · rfl
                rw [hI]
                show (drawRGBA im.pix (clip im.rect r s.rect sp (some mb) mp).1 false (SrcImage.at16 toRGB (SrcImage.ycbcrSrc s)) (clip im.rect r s.rect sp (some mb) mp).2.1 (some (MaskImage.alphaAt16 (MaskImage.genericMask mb mAt))) (clip im.rect r s.rect sp (some mb) mp).2.2 Op.Src x y).rgba = (im.pix x y).rgba
                rw [drawRGBA_apply im.pix (clip im.rect r s.rect sp (some mb) mp).1 false (SrcImage.at16 toRGB (SrcImage.ycbcrSrc s)) (clip im.rect r s.rect sp (some mb) mp).2.1 (some (MaskImage.alphaAt16 (MaskImage.genericMask mb mAt))) (clip im.rect r s.rect sp (some mb) mp).2.2 Op.Src x y,
                  if_neg (show ¬ (clip im.rect r s.rect sp (some mb) mp).1.mem x y from hmem)]
              | generic bnds colorAt =>
                have hI : DrawMask toRGB (.rgbaDst im) r (SrcImage.generic bnds colorAt) sp (some (MaskImage.genericMask mb mAt)) mp Op.Src
                    = .rgbaDst ⟨drawRGBA im.pix (clip im.rect r bnds sp (some mb) mp).1 false (SrcImage.at16 toRGB (SrcImage.generic bnds colorAt)) (clip im.rect r bnds sp (some mb) mp).2.1 (some (MaskImage.alphaAt16 (MaskImage.genericMask mb mAt))) (clip im.rect r bnds sp (some mb) mp).2.2 Op.Src, im.rect⟩ := by
                  unfold DrawMask
                  dsimp only
                  split
                  · next hpos => exact absurd hpos hE
                  · rfl
                rw [hI]
                show (drawRGBA im.pix (clip im.rect r bnds sp (some mb) mp).1 false (SrcImage.at16 toRGB (SrcImage.generic bnds colorAt)) (clip im.rect r bnds sp (some mb) mp).2.1 (some (MaskImage.alphaAt16 (MaskImage.genericMask mb mAt))) (clip im.rect r bnds sp (some mb) mp).2.2 Op.Src x y).rgba = (im.pix x y).rgba
                rw [drawRGBA_apply im.pix (clip im.rect r bnds sp (some mb) mp).1 false (SrcImage.at16 toRGB (SrcImage.generic bnds colorAt)) (clip im.rect r bnds sp (some mb) mp).2.1 (some (MaskImage.alphaAt16 (MaskImage.genericMask mb mAt))) (clip im.rect r bnds sp (some mb) mp).2.2 Op.Src x y,
                  if_neg (show ¬ (clip im.rect r bnds sp (some mb) mp).1.mem x y from hmem)]
      | genericDst bnds pixmap =>
        have hI : DrawMask toRGB (.genericDst bnds pixmap) r src sp mask mp op
            = .genericDst bnds (drawGeneric pixmap (clip bnds r (SrcImage.boundsIn bnds src) sp (Option.map MaskImage.bounds mask) mp).1 src.isSelf (SrcImage.at16 toRGB src) (clip bnds r (SrcImage.boundsIn bnds src) sp (Option.map MaskImage.bounds mask) mp).2.1 (Option.map MaskImage.alphaAt16 mask) (clip bnds r (SrcImage.boundsIn bnds src) sp (Option.map MaskImage.bounds mask) mp).2.2 op) := by
          unfold DrawMask
          dsimp only
          split
          · next hpos => exact absurd hpos hE
          · rfl
        rw [hI]
        show drawGeneric pixmap (clip bnds r (SrcImage.boundsIn bnds src) sp (Option.map MaskImage.bounds mask) mp).1 src.isSelf (SrcImage.at16 toRGB src) (clip bnds r (SrcImage.boundsIn bnds src) sp (Option.map MaskImage.bounds mask) mp).2.1 (Option.map MaskImage.alphaAt16 mask) (clip bnds r (SrcImage.boundsIn bnds src) sp (Option.map MaskImage.bounds mask) mp).2.2 op x y = pixmap x y
        rw [drawGeneric_apply pixmap (clip bnds r (SrcImage.boundsIn bnds src) sp (Option.map MaskImage.bounds mask) mp).1 src.isSelf (SrcImage.at16 toRGB src) (clip bnds r (SrcImage.boundsIn bnds src) sp (Option.map MaskImage.bounds mask) mp).2.1 (Option.map MaskImage.alphaAt16 mask) (clip bnds r (SrcImage.boundsIn bnds src) sp (Option.map MaskImage.bounds mask) mp).2.2 op x y,
          if_neg (show ¬ (clip bnds r (SrcImage.boundsIn bnds src) sp (Option.map MaskImage.bounds mask) mp).1.mem x y from hmem)]

/-- One Over channel of the generic loop equals the spec's exact
formula: under the premultiplied contract the wrapped sum stays below
2^32 and the quotient below 2^16, so both narrowings are identities. -/
theorem genericOverChannel (dc sc sa ma : Nat) (hdc : dc ≤ m) (hsc : sc ≤ sa)
    (hsa : sa ≤ m) (hma : ma ≤ m) :
    u16 (u32 (dc * (m - u32 (sa * ma) / m) + sc * ma) / m)
      = (dc * (m - sa * ma / m) + sc * ma) / m := by
  have hprod : sa * ma ≤ 65535 * 65535 := by
    have h1 : sa * ma ≤ sa * 65535 := Nat.mul_le_mul_left _ (by unfold m at hma; omega)
    have h2 : sa * 65535 ≤ 65535 * 65535 := Nat.mul_le_mul_right _ (by unfold m at hsa; omega)
    omega
  have e1 : u32 (sa * ma) = sa * ma := u32_eq_of_lt (by omega)
  rw [e1]
  have b1 : dc * (m - sa * ma / m) ≤ 65535 * (65535 - sa * ma / 65535) := by
    have h1 : dc * (m - sa * ma / m) ≤ 65535 * (m - sa * ma / m) :=
      Nat.mul_le_mul_right _ (by unfold m at hdc; omega)
    unfold m at h1 ⊢
    omega
  have b2 : sc * ma ≤ sa * ma := Nat.mul_le_mul_right _ hsc
  have hsum : dc * (m - sa * ma / m) + sc * ma < 4294967296 := by
    unfold m at b1 ⊢
    omega
  rw [u32_eq_of_lt hsum]
  unfold u16
  have hdiv : (dc * (m - sa * ma / m) + sc * ma) / m < 65536 := by
    unfold m at b1 ⊢
    omega
  exact Nat.mod_eq_of_lt hdiv

/-- One Src channel of the generic loop equals the spec's exact
formula. -/
theorem genericSrcChannel (sc ma : Nat) (hsc : sc ≤ m) (hma : ma ≤ m) :
    u16 (u32 (sc * ma) / m) = sc * ma / m := by
  have hprod : sc * ma ≤ 65535 * 65535 := by
    have h1 : sc * ma ≤ sc * 65535 := Nat.mul_le_mul_left _ (by unfold m at hma; omega)
    have h2 : sc * 65535 ≤ 65535 * 65535 := Nat.mul_le_mul_right _ (by unfold m at hsc; omega)
    omega
  have e1 : u32 (sc * ma) = sc * ma := u32_eq_of_lt (by omega)
  rw [e1]
  unfold u16 m
  omega

/-- C2: the generic compositor's per-pixel behavior, for every pixel of
the rectangle and mask coverage ma (`m` when the mask is nil): ma = 0
is a no-op for Over and stores the zero color for Src; ma = m with Src
stores the source color directly; otherwise every channel (alpha
included) is `(dst.c*a + src.c*ma)/m` with `a = m - sa*ma/m` for Over
and `src.c*ma/m` for Src. -/
theorem claim_C2_generic_pixel
    (dst : Color16Buf) (r : Rectangle) (srcAt : Int → Int → Color16) (sp : Point)
    (mask : Option (Int → Int → Nat)) (mp : Point) (op : Op) (x y : Int)
    (hxy : r.mem x y)
    (hd : (dst x y).valid)
    (hs : (srcAt (sp.x + x - r.min.x) (sp.y + y - r.min.y)).valid)
    (hma : maskAlphaOr mask (mp.x + x - r.min.x) (mp.y + y - r.min.y) ≤ m) :
    (mask = none → maskAlphaOr mask (mp.x + x - r.min.x) (mp.y + y - r.min.y) = m)
    ∧ drawGeneric dst r false srcAt sp mask mp op x y =
      (if maskAlphaOr mask (mp.x + x - r.min.x) (mp.y + y - r.min.y) = 0 then
        match op with
        | Op.Over => dst x y
        | Op.Src => zeroColor16
      else if maskAlphaOr mask (mp.x + x - r.min.x) (mp.y + y - r.min.y) = m ∧ op = Op.Src then
        srcAt (sp.x + x - r.min.x) (sp.y + y - r.min.y)
      else
        match op with
        | Op.Over =>
          ⟨((dst x y).r * (m - (srcAt (sp.x + x - r.min.x) (sp.y + y - r.min.y)).a * (maskAlphaOr mask (mp.x + x - r.min.x) (mp.y + y - r.min.y)) / m) + (srcAt (sp.x + x - r.min.x) (sp.y + y - r.min.y)).r * (maskAlphaOr mask (mp.x + x - r.min.x) (mp.y + y - r.min.y))) / m,
           ((dst x y).g * (m - (srcAt (sp.x + x - r.min.x) (sp.y + y - r.min.y)).a * (maskAlphaOr mask (mp.x + x - r.min.x) (mp.y + y - r.min.y)) / m) + (srcAt (sp.x + x - r.min.x) (sp.y + y - r.min.y)).g * (maskAlphaOr mask (mp.x + x - r.min.x) (mp.y + y - r.min.y))) / m,
           ((dst x y).b * (m - (srcAt (sp.x + x - r.min.x) (sp.y + y - r.min.y)).a * (maskAlphaOr mask (mp.x + x - r.min.x) (mp.y + y - r.min.y)) / m) + (srcAt (sp.x + x - r.min.x) (sp.y + y - r.min.y)).b * (maskAlphaOr mask (mp.x + x - r.min.x) (mp.y + y - r.min.y))) / m,
           ((dst x y).a * (m - (srcAt (sp.x + x - r.min.x) (sp.y + y - r.min.y)).a * (maskAlphaOr mask (mp.x + x - r.min.x) (mp.y + y - r.min.y)) / m) + (srcAt (sp.x + x - r.min.x) (sp.y + y - r.min.y)).a * (maskAlphaOr mask (mp.x + x - r.min.x) (mp.y + y - r.min.y))) / m⟩
        | Op.Src =>
          ⟨(srcAt (sp.x + x - r.min.x) (sp.y + y - r.min.y)).r * (maskAlphaOr mask (mp.x + x - r.min.x) (mp.y + y - r.min.y)) / m, (srcAt (sp.x + x - r.min.x) (sp.y + y - r.min.y)).g * (maskAlphaOr mask (mp.x + x - r.min.x) (mp.y + y - r.min.y)) / m,
           (srcAt (sp.x + x - r.min.x) (sp.y + y - r.min.y)).b * (maskAlphaOr mask (mp.x + x - r.min.x) (mp.y + y - r.min.y)) / m, (srcAt (sp.x + x - r.min.x) (sp.y + y - r.min.y)).a * (maskAlphaOr mask (mp.x + x - r.min.x) (mp.y + y - r.min.y)) / m⟩) := by
  refine ⟨fun hnone => by rw [hnone]; rfl, ?_⟩
  have happ := drawGeneric_apply dst r false srcAt sp mask mp op x y
  rw [if_pos hxy] at happ
  rw [happ]
  show genericApplied op (maskAlphaOr mask (mp.x + x - r.min.x) (mp.y + y - r.min.y)) (srcAt (sp.x + x - r.min.x) (sp.y + y - r.min.y)) (dst x y) = _
  by_cases h0 : maskAlphaOr mask (mp.x + x - r.min.x) (mp.y + y - r.min.y) = 0
  · rw [if_pos h0]
    unfold genericApplied genericStep
    rw [if_pos h0]
    cases op <;> rfl
  · rw [if_neg h0]
    unfold genericApplied genericStep
    rw [if_neg h0]
    by_cases h1 : maskAlphaOr mask (mp.x + x - r.min.x) (mp.y + y - r.min.y) = m ∧ op = Op.Src
    · rw [if_pos h1, if_pos h1]
      rfl
    · rw [if_neg h1, if_neg h1]
      cases op with
      | Over =>
        show genericBlendPixel Op.Over (maskAlphaOr mask (mp.x + x - r.min.x) (mp.y + y - r.min.y)) (srcAt (sp.x + x - r.min.x) (sp.y + y - r.min.y)) (dst x y) = _
        unfold genericBlendPixel
        dsimp only
        rw [genericOverChannel (dst x y).r (srcAt (sp.x + x - r.min.x) (sp.y + y - r.min.y)).r (srcAt (sp.x + x - r.min.x) (sp.y + y - r.min.y)).a (maskAlphaOr mask (mp.x + x - r.min.x) (mp.y + y - r.min.y))
              (le_trans hd.1 hd.2.2.2) hs.1 hs.2.2.2 hma,
            genericOverChannel (dst x y).g (srcAt (sp.x + x - r.min.x) (sp.y + y - r.min.y)).g (srcAt (sp.x + x - r.min.x) (sp.y + y - r.min.y)).a (maskAlphaOr mask (mp.x + x - r.min.x) (mp.y + y - r.min.y))
              (le_trans hd.2.1 hd.2.2.2) hs.2.1 hs.2.2.2 hma,
            genericOverChannel (dst x y).b (srcAt (sp.x + x - r.min.x) (sp.y + y - r.min.y)).b (srcAt (sp.x + x - r.min.x) (sp.y + y - r.min.y)).a (maskAlphaOr mask (mp.x + x - r.min.x) (mp.y + y - r.min.y))
              (le_trans hd.2.2.1 hd.2.2.2) hs.2.2.1 hs.2.2.2 hma,
            genericOverChannel (dst x y).a (srcAt (sp.x + x - r.min.x) (sp.y + y - r.min.y)).a (srcAt (sp.x + x - r.min.x) (sp.y + y - r.min.y)).a (maskAlphaOr mask (mp.x + x - r.min.x) (mp.y + y - r.min.y))
              hd.2.2.2 (le_refl _) hs.2.2.2 hma]
      | Src =>
        show genericBlendPixel Op.Src (maskAlphaOr mask (mp.x + x - r.min.x) (mp.y + y - r.min.y)) (srcAt (sp.x + x - r.min.x) (sp.y + y - r.min.y)) (dst x y) = _
        unfold genericBlendPixel
        dsimp only
        rw [genericSrcChannel (srcAt (sp.x + x - r.min.x) (sp.y + y - r.min.y)).r (maskAlphaOr mask (mp.x + x - r.min.x) (mp.y + y - r.min.y)) (le_trans hs.1 hs.2.2.2) hma,
            genericSrcChannel (srcAt (sp.x + x - r.min.x) (sp.y + y - r.min.y)).g (maskAlphaOr mask (mp.x + x - r.min.x) (mp.y + y - r.min.y)) (le_trans hs.2.1 hs.2.2.2) hma,
            genericSrcChannel (srcAt (sp.x + x - r.min.x) (sp.y + y - r.min.y)).b (maskAlphaOr mask (mp.x + x - r.min.x) (mp.y + y - r.min.y)) (le_trans hs.2.2.1 hs.2.2.2) hma,
            genericSrcChannel (srcAt (sp.x + x - r.min.x) (sp.y + y - r.min.y)).a (maskAlphaOr mask (mp.x + x - r.min.x) (mp.y + y - r.min.y)) hs.2.2.2 hma]

/-- The pixel drawYCbCr stores equals the generic formula applied to
the source's `At` color, for either operator: the source is fully
opaque, so Over reduces to overwriting. -/
theorem ycbcr_store_eq_rgbaPixel
    (toRGB : Fin 256 → Fin 256 → Fin 256 → Fin 256 × Fin 256 × Fin 256)
    (s : YCbCrImage) (sx sy : Int) (d : RGBAColor) (op : Op) :
    ycbcrStorePix toRGB s sx sy = drawRGBAPixel op m (ycbcrAt toRGB s sx sy) d := by
  unfold ycbcrStorePix ycbcrAt
  dsimp only
  by_cases h22 : s.subsample = ss422
  · rw [if_pos h22, if_pos h22]
    dsimp only
    cases op with
    | Over =>
      exact (rgbaPixel_opaque_over _ _ _ d).symm
    | Src =>
      exact (rgbaPixel_opaque_src _ _ _ d).symm
  · rw [if_neg h22, if_neg h22]
    by_cases h20 : s.subsample = ss420
    · rw [if_pos h20, if_pos h20]
      dsimp only
      cases op with
      | Over =>
        exact (rgbaPixel_opaque_over _ _ _ d).symm
      | Src =>
        exact (rgbaPixel_opaque_src _ _ _ d).symm
    · rw [if_neg h20, if_neg h20]
      dsimp only
      cases op with
      | Over =>
        exact (rgbaPixel_opaque_over _ _ _ d).symm
      | Src =>
        exact (rgbaPixel_opaque_src _ _ _ d).symm

/-- drawGlyphOver's skip-or-blend at an 8-bit coverage value equals the
generic Over formula at the widened coverage. -/
theorem glyphStep_eq_rgbaPixel (c : Color16) (v : Fin 256) (d : RGBAColor) :
    glyphStep c v.val d = drawRGBAPixel Op.Over (v.val * 0x101) c d := by
  unfold glyphStep
  by_cases h0 : v.val = 0
  · rw [if_pos h0, h0]
    exact (rgbaPixel_over_zero c d).symm
  · rw [if_neg h0]
    rw [show v.val ||| (v.val <<< 8) = v.val * 0x101 from lor_shift_widen v]
    exact glyphOver_eq_rgbaPixel c (v.val * 0x101) d

/-- The validity the fast paths assume of a source, read off the
`image.Color` premultiplied-alpha contract: a solid color is a valid
premultiplied color, and an RGBA source buffer holds premultiplied
pixels; the other kinds need nothing. -/
def SrcImage.premultOK : SrcImage → Prop
  | .colorImage c => c.valid
  | .rgba s => ∀ x y, (s.pix x y).premult
  | _ => True

set_option maxHeartbeats 2000000 in
/-- C4: on an RGBA destination holding premultiplied pixels and with a
source satisfying the `image.Color` premultiplied contract, every
dispatch of DrawMask — every fast path included — produces a
destination bit-identical to running the same inputs through the
generic per-pixel compositor loop. -/
theorem claim_C4_fastpath_refinement
    (toRGB : Fin 256 → Fin 256 → Fin 256 → Fin 256 × Fin 256 × Fin 256)
    (im : RGBAImage) (r : Rectangle) (src : SrcImage) (sp : Point)
    (mask : Option MaskImage) (mp : Point) (op : Op)
    (hd : ∀ x y, (im.pix x y).premult)
    (hs : src.premultOK) :
    DrawMask toRGB (.rgbaDst im) r src sp mask mp op
      = DrawMaskGeneric toRGB (.rgbaDst im) r src sp mask mp op := by
  by_cases hE : (clip im.rect r (SrcImage.boundsIn im.rect src) sp
        (Option.map MaskImage.bounds mask) mp).1.isEmpty = true
  · have h1 : DrawMask toRGB (.rgbaDst im) r src sp mask mp op = .rgbaDst im := by
      unfold DrawMask
      dsimp only
      split
      · rfl
      · next hne => exact absurd hE hne
    have h2 : DrawMaskGeneric toRGB (.rgbaDst im) r src sp mask mp op = .rgbaDst im := by
      unfold DrawMaskGeneric
      dsimp only
      split
      · rfl
      · next hne => exact absurd hE hne
    rw [h1, h2]
  · cases op with
    | Over =>
      cases mask with
      | none =>
        cases src with
            | colorImage cc =>
              have h1 : DrawMask toRGB (.rgbaDst im) r (SrcImage.colorImage cc) sp none mp Op.Over
                  = .rgbaDst ⟨drawFillOver im.pix (clip im.rect r colorImageBounds sp none mp).1 cc, im.rect⟩ := by
                unfold DrawMask
                dsimp only
                split
                · next hpos => exact absurd hpos hE
                · rfl
              have h2 : DrawMaskGeneric toRGB (.rgbaDst im) r (SrcImage.colorImage cc) sp none mp Op.Over
                  = .rgbaDst ⟨drawRGBA im.pix (clip im.rect r colorImageBounds sp none mp).1 false (SrcImage.at16 toRGB (SrcImage.colorImage cc)) (clip im.rect r colorImageBounds sp none mp).2.1 none (clip im.rect r colorImageBounds sp none mp).2.2 Op.Over, im.rect⟩ := by
                unfold DrawMaskGeneric
                dsimp only
                split
                · next hpos => exact absurd hpos hE
                · rfl
              rw [h1, h2]
              have hfun : drawFillOver im.pix (clip im.rect r colorImageBounds sp none mp).1 cc
                  = drawRGBA im.pix (clip im.rect r colorImageBounds sp none mp).1 false (SrcImage.at16 toRGB (SrcImage.colorImage cc)) (clip im.rect r colorImageBounds sp none mp).2.1 none (clip im.rect r colorImageBounds sp none mp).2.2 Op.Over := by
                funext x y
                rw [drawFillOver_apply im.pix (clip im.rect r colorImageBounds sp none mp).1 cc x y, drawRGBA_apply im.pix (clip im.rect r colorImageBounds sp none mp).1 false (SrcImage.at16 toRGB (SrcImage.colorImage cc)) (clip im.rect r colorImageBounds sp none mp).2.1 none (clip im.rect r colorImageBounds sp none mp).2.2 Op.Over x y]
                refine if_congr Iff.rfl ?_ rfl
                exact blendOver_eq_rgbaPixel cc hs (im.pix x y)
              rw [hfun]
            | rgba s =>
              have h1 : DrawMask toRGB (.rgbaDst im) r (SrcImage.rgba s) sp none mp Op.Over
                  = .rgbaDst ⟨drawCopyOver im.pix (clip im.rect r s.rect sp none mp).1 false s.pix (clip im.rect r s.rect sp none mp).2.1, im.rect⟩ := by
                unfold DrawMask
                dsimp only
                split
                · next hpos => exact absurd hpos hE
                · rfl
              have h2 : DrawMaskGeneric toRGB (.rgbaDst im) r (SrcImage.rgba s) sp none mp Op.Over
                  = .rgbaDst ⟨drawRGBA im.pix (clip im.rect r s.rect sp none mp).1 false (SrcImage.at16 toRGB (SrcImage.rgba s)) (clip im.rect r s.rect sp none mp).2.1 none (clip im.rect r s.rect sp none mp).2.2 Op.Over, im.rect⟩ := by
                unfold DrawMaskGeneric
                dsimp only
                split
                · next hpos => exact absurd hpos hE
                · rfl
              rw [h1, h2]
              have hfun : drawCopyOver im.pix (clip im.rect r s.rect sp none mp).1 false s.pix (clip im.rect r s.rect sp none mp).2.1
                  = drawRGBA im.pix (clip im.rect r s.rect sp none mp).1 false (SrcImage.at16 toRGB (SrcImage.rgba s)) (clip im.rect r s.rect sp none mp).2.1 none (clip im.rect r s.rect sp none mp).2.2 Op.Over := by
                funext x y
                rw [drawCopyOver_apply im.pix (clip im.rect r s.rect sp none mp).1 false s.pix (clip im.rect r s.rect sp none mp).2.1 x y, drawRGBA_apply im.pix (clip im.rect r s.rect sp none mp).1 false (SrcImage.at16 toRGB (SrcImage.rgba s)) (clip im.rect r s.rect sp none mp).2.1 none (clip im.rect r s.rect sp none mp).2.2 Op.Over x y]
                refine if_congr Iff.rfl ?_ rfl
                rw [show ((clip im.rect r s.rect sp none mp).2.1.x + (x - (clip im.rect r s.rect sp none mp).1.min.x) : Int) = (clip im.rect r s.rect sp none mp).2.1.x + x - (clip im.rect r s.rect sp none mp).1.min.x from by ring,
                  show ((clip im.rect r s.rect sp none mp).2.1.y + (y - (clip im.rect r s.rect sp none mp).1.min.y) : Int) = (clip im.rect r s.rect sp none mp).2.1.y + y - (clip im.rect r s.rect sp none mp).1.min.y from by ring]
                exact blendOver_eq_rgbaPixel _ (premult_rgba_valid _ (hs ((clip im.rect r s.rect sp none mp).2.1.x + x - (clip im.rect r s.rect sp none mp).1.min.x) ((clip im.rect r s.rect sp none mp).2.1.y + y - (clip im.rect r s.rect sp none mp).1.min.y))) (im.pix x y)
              rw [hfun]
            | dstItself =>
              have h1 : DrawMask toRGB (.rgbaDst im) r (SrcImage.dstItself) sp none mp Op.Over
                  = .rgbaDst ⟨drawCopyOver im.pix (clip im.rect r im.rect sp none mp).1 true im.pix (clip im.rect r im.rect sp none mp).2.1, im.rect⟩ := by
                unfold DrawMask
                dsimp only
                split
                · next hpos => exact absurd hpos hE
                · rfl
              have h2 : DrawMaskGeneric toRGB (.rgbaDst im) r (SrcImage.dstItself) sp none mp Op.Over
                  = .rgbaDst ⟨drawRGBA im.pix (clip im.rect r im.rect sp none mp).1 true (SrcImage.at16 toRGB (SrcImage.dstItself)) (clip im.rect r im.rect sp none mp).2.1 none (clip im.rect r im.rect sp none mp).2.2 Op.Over, im.rect⟩ := by
                unfold DrawMaskGeneric
                dsimp only
                split
                · next hpos => exact absurd hpos hE
                · rfl
              rw [h1, h2]
              have hfun : drawCopyOver im.pix (clip im.rect r im.rect sp none mp).1 true im.pix (clip im.rect r im.rect sp none mp).2.1
                  = drawRGBA im.pix (clip im.rect r im.rect sp none mp).1 true (SrcImage.at16 toRGB (SrcImage.dstItself)) (clip im.rect r im.rect sp none mp).2.1 none (clip im.rect r im.rect sp none mp).2.2 Op.Over := by
                funext x y
                rw [drawCopyOver_apply im.pix (clip im.rect r im.rect sp none mp).1 true im.pix (clip im.rect r im.rect sp none mp).2.1 x y, drawRGBA_apply im.pix (clip im.rect r im.rect sp none mp).1 true (SrcImage.at16 toRGB (SrcImage.dstItself)) (clip im.rect r im.rect sp none mp).2.1 none (clip im.rect r im.rect sp none mp).2.2 Op.Over x y]
                refine if_congr Iff.rfl ?_ rfl
                rw [show ((clip im.rect r im.rect sp none mp).2.1.x + (x - (clip im.rect r im.rect sp none mp).1.min.x) : Int) = (clip im.rect r im.rect sp none mp).2.1.x + x - (clip im.rect r im.rect sp none mp).1.min.x from by ring,
                  show ((clip im.rect r im.rect sp none mp).2.1.y + (y - (clip im.rect r im.rect sp none mp).1.min.y) : Int) = (clip im.rect r im.rect sp none mp).2.1.y + y - (clip im.rect r im.rect sp none mp).1.min.y from by ring]
                exact blendOver_eq_rgbaPixel _ (premult_rgba_valid _ (hd ((clip im.rect r im.rect sp none mp).2.1.x + x - (clip im.rect r im.rect sp none mp).1.min.x) ((clip im.rect r im.rect sp none mp).2.1.y + y - (clip im.rect r im.rect sp none mp).1.min.y))) (im.pix x y)
              rw [hfun]
            | nrgba s =>
              have h1 : DrawMask toRGB (.rgbaDst im) r (SrcImage.nrgba s) sp none mp Op.Over
                  = .rgbaDst ⟨drawNRGBAOver im.pix (clip im.rect r s.rect sp none mp).1 s.pix (clip im.rect r s.rect sp none mp).2.1, im.rect⟩ := by
                unfold DrawMask
                dsimp only
                split
                · next hpos => exact absurd hpos hE
                · rfl
              have h2 : DrawMaskGeneric toRGB (.rgbaDst im) r (SrcImage.nrgba s) sp none mp Op.Over
                  = .rgbaDst ⟨drawRGBA im.pix (clip im.rect r s.rect sp none mp).1 false (SrcImage.at16 toRGB (SrcImage.nrgba s)) (clip im.rect r s.rect sp none mp).2.1 none (clip im.rect r s.rect sp none mp).2.2 Op.Over, im.rect⟩ := by
                unfold DrawMaskGeneric
                dsimp only
                split
                · next hpos => exact absurd hpos hE
                · rfl
              rw [h1, h2]
              have hfun : drawNRGBAOver im.pix (clip im.rect r s.rect sp none mp).1 s.pix (clip im.rect r s.rect sp none mp).2.1
                  = drawRGBA im.pix (clip im.rect r s.rect sp none mp).1 false (SrcImage.at16 toRGB (SrcImage.nrgba s)) (clip im.rect r s.rect sp none mp).2.1 none (clip im.rect r s.rect sp none mp).2.2 Op.Over := by
                funext x y
                rw [drawNRGBAOver_apply im.pix (clip im.rect r s.rect sp none mp).1 s.pix (clip im.rect r s.rect sp none mp).2.1 x y, drawRGBA_apply im.pix (clip im.rect r s.rect sp none mp).1 false (SrcImage.at16 toRGB (SrcImage.nrgba s)) (clip im.rect r s.rect sp none mp).2.1 none (clip im.rect r s.rect sp none mp).2.2 Op.Over x y]
                refine if_congr Iff.rfl ?_ rfl
                rw [show ((clip im.rect r s.rect sp none mp).2.1.x + (x - (clip im.rect r s.rect sp none mp).1.min.x) : Int) = (clip im.rect r s.rect sp none mp).2.1.x + x - (clip im.rect r s.rect sp none mp).1.min.x from by ring,
                  show ((clip im.rect r s.rect sp none mp).2.1.y + (y - (clip im.rect r s.rect sp none mp).1.min.y) : Int) = (clip im.rect r s.rect sp none mp).2.1.y + y - (clip im.rect r s.rect sp none mp).1.min.y from by ring]
                exact nrgbaOver_eq_rgbaPixel _ (nrgba_rgba_valid (s.pix ((clip im.rect r s.rect sp none mp).2.1.x + x - (clip im.rect r s.rect sp none mp).1.min.x) ((clip im.rect r s.rect sp none mp).2.1.y + y - (clip im.rect r s.rect sp none mp).1.min.y))).2.2.2 (im.pix x y)
              rw [hfun]
            | ycbcrSrc s =>
              have h1 : DrawMask toRGB (.rgbaDst im) r (SrcImage.ycbcrSrc s) sp none mp Op.Over
                  = .rgbaDst ⟨drawYCbCr toRGB im.pix (clip im.rect r s.rect sp none mp).1 s (clip im.rect r s.rect sp none mp).2.1, im.rect⟩ := by
                unfold DrawMask
                dsimp only
                split
                · next hpos => exact absurd hpos hE
                · rfl
              have h2 : DrawMaskGeneric toRGB (.rgbaDst im) r (SrcImage.ycbcrSrc s) sp none mp Op.Over
                  = .rgbaDst ⟨drawRGBA im.pix (clip im.rect r s.rect sp none mp).1 false (SrcImage.at16 toRGB (SrcImage.ycbcrSrc s)) (clip im.rect r s.rect sp none mp).2.1 none (clip im.rect r s.rect sp none mp).2.2 Op.Over, im.rect⟩ := by
                unfold DrawMaskGeneric
                dsimp only
                split
                · next hpos => exact absurd hpos hE
                · rfl
              rw [h1, h2]
              have hfun : drawYCbCr toRGB im.pix (clip im.rect r s.rect sp none mp).1 s (clip im.rect r s.rect sp none mp).2.1
                  = drawRGBA im.pix (clip im.rect r s.rect sp none mp).1 false (SrcImage.at16 toRGB (SrcImage.ycbcrSrc s)) (clip im.rect r s.rect sp none mp).2.1 none (clip im.rect r s.rect sp none mp).2.2 Op.Over := by
                funext x y
                rw [drawYCbCr_apply toRGB im.pix (clip im.rect r s.rect sp none mp).1 s (clip im.rect r s.rect sp none mp).2.1 x y, drawRGBA_apply im.pix (clip im.rect r s.rect sp none mp).1 false (SrcImage.at16 toRGB (SrcImage.ycbcrSrc s)) (clip im.rect r s.rect sp none mp).2.1 none (clip im.rect r s.rect sp none mp).2.2 Op.Over x y]
                refine if_congr Iff.rfl ?_ rfl
                rw [show ((clip im.rect r s.rect sp none mp).2.1.x + (x - (clip im.rect r s.rect sp none mp).1.min.x) : Int) = (clip im.rect r s.rect sp none mp).2.1.x + x - (clip im.rect r s.rect sp none mp).1.min.x from by ring,
                  show ((clip im.rect r s.rect sp none mp).2.1.y + (y - (clip im.rect r s.rect sp none mp).1.min.y) : Int) = (clip im.rect r s.rect sp none mp).2.1.y + y - (clip im.rect r s.rect sp none mp).1.min.y from by ring]
                exact ycbcr_store_eq_rgbaPixel toRGB s ((clip im.rect r s.rect sp none mp).2.1.x + x - (clip im.rect r s.rect sp none mp).1.min.x) ((clip im.rect r s.rect sp none mp).2.1.y + y - (clip im.rect r s.rect sp none mp).1.min.y) (im.pix x y) Op.Over
              rw [hfun]
            | generic bnds colorAt =>
              have h1 : DrawMask toRGB (.rgbaDst im) r (SrcImage.generic bnds colorAt) sp none mp Op.Over
                  = .rgbaDst ⟨drawRGBA im.pix (clip im.rect r bnds sp none mp).1 false (SrcImage.at16 toRGB (SrcImage.generic bnds colorAt)) (clip im.rect r bnds sp none mp).2.1 none (clip im.rect r bnds sp none mp).2.2 Op.Over, im.rect⟩ := by
                unfold DrawMask
                dsimp only
                split
                · next hpos => exact absurd hpos hE
                · rfl
              have h2 : DrawMaskGeneric toRGB (.rgbaDst im) r (SrcImage.generic bnds colorAt) sp none mp Op.Over
                  = .rgbaDst ⟨drawRGBA im.pix (clip im.rect r bnds sp none mp).1 false (SrcImage.at16 toRGB (SrcImage.generic bnds colorAt)) (clip im.rect r bnds sp none mp).2.1 none (clip im.rect r bnds sp none mp).2.2 Op.Over, im.rect⟩ := by
                unfold DrawMaskGeneric
                dsimp only
                split
                · next hpos => exact absurd hpos hE
                · rfl
              rw [h1, h2]
      | some mk =>
        cases mk with
        | alpha am =>
          cases src with
              | colorImage cc =>
                have h1 : DrawMask toRGB (.rgbaDst im) r (SrcImage.colorImage cc) sp (some (MaskImage.alpha am)) mp Op.Over
                    = .rgbaDst ⟨drawGlyphOver im.pix (clip im.rect r colorImageBounds sp (some am.rect) mp).1 cc am.pix (clip im.rect r colorImageBounds sp (some am.rect) mp).2.2, im.rect⟩ := by
                  unfold DrawMask
                  dsimp only
                  split
                  · next hpos => exact absurd hpos hE
                  · rfl
                have h2 : DrawMaskGeneric toRGB (.rgbaDst im) r (SrcImage.colorImage cc) sp (some (MaskImage.alpha am)) mp Op.Over
                    = .rgbaDst ⟨drawRGBA im.pix (clip im.rect r colorImageBounds sp (some am.rect) mp).1 false (SrcImage.at16 toRGB (SrcImage.colorImage cc)) (clip im.rect r colorImageBounds sp (some am.rect) mp).2.1 (some (MaskImage.alphaAt16 (MaskImage.alpha am))) (clip im.rect r colorImageBounds sp (some am.rect) mp).2.2 Op.Over, im.rect⟩ := by
                  unfold DrawMaskGeneric
                  dsimp only
                  split
                  · next hpos => exact absurd hpos hE
                  · rfl
                rw [h1, h2]
                have hfun : drawGlyphOver im.pix (clip im.rect r colorImageBounds sp (some am.rect) mp).1 cc am.pix (clip im.rect r colorImageBounds sp (some am.rect) mp).2.2
                    = drawRGBA im.pix (clip im.rect r colorImageBounds sp (some am.rect) mp).1 false (SrcImage.at16 toRGB (SrcImage.colorImage cc)) (clip im.rect r colorImageBounds sp (some am.rect) mp).2.1 (some (MaskImage.alphaAt16 (MaskImage.alpha am))) (clip im.rect r colorImageBounds sp (some am.rect) mp).2.2 Op.Over := by
                  funext x y
                  rw [drawGlyphOver_apply im.pix (clip im.rect r colorImageBounds sp (some am.rect) mp).1 cc am.pix (clip im.rect r colorImageBounds sp (some am.rect) mp).2.2 x y, drawRGBA_apply im.pix (clip im.rect r colorImageBounds sp (some am.rect) mp).1 false (SrcImage.at16 toRGB (SrcImage.colorImage cc)) (clip im.rect r colorImageBounds sp (some am.rect) mp).2.1 (some (MaskImage.alphaAt16 (MaskImage.alpha am))) (clip im.rect r colorImageBounds sp (some am.rect) mp).2.2 Op.Over x y]
                  refine if_congr Iff.rfl ?_ rfl
                  rw [show ((clip im.rect r colorImageBounds sp (some am.rect) mp).2.2.x + (x - (clip im.rect r colorImageBounds sp (some am.rect) mp).1.min.x) : Int) = (clip im.rect r colorImageBounds sp (some am.rect) mp).2.2.x + x - (clip im.rect r colorImageBounds sp (some am.rect) mp).1.min.x from by ring,
                    show ((clip im.rect r colorImageBounds sp (some am.rect) mp).2.2.y + (y - (clip im.rect r colorImageBounds sp (some am.rect) mp).1.min.y) : Int) = (clip im.rect r colorImageBounds sp (some am.rect) mp).2.2.y + y - (clip im.rect r colorImageBounds sp (some am.rect) mp).1.min.y from by ring]
                  exact glyphStep_eq_rgbaPixel cc ((am.pix ((clip im.rect r colorImageBounds sp (some am.rect) mp).2.2.x + x - (clip im.rect r colorImageBounds sp (some am.rect) mp).1.min.x) ((clip im.rect r colorImageBounds sp (some am.rect) mp).2.2.y + y - (clip im.rect r colorImageBounds sp (some am.rect) mp).1.min.y)).a) (im.pix x y)
                rw [hfun]
              | rgba s =>
                have h1 : DrawMask toRGB (.rgbaDst im) r (SrcImage.rgba s) sp (some (MaskImage.alpha am)) mp Op.Over
                    = .rgbaDst ⟨drawRGBA im.pix (clip im.rect r s.rect sp (some am.rect) mp).1 false (SrcImage.at16 toRGB (SrcImage.rgba s)) (clip im.rect r s.rect sp (some am.rect) mp).2.1 (some (MaskImage.alphaAt16 (MaskImage.alpha am))) (clip im.rect r s.rect sp (some am.rect) mp).2.2 Op.Over, im.rect⟩ := by
                  unfold DrawMask
                  dsimp only
                  split
                  · next hpos => exact absurd hpos hE
                  · rfl
                have h2 : DrawMaskGeneric toRGB (.rgbaDst im) r (SrcImage.rgba s) sp (some (MaskImage.alpha am)) mp Op.Over
                    = .rgbaDst ⟨drawRGBA im.pix (clip im.rect r s.rect sp (some am.rect) mp).1 false (SrcImage.at16 toRGB (SrcImage.rgba s)) (clip im.rect r s.rect sp (some am.rect) mp).2.1 (some (MaskImage.alphaAt16 (MaskImage.alpha am))) (clip im.rect r s.rect sp (some am.rect) mp).2.2 Op.Over, im.rect⟩ := by
                  unfold DrawMaskGeneric
                  dsimp only
                  split
                  · next hpos => exact absurd hpos hE
                  · rfl
                rw [h1, h2]
              | dstItself =>
                have h1 : DrawMask toRGB (.rgbaDst im) r (SrcImage.dstItself) sp (some (MaskImage.alpha am)) mp Op.Over
                    = .rgbaDst ⟨drawRGBA im.pix (clip im.rect r im.rect sp (some am.rect) mp).1 true (SrcImage.at16 toRGB (SrcImage.dstItself)) (clip im.rect r im.rect sp (some am.rect) mp).2.1 (some (MaskImage.alphaAt16 (MaskImage.alpha am))) (clip im.rect r im.rect sp (some am.rect) mp).2.2 Op.Over, im.rect⟩ := by
                  unfold DrawMask
                  dsimp only
                  split
                  · next hpos => exact absurd hpos hE
                  · rfl
                have h2 : DrawMaskGeneric toRGB (.rgbaDst im) r (SrcImage.dstItself) sp (some (MaskImage.alpha am)) mp Op.Over
                    = .rgbaDst ⟨drawRGBA im.pix (clip im.rect r im.rect sp (some am.rect) mp).1 true (SrcImage.at16 toRGB (SrcImage.dstItself)) (clip im.rect r im.rect sp (some am.rect) mp).2.1 (some (MaskImage.alphaAt16 (MaskImage.alpha am))) (clip im.rect r im.rect sp (some am.rect) mp).2.2 Op.Over, im.rect⟩ := by
                  unfold DrawMaskGeneric
                  dsimp only
                  split
                  · next hpos => exact absurd hpos hE
                  · rfl
                rw [h1, h2]
              | nrgba s =>
                have h1 : DrawMask toRGB (.rgbaDst im) r (SrcImage.nrgba s) sp (some (MaskImage.alpha am)) mp Op.Over
                    = .rgbaDst ⟨drawRGBA im.pix (clip im.rect r s.rect sp (some am.rect) mp).1 false (SrcImage.at16 toRGB (SrcImage.nrgba s)) (clip im.rect r s.rect sp (some am.rect) mp).2.1 (some (MaskImage.alphaAt16 (MaskImage.alpha am))) (clip im.rect r s.rect sp (some am.rect) mp).2.2 Op.Over, im.rect⟩ := by
                  unfold DrawMask
                  dsimp only
                  split
                  · next hpos => exact absurd hpos hE
                  · rfl
                have h2 : DrawMaskGeneric toRGB (.rgbaDst im) r (SrcImage.nrgba s) sp (some (MaskImage.alpha am)) mp Op.Over
                    = .rgbaDst ⟨drawRGBA im.pix (clip im.rect r s.rect sp (some am.rect) mp).1 false (SrcImage.at16 toRGB (SrcImage.nrgba s)) (clip im.rect r s.rect sp (some am.rect) mp).2.1 (some (MaskImage.alphaAt16 (MaskImage.alpha am))) (clip im.rect r s.rect sp (some am.rect) mp).2.2 Op.Over, im.rect⟩ := by
                  unfold DrawMaskGeneric
                  dsimp only
                  split
                  · next hpos => exact absurd hpos hE
                  · rfl
                rw [h1, h2]
              | ycbcrSrc s =>
                have h1 : DrawMask toRGB (.rgbaDst im) r (SrcImage.ycbcrSrc s) sp (some (MaskImage.alpha am)) mp Op.Over
                    = .rgbaDst ⟨drawRGBA im.pix (clip im.rect r s.rect sp (some am.rect) mp).1 false (SrcImage.at16 toRGB (SrcImage.ycbcrSrc s)) (clip im.rect r s.rect sp (some am.rect) mp).2.1 (some (MaskImage.alphaAt16 (MaskImage.alpha am))) (clip im.rect r s.rect sp (some am.rect) mp).2.2 Op.Over, im.rect⟩ := by
                  unfold DrawMask
                  dsimp only
                  split
                  · next hpos => exact absurd hpos hE
                  · rfl
                have h2 : DrawMaskGeneric toRGB (.rgbaDst im) r (SrcImage.ycbcrSrc s) sp (some (MaskImage.alpha am)) mp Op.Over
                    = .rgbaDst ⟨drawRGBA im.pix (clip im.rect r s.rect sp (some am.rect) mp).1 false (SrcImage.at16 toRGB (SrcImage.ycbcrSrc s)) (clip im.rect r s.rect sp (some am.rect) mp).2.1 (some (MaskImage.alphaAt16 (MaskImage.alpha am))) (clip im.rect r s.rect sp (some am.rect) mp).2.2 Op.Over, im.rect⟩ := by
                  unfold DrawMaskGeneric
                  dsimp only
                  split
                  · next hpos => exact absurd hpos hE
                  · rfl
                rw [h1, h2]
              | generic bnds colorAt =>
                have h1 : DrawMask toRGB (.rgbaDst im) r (SrcImage.generic bnds colorAt) sp (some (MaskImage.alpha am)) mp Op.Over
                    = .rgbaDst ⟨drawRGBA im.pix (clip im.rect r bnds sp (some am.rect) mp).1 false (SrcImage.at16 toRGB (SrcImage.generic bnds colorAt)) (clip im.rect r bnds sp (some am.rect) mp).2.1 (some (MaskImage.alphaAt16 (MaskImage.alpha am))) (clip im.rect r bnds sp (some am.rect) mp).2.2 Op.Over, im.rect⟩ := by
                  unfold DrawMask
                  dsimp only
                  split
                  · next hpos => exact absurd hpos hE
                  · rfl
                have h2 : DrawMaskGeneric toRGB (.rgbaDst im) r (SrcImage.generic bnds colorAt) sp (some (MaskImage.alpha am)) mp Op.Over
                    = .rgbaDst ⟨drawRGBA im.pix (clip im.rect r bnds sp (some am.rect) mp).1 false (SrcImage.at16 toRGB (SrcImage.generic bnds colorAt)) (clip im.rect r bnds sp (some am.rect) mp).2.1 (some (MaskImage.alphaAt16 (MaskImage.alpha am))) (clip im.rect r bnds sp (some am.rect) mp).2.2 Op.Over, im.rect⟩ := by
                  unfold DrawMaskGeneric
                  dsimp only
                  split
                  · next hpos => exact absurd hpos hE
                  · rfl
                rw [h1, h2]
        | genericMask mb mAt =>
          cases src with
              | colorImage cc =>
                have h1 : DrawMask toRGB (.rgbaDst im) r (SrcImage.colorImage cc) sp (some (MaskImage.genericMask mb mAt)) mp Op.Over
                    = .rgbaDst ⟨drawRGBA im.pix (clip im.rect r colorImageBounds sp (some mb) mp).1 false (SrcImage.at16 toRGB (SrcImage.colorImage cc)) (clip im.rect r colorImageBounds sp (some mb) mp).2.1 (some (MaskImage.alphaAt16 (MaskImage.genericMask mb mAt))) (clip im.rect r colorImageBounds sp (some mb) mp).2.2 Op.Over, im.rect⟩ := by
                  unfold DrawMask
                  dsimp only
                  split
                  · next hpos => exact absurd hpos hE
                  · rfl
                have h2 : DrawMaskGeneric toRGB (.rgbaDst im) r (SrcImage.colorImage cc) sp (some (MaskImage.genericMask mb mAt)) mp Op.Over
                    = .rgbaDst ⟨drawRGBA im.pix (clip im.rect r colorImageBounds sp (some mb) mp).1 false (SrcImage.at16 toRGB (SrcImage.colorImage cc)) (clip im.rect r colorImageBounds sp (some mb) mp).2.1 (some (MaskImage.alphaAt16 (MaskImage.genericMask mb mAt))) (clip im.rect r colorImageBounds sp (some mb) mp).2.2 Op.Over, im.rect⟩ := by
                  unfold DrawMaskGeneric
                  dsimp only
                  split
                  · next hpos => exact absurd hpos hE
                  · rfl
                rw [h1, h2]
              | rgba s =>
                have h1 : DrawMask toRGB (.rgbaDst im) r (SrcImage.rgba s) sp (some (MaskImage.genericMask mb mAt)) mp Op.Over
                    = .rgbaDst ⟨drawRGBA im.pix (clip im.rect r s.rect sp (some mb) mp).1 false (SrcImage.at16 toRGB (SrcImage.rgba s)) (clip im.rect r s.rect sp (some mb) mp).2.1 (some (MaskImage.alphaAt16 (MaskImage.genericMask mb mAt))) (clip im.rect r s.rect sp (some mb) mp).2.2 Op.Over, im.rect⟩ := by
                  unfold DrawMask
                  dsimp only
                  split
                  · next hpos => exact absurd hpos hE
                  · rfl
                have h2 : DrawMaskGeneric toRGB (.rgbaDst im) r (SrcImage.rgba s) sp (some (MaskImage.genericMask mb mAt)) mp Op.Over
                    = .rgbaDst ⟨drawRGBA im.pix (clip im.rect r s.rect sp (some mb) mp).1 false (SrcImage.at16 toRGB (SrcImage.rgba s)) (clip im.rect r s.rect sp (some mb) mp).2.1 (some (MaskImage.alphaAt16 (MaskImage.genericMask mb mAt))) (clip im.rect r s.rect sp (some mb) mp).2.2 Op.Over, im.rect⟩ := by
                  unfold DrawMaskGeneric
                  dsimp only
                  split
                  · next hpos => exact absurd hpos hE
                  · rfl
                rw [h1, h2]
              | dstItself =>
                have h1 : DrawMask toRGB (.rgbaDst im) r (SrcImage.dstItself) sp (some (MaskImage.genericMask mb mAt)) mp Op.Over
                    = .rgbaDst ⟨drawRGBA im.pix (clip im.rect r im.rect sp (some mb) mp).1 true (SrcImage.at16 toRGB (SrcImage.dstItself)) (clip im.rect r im.rect sp (some mb) mp).2.1 (some (MaskImage.alphaAt16 (MaskImage.genericMask mb mAt))) (clip im.rect r im.rect sp (some mb) mp).2.2 Op.Over, im.rect⟩ := by
                  unfold DrawMask
                  dsimp only
                  split
                  · next hpos => exact absurd hpos hE
                  · rfl
                have h2 : DrawMaskGeneric toRGB (.rgbaDst im) r (SrcImage.dstItself) sp (some (MaskImage.genericMask mb mAt)) mp Op.Over
                    = .rgbaDst ⟨drawRGBA im.pix (clip im.rect r im.rect sp (some mb) mp).1 true (SrcImage.at16 toRGB (SrcImage.dstItself)) (clip im.rect r im.rect sp (some mb) mp).2.1 (some (MaskImage.alphaAt16 (MaskImage.genericMask mb mAt))) (clip im.rect r im.rect sp (some mb) mp).2.2 Op.Over, im.rect⟩ := by
                  unfold DrawMaskGeneric
                  dsimp only
                  split
                  · next hpos => exact absurd hpos hE
                  · rfl
                rw [h1, h2]
              | nrgba s =>
                have h1 : DrawMask toRGB (.rgbaDst im) r (SrcImage.nrgba s) sp (some (MaskImage.genericMask mb mAt)) mp Op.Over
                    = .rgbaDst ⟨drawRGBA im.pix (clip im.rect r s.rect sp (some mb) mp).1 false (SrcImage.at16 toRGB (SrcImage.nrgba s)) (clip im.rect r s.rect sp (some mb) mp).2.1 (some (MaskImage.alphaAt16 (MaskImage.genericMask mb mAt))) (clip im.rect r s.rect sp (some mb) mp).2.2 Op.Over, im.rect⟩ := by
                  unfold DrawMask
                  dsimp only
                  split
                  · next hpos => exact absurd hpos hE
                  · rfl
                have h2 : DrawMaskGeneric toRGB (.rgbaDst im) r (SrcImage.nrgba s) sp (some (MaskImage.genericMask mb mAt)) mp Op.Over
                    = .rgbaDst ⟨drawRGBA im.pix (clip im.rect r s.rect sp (some mb) mp).1 false (SrcImage.at16 toRGB (SrcImage.nrgba s)) (clip im.rect r s.rect sp (some mb) mp).2.1 (some (MaskImage.alphaAt16 (MaskImage.genericMask mb mAt))) (clip im.rect r s.rect sp (some mb) mp).2.2 Op.Over, im.rect⟩ := by
                  unfold DrawMaskGeneric
                  dsimp only
                  split
                  · next hpos => exact absurd hpos hE
                  · rfl
                rw [h1, h2]
              | ycbcrSrc s =>
                have h1 : DrawMask toRGB (.rgbaDst im) r (SrcImage.ycbcrSrc s) sp (some (MaskImage.genericMask mb mAt)) mp Op.Over
                    = .rgbaDst ⟨drawRGBA im.pix (clip im.rect r s.rect sp (some mb) mp).1 false (SrcImage.at16 toRGB (SrcImage.ycbcrSrc s)) (clip im.rect r s.rect sp (some mb) mp).2.1 (some (MaskImage.alphaAt16 (MaskImage.genericMask mb mAt))) (clip im.rect r s.rect sp (some mb) mp).2.2 Op.Over, im.rect⟩ := by
                  unfold DrawMask
                  dsimp only
                  split
                  · next hpos => exact absurd hpos hE
                  · rfl
                have h2 : DrawMaskGeneric toRGB (.rgbaDst im) r (SrcImage.ycbcrSrc s) sp (some (MaskImage.genericMask mb mAt)) mp Op.Over
                    = .rgbaDst ⟨drawRGBA im.pix (clip im.rect r s.rect sp (some mb) mp).1 false (SrcImage.at16 toRGB (SrcImage.ycbcrSrc s)) (clip im.rect r s.rect sp (some mb) mp).2.1 (some (MaskImage.alphaAt16 (MaskImage.genericMask mb mAt))) (clip im.rect r s.rect sp (some mb) mp).2.2 Op.Over, im.rect⟩ := by
                  unfold DrawMaskGeneric
                  dsimp only
                  split
                  · next hpos => exact absurd hpos hE
                  · rfl
                rw [h1, h2]
              | generic bnds colorAt =>
                have h1 : DrawMask toRGB (.rgbaDst im) r (SrcImage.generic bnds colorAt) sp (some (MaskImage.genericMask mb mAt)) mp Op.Over
                    = .rgbaDst ⟨drawRGBA im.pix (clip im.rect r bnds sp (some mb) mp).1 false (SrcImage.at16 toRGB (SrcImage.generic bnds colorAt)) (clip im.rect r bnds sp (some mb) mp).2.1 (some (MaskImage.alphaAt16 (MaskImage.genericMask mb mAt))) (clip im.rect r bnds sp (some mb) mp).2.2 Op.Over, im.rect⟩ := by
                  unfold DrawMask
                  dsimp only
                  split
                  · next hpos => exact absurd hpos hE
                  · rfl
                have h2 : DrawMaskGeneric toRGB (.rgbaDst im) r (SrcImage.generic bnds colorAt) sp (some (MaskImage.genericMask mb mAt)) mp Op.Over
                    = .rgbaDst ⟨drawRGBA im.pix (clip im.rect r bnds sp (some mb) mp).1 false (SrcImage.at16 toRGB (SrcImage.generic bnds colorAt)) (clip im.rect r bnds sp (some mb) mp).2.1 (some (MaskImage.alphaAt16 (MaskImage.genericMask mb mAt))) (clip im.rect r bnds sp (some mb) mp).2.2 Op.Over, im.rect⟩ := by
                  unfold DrawMaskGeneric
                  dsimp only
                  split
                  · next hpos => exact absurd hpos hE
                  · rfl
                rw [h1, h2]
    | Src =>
      cases mask with
      | none =>
        cases src with
            | colorImage cc =>
              have h1 : DrawMask toRGB (.rgbaDst im) r (SrcImage.colorImage cc) sp none mp Op.Src
                  = .rgbaDst ⟨drawFillSrc im.pix (clip im.rect r colorImageBounds sp none mp).1 cc, im.rect⟩ := by
                unfold DrawMask
                dsimp only
                split
                · next hpos => exact absurd hpos hE
                · rfl
              have h2 : DrawMaskGeneric toRGB (.rgbaDst im) r (SrcImage.colorImage cc) sp none mp Op.Src
                  = .rgbaDst ⟨drawRGBA im.pix (clip im.rect r colorImageBounds sp none mp).1 false (SrcImage.at16 toRGB (SrcImage.colorImage cc)) (clip im.rect r colorImageBounds sp none mp).2.1 none (clip im.rect r colorImageBounds sp none mp).2.2 Op.Src, im.rect⟩ := by
                unfold DrawMaskGeneric
                dsimp only
                split
                · next hpos => exact absurd hpos hE
                · rfl
              rw [h1, h2]
              have hfun : drawFillSrc im.pix (clip im.rect r colorImageBounds sp none mp).1 cc
                  = drawRGBA im.pix (clip im.rect r colorImageBounds sp none mp).1 false (SrcImage.at16 toRGB (SrcImage.colorImage cc)) (clip im.rect r colorImageBounds sp none mp).2.1 none (clip im.rect r colorImageBounds sp none mp).2.2 Op.Src := by
                funext x y
                rw [drawFillSrc_apply im.pix (clip im.rect r colorImageBounds sp none mp).1 cc x y, drawRGBA_apply im.pix (clip im.rect r colorImageBounds sp none mp).1 false (SrcImage.at16 toRGB (SrcImage.colorImage cc)) (clip im.rect r colorImageBounds sp none mp).2.1 none (clip im.rect r colorImageBounds sp none mp).2.2 Op.Src x y]
                refine if_congr Iff.rfl ?_ rfl
                have hv : cc.valid := hs
                exact (rgbaPixel_src8 cc (le_trans hv.1 hv.2.2.2) (le_trans hv.2.1 hv.2.2.2) (le_trans hv.2.2.1 hv.2.2.2) hv.2.2.2 (im.pix x y)).symm
              rw [hfun]
            | rgba s =>
              have h1 : DrawMask toRGB (.rgbaDst im) r (SrcImage.rgba s) sp none mp Op.Src
                  = .rgbaDst ⟨drawCopySrc im.pix (clip im.rect r s.rect sp none mp).1 false s.pix (clip im.rect r s.rect sp none mp).2.1, im.rect⟩ := by
                unfold DrawMask
                dsimp only
                split
                · next hpos => exact absurd hpos hE
                · rfl
              have h2 : DrawMaskGeneric toRGB (.rgbaDst im) r (SrcImage.rgba s) sp none mp Op.Src
                  = .rgbaDst ⟨drawRGBA im.pix (clip im.rect r s.rect sp none mp).1 false (SrcImage.at16 toRGB (SrcImage.rgba s)) (clip im.rect r s.rect sp none mp).2.1 none (clip im.rect r s.rect sp none mp).2.2 Op.Src, im.rect⟩ := by
                unfold DrawMaskGeneric
                dsimp only
                split
                · next hpos => exact absurd hpos hE
                · rfl
              rw [h1, h2]
              have hfun : drawCopySrc im.pix (clip im.rect r s.rect sp none mp).1 false s.pix (clip im.rect r s.rect sp none mp).2.1
                  = drawRGBA im.pix (clip im.rect r s.rect sp none mp).1 false (SrcImage.at16 toRGB (SrcImage.rgba s)) (clip im.rect r s.rect sp none mp).2.1 none (clip im.rect r s.rect sp none mp).2.2 Op.Src := by
                funext x y
                rw [drawCopySrc_apply im.pix (clip im.rect r s.rect sp none mp).1 false s.pix (clip im.rect r s.rect sp none mp).2.1 x y, drawRGBA_apply im.pix (clip im.rect r s.rect sp none mp).1 false (SrcImage.at16 toRGB (SrcImage.rgba s)) (clip im.rect r s.rect sp none mp).2.1 none (clip im.rect r s.rect sp none mp).2.2 Op.Src x y]
                refine if_congr Iff.rfl ?_ rfl
                rw [show ((clip im.rect r s.rect sp none mp).2.1.x + (x - (clip im.rect r s.rect sp none mp).1.min.x) : Int) = (clip im.rect r s.rect sp none mp).2.1.x + x - (clip im.rect r s.rect sp none mp).1.min.x from by ring,
                  show ((clip im.rect r s.rect sp none mp).2.1.y + (y - (clip im.rect r s.rect sp none mp).1.min.y) : Int) = (clip im.rect r s.rect sp none mp).2.1.y + y - (clip im.rect r s.rect sp none mp).1.min.y from by ring]
                exact (rgbaPixel_src_self (s.pix ((clip im.rect r s.rect sp none mp).2.1.x + x - (clip im.rect r s.rect sp none mp).1.min.x) ((clip im.rect r s.rect sp none mp).2.1.y + y - (clip im.rect r s.rect sp none mp).1.min.y)) (im.pix x y)).symm
              rw [hfun]
            | dstItself =>
              have h1 : DrawMask toRGB (.rgbaDst im) r (SrcImage.dstItself) sp none mp Op.Src
                  = .rgbaDst ⟨drawCopySrc im.pix (clip im.rect r im.rect sp none mp).1 true im.pix (clip im.rect r im.rect sp none mp).2.1, im.rect⟩ := by
                unfold DrawMask
                dsimp only
                split
                · next hpos => exact absurd hpos hE
                · rfl
              have h2 : DrawMaskGeneric toRGB (.rgbaDst im) r (SrcImage.dstItself) sp none mp Op.Src
                  = .rgbaDst ⟨drawRGBA im.pix (clip im.rect r im.rect sp none mp).1 true (SrcImage.at16 toRGB (SrcImage.dstItself)) (clip im.rect r im.rect sp none mp).2.1 none (clip im.rect r im.rect sp none mp).2.2 Op.Src, im.rect⟩ := by
                unfold DrawMaskGeneric
                dsimp only
                split
                · next hpos => exact absurd hpos hE
                · rfl
              rw [h1, h2]
              have hfun : drawCopySrc im.pix (clip im.rect r im.rect sp none mp).1 true im.pix (clip im.rect r im.rect sp none mp).2.1
                  = drawRGBA im.pix (clip im.rect r im.rect sp none mp).1 true (SrcImage.at16 toRGB (SrcImage.dstItself)) (clip im.rect r im.rect sp none mp).2.1 none (clip im.rect r im.rect sp none mp).2.2 Op.Src := by
                funext x y
                rw [drawCopySrc_apply im.pix (clip im.rect r im.rect sp none mp).1 true im.pix (clip im.rect r im.rect sp none mp).2.1 x y, drawRGBA_apply im.pix (clip im.rect r im.rect sp none mp).1 true (SrcImage.at16 toRGB (SrcImage.dstItself)) (clip im.rect r im.rect sp none mp).2.1 none (clip im.rect r im.rect sp none mp).2.2 Op.Src x y]
                refine if_congr Iff.rfl ?_ rfl
                rw [show ((clip im.rect r im.rect sp none mp).2.1.x + (x - (clip im.rect r im.rect sp none mp).1.min.x) : Int) = (clip im.rect r im.rect sp none mp).2.1.x + x - (clip im.rect r im.rect sp none mp).1.min.x from by ring,
                  show ((clip im.rect r im.rect sp none mp).2.1.y + (y - (clip im.rect r im.rect sp none mp).1.min.y) : Int) = (clip im.rect r im.rect sp none mp).2.1.y + y - (clip im.rect r im.rect sp none mp).1.min.y from by ring]
                exact (rgbaPixel_src_self (im.pix ((clip im.rect r im.rect sp none mp).2.1.x + x - (clip im.rect r im.rect sp none mp).1.min.x) ((clip im.rect r im.rect sp none mp).2.1.y + y - (clip im.rect r im.rect sp none mp).1.min.y)) (im.pix x y)).symm
              rw [hfun]
            | nrgba s =>
              have h1 : DrawMask toRGB (.rgbaDst im) r (SrcImage.nrgba s) sp none mp Op.Src
                  = .rgbaDst ⟨drawNRGBASrc im.pix (clip im.rect r s.rect sp none mp).1 s.pix (clip im.rect r s.rect sp none mp).2.1, im.rect⟩ := by
                unfold DrawMask
                dsimp only
                split
                · next hpos => exact absurd hpos hE
                · rfl
              have h2 : DrawMaskGeneric toRGB (.rgbaDst im) r (SrcImage.nrgba s) sp none mp Op.Src
                  = .rgbaDst ⟨drawRGBA im.pix (clip im.rect r s.rect sp none mp).1 false (SrcImage.at16 toRGB (SrcImage.nrgba s)) (clip im.rect r s.rect sp none mp).2.1 none (clip im.rect r s.rect sp none mp).2.2 Op.Src, im.rect⟩ := by
                unfold DrawMaskGeneric
                dsimp only
                split
                · next hpos => exact absurd hpos hE
                · rfl
              rw [h1, h2]
              have hfun : drawNRGBASrc im.pix (clip im.rect r s.rect sp none mp).1 s.pix (clip im.rect r s.rect sp none mp).2.1
                  = drawRGBA im.pix (clip im.rect r s.rect sp none mp).1 false (SrcImage.at16 toRGB (SrcImage.nrgba s)) (clip im.rect r s.rect sp none mp).2.1 none (clip im.rect r s.rect sp none mp).2.2 Op.Src := by
                funext x y
                rw [drawNRGBASrc_apply im.pix (clip im.rect r s.rect sp none mp).1 s.pix (clip im.rect r s.rect sp none mp).2.1 x y, drawRGBA_apply im.pix (clip im.rect r s.rect sp none mp).1 false (SrcImage.at16 toRGB (SrcImage.nrgba s)) (clip im.rect r s.rect sp none mp).2.1 none (clip im.rect r s.rect sp none mp).2.2 Op.Src x y]
                refine if_congr Iff.rfl ?_ rfl
                rw [show ((clip im.rect r s.rect sp none mp).2.1.x + (x - (clip im.rect r s.rect sp none mp).1.min.x) : Int) = (clip im.rect r s.rect sp none mp).2.1.x + x - (clip im.rect r s.rect sp none mp).1.min.x from by ring,
                  show ((clip im.rect r s.rect sp none mp).2.1.y + (y - (clip im.rect r s.rect sp none mp).1.min.y) : Int) = (clip im.rect r s.rect sp none mp).2.1.y + y - (clip im.rect r s.rect sp none mp).1.min.y from by ring]
                have hv := nrgba_rgba_valid (s.pix ((clip im.rect r s.rect sp none mp).2.1.x + x - (clip im.rect r s.rect sp none mp).1.min.x) ((clip im.rect r s.rect sp none mp).2.1.y + y - (clip im.rect r s.rect sp none mp).1.min.y))
                exact (rgbaPixel_src8 ((s.pix ((clip im.rect r s.rect sp none mp).2.1.x + x - (clip im.rect r s.rect sp none mp).1.min.x) ((clip im.rect r s.rect sp none mp).2.1.y + y - (clip im.rect r s.rect sp none mp).1.min.y)).rgba) (le_trans hv.1 hv.2.2.2) (le_trans hv.2.1 hv.2.2.2) (le_trans hv.2.2.1 hv.2.2.2) hv.2.2.2 (im.pix x y)).symm
              rw [hfun]
            | ycbcrSrc s =>
              have h1 : DrawMask toRGB (.rgbaDst im) r (SrcImage.ycbcrSrc s) sp none mp Op.Src
                  = .rgbaDst ⟨drawYCbCr toRGB im.pix (clip im.rect r s.rect sp none mp).1 s (clip im.rect r s.rect sp none mp).2.1, im.rect⟩ := by
                unfold DrawMask
                dsimp only
                split
                · next hpos => exact absurd hpos hE
                · rfl
              have h2 : DrawMaskGeneric toRGB (.rgbaDst im) r (SrcImage.ycbcrSrc s) sp none mp Op.Src
                  = .rgbaDst ⟨drawRGBA im.pix (clip im.rect r s.rect sp none mp).1 false (SrcImage.at16 toRGB (SrcImage.ycbcrSrc s)) (clip im.rect r s.rect sp none mp).2.1 none (clip im.rect r s.rect sp none mp).2.2 Op.Src, im.rect⟩ := by
                unfold DrawMaskGeneric
                dsimp only
                split
                · next hpos => exact absurd hpos hE
                · rfl
              rw [h1, h2]
              have hfun : drawYCbCr toRGB im.pix (clip im.rect r s.rect sp none mp).1 s (clip im.rect r s.rect sp none mp).2.1
                  = drawRGBA im.pix (clip im.rect r s.rect sp none mp).1 false (SrcImage.at16 toRGB (SrcImage.ycbcrSrc s)) (clip im.rect r s.rect sp none mp).2.1 none (clip im.rect r s.rect sp none mp).2.2 Op.Src := by
                funext x y
                rw [drawYCbCr_apply toRGB im.pix (clip im.rect r s.rect sp none mp).1 s (clip im.rect r s.rect sp none mp).2.1 x y, drawRGBA_apply im.pix (clip im.rect r s.rect sp none mp).1 false (SrcImage.at16 toRGB (SrcImage.ycbcrSrc s)) (clip im.rect r s.rect sp none mp).2.1 none (clip im.rect r s.rect sp none mp).2.2 Op.Src x y]
                refine if_congr Iff.rfl ?_ rfl
                rw [show ((clip im.rect r s.rect sp none mp).2.1.x + (x - (clip im.rect r s.rect sp none mp).1.min.x) : Int) = (clip im.rect r s.rect sp none mp).2.1.x + x - (clip im.rect r s.rect sp none mp).1.min.x from by ring,
                  show ((clip im.rect r s.rect sp none mp).2.1.y + (y - (clip im.rect r s.rect sp none mp).1.min.y) : Int) = (clip im.rect r s.rect sp none mp).2.1.y + y - (clip im.rect r s.rect sp none mp).1.min.y from by ring]
                exact ycbcr_store_eq_rgbaPixel toRGB s ((clip im.rect r s.rect sp none mp).2.1.x + x - (clip im.rect r s.rect sp none mp).1.min.x) ((clip im.rect r s.rect sp none mp).2.1.y + y - (clip im.rect r s.rect sp none mp).1.min.y) (im.pix x y) Op.Src
              rw [hfun]
            | generic bnds colorAt =>
              have h1 : DrawMask toRGB (.rgbaDst im) r (SrcImage.generic bnds colorAt) sp none mp Op.Src
                  = .rgbaDst ⟨drawRGBA im.pix (clip im.rect r bnds sp none mp).1 false (SrcImage.at16 toRGB (SrcImage.generic bnds colorAt)) (clip im.rect r bnds sp none mp).2.1 none (clip im.rect r bnds sp none mp).2.2 Op.Src, im.rect⟩ := by
                unfold DrawMask
                dsimp only
                split
                · next hpos => exact absurd hpos hE
                · rfl
              have h2 : DrawMaskGeneric toRGB (.rgbaDst im) r (SrcImage.generic bnds colorAt) sp none mp Op.Src
                  = .rgbaDst ⟨drawRGBA im.pix (clip im.rect r bnds sp none mp).1 false (SrcImage.at16 toRGB (SrcImage.generic bnds colorAt)) (clip im.rect r bnds sp none mp).2.1 none (clip im.rect r bnds sp none mp).2.2 Op.Src, im.rect⟩ := by
                unfold DrawMaskGeneric
                dsimp only
                split
                · next hpos => exact absurd hpos hE
                · rfl
              rw [h1, h2]
      | some mk =>
        cases mk with
        | alpha am =>
          cases src with
              | colorImage cc =>
                have h1 : DrawMask toRGB (.rgbaDst im) r (SrcImage.colorImage cc) sp (some (MaskImage.alpha am)) mp Op.Src
                    = .rgbaDst ⟨drawRGBA im.pix (clip im.rect r colorImageBounds sp (some am.rect) mp).1 false (SrcImage.at16 toRGB (SrcImage.colorImage cc)) (clip im.rect r colorImageBounds sp (some am.rect) mp).2.1 (some (MaskImage.alphaAt16 (MaskImage.alpha am))) (clip im.rect r colorImageBounds sp (some am.rect) mp).2.2 Op.Src, im.rect⟩ := by
                  unfold DrawMask
                  dsimp only
                  split
                  · next hpos => exact absurd hpos hE
                  · rfl
                have h2 : DrawMaskGeneric toRGB (.rgbaDst im) r (SrcImage.colorImage cc) sp (some (MaskImage.alpha am)) mp Op.Src
                    = .rgbaDst ⟨drawRGBA im.pix (clip im.rect r colorImageBounds sp (some am.rect) mp).1 false (SrcImage.at16 toRGB (SrcImage.colorImage cc)) (clip im.rect r colorImageBounds sp (some am.rect) mp).2.1 (some (MaskImage.alphaAt16 (MaskImage.alpha am))) (clip im.rect r colorImageBounds sp (some am.rect) mp).2.2 Op.Src, im.rect⟩ := by
                  unfold DrawMaskGeneric
                  dsimp only
                  split
                  · next hpos => exact absurd hpos hE
                  · rfl
                rw [h1, h2]
              | rgba s =>
                have h1 : DrawMask toRGB (.rgbaDst im) r (SrcImage.rgba s) sp (some (MaskImage.alpha am)) mp Op.Src
                    = .rgbaDst ⟨drawRGBA im.pix (clip im.rect r s.rect sp (some am.rect) mp).1 false (SrcImage.at16 toRGB (SrcImage.rgba s)) (clip im.rect r s.rect sp (some am.rect) mp).2.1 (some (MaskImage.alphaAt16 (MaskImage.alpha am))) (clip im.rect r s.rect sp (some am.rect) mp).2.2 Op.Src, im.rect⟩ := by
                  unfold DrawMask
                  dsimp only
                  split
                  · next hpos => exact absurd hpos hE
                  · rfl
                have h2 : DrawMaskGeneric toRGB (.rgbaDst im) r (SrcImage.rgba s) sp (some (MaskImage.alpha am)) mp Op.Src
                    = .rgbaDst ⟨drawRGBA im.pix (clip im.rect r s.rect sp (some am.rect) mp).1 false (SrcImage.at16 toRGB (SrcImage.rgba s)) (clip im.rect r s.rect sp (some am.rect) mp).2.1 (some (MaskImage.alphaAt16 (MaskImage.alpha am))) (clip im.rect r s.rect sp (some am.rect) mp).2.2 Op.Src, im.rect⟩ := by
                  unfold DrawMaskGeneric
                  dsimp only
                  split
                  · next hpos => exact absurd hpos hE
                  · rfl
                rw [h1, h2]
              | dstItself =>
                have h1 : DrawMask toRGB (.rgbaDst im) r (SrcImage.dstItself) sp (some (MaskImage.alpha am)) mp Op.Src
                    = .rgbaDst ⟨drawRGBA im.pix (clip im.rect r im.rect sp (some am.rect) mp).1 true (SrcImage.at16 toRGB (SrcImage.dstItself)) (clip im.rect r im.rect sp (some am.rect) mp).2.1 (some (MaskImage.alphaAt16 (MaskImage.alpha am))) (clip im.rect r im.rect sp (some am.rect) mp).2.2 Op.Src, im.rect⟩ := by
                  unfold DrawMask
                  dsimp only
                  split
                  · next hpos => exact absurd hpos hE
                  · rfl
                have h2 : DrawMaskGeneric toRGB (.rgbaDst im) r (SrcImage.dstItself) sp (some (MaskImage.alpha am)) mp Op.Src
                    = .rgbaDst ⟨drawRGBA im.pix (clip im.rect r im.rect sp (some am.rect) mp).1 true (SrcImage.at16 toRGB (SrcImage.dstItself)) (clip im.rect r im.rect sp (some am.rect) mp).2.1 (some (MaskImage.alphaAt16 (MaskImage.alpha am))) (clip im.rect r im.rect sp (some am.rect) mp).2.2 Op.Src, im.rect⟩ := by
                  unfold DrawMaskGeneric
                  dsimp only
                  split
                  · next hpos => exact absurd hpos hE
                  · rfl
                rw [h1, h2]
              | nrgba s =>
                have h1 : DrawMask toRGB (.rgbaDst im) r (SrcImage.nrgba s) sp (some (MaskImage.alpha am)) mp Op.Src
                    = .rgbaDst ⟨drawRGBA im.pix (clip im.rect r s.rect sp (some am.rect) mp).1 false (SrcImage.at16 toRGB (SrcImage.nrgba s)) (clip im.rect r s.rect sp (some am.rect) mp).2.1 (some (MaskImage.alphaAt16 (MaskImage.alpha am))) (clip im.rect r s.rect sp (some am.rect) mp).2.2 Op.Src, im.rect⟩ := by
                  unfold DrawMask
                  dsimp only
                  split
                  · next hpos => exact absurd hpos hE
                  · rfl
                have h2 : DrawMaskGeneric toRGB (.rgbaDst im) r (SrcImage.nrgba s) sp (some (MaskImage.alpha am)) mp Op.Src
                    = .rgbaDst ⟨drawRGBA im.pix (clip im.rect r s.rect sp (some am.rect) mp).1 false (SrcImage.at16 toRGB (SrcImage.nrgba s)) (clip im.rect r s.rect sp (some am.rect) mp).2.1 (some (MaskImage.alphaAt16 (MaskImage.alpha am))) (clip im.rect r s.rect sp (some am.rect) mp).2.2 Op.Src, im.rect⟩ := by
                  unfold DrawMaskGeneric
                  dsimp only
                  split
                  · next hpos => exact absurd hpos hE
                  · rfl
                rw [h1, h2]
              | ycbcrSrc s =>
                have h1 : DrawMask toRGB (.rgbaDst im) r (SrcImage.ycbcrSrc s) sp (some (MaskImage.alpha am)) mp Op.Src
                    = .rgbaDst ⟨drawRGBA im.pix (clip im.rect r s.rect sp (some am.rect) mp).1 false (SrcImage.at16 toRGB (SrcImage.ycbcrSrc s)) (clip im.rect r s.rect sp (some am.rect) mp).2.1 (some (MaskImage.alphaAt16 (MaskImage.alpha am))) (clip im.rect r s.rect sp (some am.rect) mp).2.2 Op.Src, im.rect⟩ := by
                  unfold DrawMask
                  dsimp only
                  split
                  · next hpos => exact absurd hpos hE
                  · rfl
                have h2 : DrawMaskGeneric toRGB (.rgbaDst im) r (SrcImage.ycbcrSrc s) sp (some (MaskImage.alpha am)) mp Op.Src
                    = .rgbaDst ⟨drawRGBA im.pix (clip im.rect r s.rect sp (some am.rect) mp).1 false (SrcImage.at16 toRGB (SrcImage.ycbcrSrc s)) (clip im.rect r s.rect sp (some am.rect) mp).2.1 (some (MaskImage.alphaAt16 (MaskImage.alpha am))) (clip im.rect r s.rect sp (some am.rect) mp).2.2 Op.Src, im.rect⟩ := by
                  unfold DrawMaskGeneric
                  dsimp only
                  split
                  · next hpos => exact absurd hpos hE
                  · rfl
                rw [h1, h2]
              | generic bnds colorAt =>
                have h1 : DrawMask toRGB (.rgbaDst im) r (SrcImage.generic bnds colorAt) sp (some (MaskImage.alpha am)) mp Op.Src
                    = .rgbaDst ⟨drawRGBA im.pix (clip im.rect r bnds sp (some am.rect) mp).1 false (SrcImage.at16 toRGB (SrcImage.generic bnds colorAt)) (clip im.rect r bnds sp (some am.rect) mp).2.1 (some (MaskImage.alphaAt16 (MaskImage.alpha am))) (clip im.rect r bnds sp (some am.rect) mp).2.2 Op.Src, im.rect⟩ := by
                  unfold DrawMask
                  dsimp only
                  split
                  · next hpos => exact absurd hpos hE
                  · rfl
                have h2 : DrawMaskGeneric toRGB (.rgbaDst im) r (SrcImage.generic bnds colorAt) sp (some (MaskImage.alpha am)) mp Op.Src
                    = .rgbaDst ⟨drawRGBA im.pix (clip im.rect r bnds sp (some am.rect) mp).1 false (SrcImage.at16 toRGB (SrcImage.generic bnds colorAt)) (clip im.rect r bnds sp (some am.rect) mp).2.1 (some (MaskImage.alphaAt16 (MaskImage.alpha am))) (clip im.rect r bnds sp (some am.rect) mp).2.2 Op.Src, im.rect⟩ := by
                  unfold DrawMaskGeneric
                  dsimp only
                  split
                  · next hpos => exact absurd hpos hE
                  · rfl
                rw [h1, h2]
        | genericMask mb mAt =>
          cases src with
              | colorImage cc =>
                have h1 : DrawMask toRGB (.rgbaDst im) r (SrcImage.colorImage cc) sp (some (MaskImage.genericMask mb mAt)) mp Op.Src
                    = .rgbaDst ⟨drawRGBA im.pix (clip im.rect r colorImageBounds sp (some mb) mp).1 false (SrcImage.at16 toRGB (SrcImage.colorImage cc)) (clip im.rect r colorImageBounds sp (some mb) mp).2.1 (some (MaskImage.alphaAt16 (MaskImage.genericMask mb mAt))) (clip im.rect r colorImageBounds sp (some mb) mp).2.2 Op.Src, im.rect⟩ := by
                  unfold DrawMask
                  dsimp only
                  split
                  · next hpos => exact absurd hpos hE
                  · rfl
                have h2 : DrawMaskGeneric toRGB (.rgbaDst im) r (SrcImage.colorImage cc) sp (some (MaskImage.genericMask mb mAt)) mp Op.Src
                    = .rgbaDst ⟨drawRGBA im.pix (clip im.rect r colorImageBounds sp (some mb) mp).1 false (SrcImage.at16 toRGB (SrcImage.colorImage cc)) (clip im.rect r colorImageBounds sp (some mb) mp).2.1 (some (MaskImage.alphaAt16 (MaskImage.genericMask mb mAt))) (clip im.rect r colorImageBounds sp (some mb) mp).2.2 Op.Src, im.rect⟩ := by
                  unfold DrawMaskGeneric
                  dsimp only
                  split
                  · next hpos => exact absurd hpos hE
                  · rfl
                rw [h1, h2]
              | rgba s =>
                have h1 : DrawMask toRGB (.rgbaDst im) r (SrcImage.rgba s) sp (some (MaskImage.genericMask mb mAt)) mp Op.Src
                    = .rgbaDst ⟨drawRGBA im.pix (clip im.rect r s.rect sp (some mb) mp).1 false (SrcImage.at16 toRGB (SrcImage.rgba s)) (clip im.rect r s.rect sp (some mb) mp).2.1 (some (MaskImage.alphaAt16 (MaskImage.genericMask mb mAt))) (clip im.rect r s.rect sp (some mb) mp).2.2 Op.Src, im.rect⟩ := by
                  unfold DrawMask
                  dsimp only
                  split
                  · next hpos => exact absurd hpos hE
                  · rfl
                have h2 : DrawMaskGeneric toRGB (.rgbaDst im) r (SrcImage.rgba s) sp (some (MaskImage.genericMask mb mAt)) mp Op.Src
                    = .rgbaDst ⟨drawRGBA im.pix (clip im.rect r s.rect sp (some mb) mp).1 false (SrcImage.at16 toRGB (SrcImage.rgba s)) (clip im.rect r s.rect sp (some mb) mp).2.1 (some (MaskImage.alphaAt16 (MaskImage.genericMask mb mAt))) (clip im.rect r s.rect sp (some mb) mp).2.2 Op.Src, im.rect⟩ := by
                  unfold DrawMaskGeneric
                  dsimp only
                  split
                  · next hpos => exact absurd hpos hE
                  · rfl
                rw [h1, h2]
              | dstItself =>
                have h1 : DrawMask toRGB (.rgbaDst im) r (SrcImage.dstItself) sp (some (MaskImage.genericMask mb mAt)) mp Op.Src
                    = .rgbaDst ⟨drawRGBA im.pix (clip im.rect r im.rect sp (some mb) mp).1 true (SrcImage.at16 toRGB (SrcImage.dstItself)) (clip im.rect r im.rect sp (some mb) mp).2.1 (some (MaskImage.alphaAt16 (MaskImage.genericMask mb mAt))) (clip im.rect r im.rect sp (some mb) mp).2.2 Op.Src, im.rect⟩ := by
                  unfold DrawMask
                  dsimp only
                  split
                  · next hpos => exact absurd hpos hE
                  · rfl
                have h2 : DrawMaskGeneric toRGB (.rgbaDst im) r (SrcImage.dstItself) sp (some (MaskImage.genericMask mb mAt)) mp Op.Src
                    = .rgbaDst ⟨drawRGBA im.pix (clip im.rect r im.rect sp (some mb) mp).1 true (SrcImage.at16 toRGB (SrcImage.dstItself)) (clip im.rect r im.rect sp (some mb) mp).2.1 (some (MaskImage.alphaAt16 (MaskImage.genericMask mb mAt))) (clip im.rect r im.rect sp (some mb) mp).2.2 Op.Src, im.rect⟩ := by
                  unfold DrawMaskGeneric
                  dsimp only
                  split
                  · next hpos => exact absurd hpos hE
                  · rfl
                rw [h1, h2]
              | nrgba s =>
                have h1 : DrawMask toRGB (.rgbaDst im) r (SrcImage.nrgba s) sp (some (MaskImage.genericMask mb mAt)) mp Op.Src
                    = .rgbaDst ⟨drawRGBA im.pix (clip im.rect r s.rect sp (some mb) mp).1 false (SrcImage.at16 toRGB (SrcImage.nrgba s)) (clip im.rect r s.rect sp (some mb) mp).2.1 (some (MaskImage.alphaAt16 (MaskImage.genericMask mb mAt))) (clip im.rect r s.rect sp (some mb) mp).2.2 Op.Src, im.rect⟩ := by
                  unfold DrawMask
                  dsimp only
                  split
                  · next hpos => exact absurd hpos hE
                  · rfl
                have h2 : DrawMaskGeneric toRGB (.rgbaDst im) r (SrcImage.nrgba s) sp (some (MaskImage.genericMask mb mAt)) mp Op.Src
                    = .rgbaDst ⟨drawRGBA im.pix (clip im.rect r s.rect sp (some mb) mp).1 false (SrcImage.at16 toRGB (SrcImage.nrgba s)) (clip im.rect r s.rect sp (some mb) mp).2.1 (some (MaskImage.alphaAt16 (MaskImage.genericMask mb mAt))) (clip im.rect r s.rect sp (some mb) mp).2.2 Op.Src, im.rect⟩ := by
                  unfold DrawMaskGeneric
                  dsimp only
                  split
                  · next hpos => exact absurd hpos hE
                  · rfl
                rw [h1, h2]
              | ycbcrSrc s =>
                have h1 : DrawMask toRGB (.rgbaDst im) r (SrcImage.ycbcrSrc s) sp (some (MaskImage.genericMask mb mAt)) mp Op.Src
                    = .rgbaDst ⟨drawRGBA im.pix (clip im.rect r s.rect sp (some mb) mp).1 false (SrcImage.at16 toRGB (SrcImage.ycbcrSrc s)) (clip im.rect r s.rect sp (some mb) mp).2.1 (some (MaskImage.alphaAt16 (MaskImage.genericMask mb mAt))) (clip im.rect r s.rect sp (some mb) mp).2.2 Op.Src, im.rect⟩ := by
                  unfold DrawMask
                  dsimp only
                  split
                  · next hpos => exact absurd hpos hE
                  · rfl
                have h2 : DrawMaskGeneric toRGB (.rgbaDst im) r (SrcImage.ycbcrSrc s) sp (some (MaskImage.genericMask mb mAt)) mp Op.Src
                    = .rgbaDst ⟨drawRGBA im.pix (clip im.rect r s.rect sp (some mb) mp).1 false (SrcImage.at16 toRGB (SrcImage.ycbcrSrc s)) (clip im.rect r s.rect sp (some mb) mp).2.1 (some (MaskImage.alphaAt16 (MaskImage.genericMask mb mAt))) (clip im.rect r s.rect sp (some mb) mp).2.2 Op.Src, im.rect⟩ := by
                  unfold DrawMaskGeneric
                  dsimp only
                  split
                  · next hpos => exact absurd hpos hE
                  · rfl
                rw [h1, h2]
              | generic bnds colorAt =>
                have h1 : DrawMask toRGB (.rgbaDst im) r (SrcImage.generic bnds colorAt) sp (some (MaskImage.genericMask mb mAt)) mp Op.Src
                    = .rgbaDst ⟨drawRGBA im.pix (clip im.rect r bnds sp (some mb) mp).1 false (SrcImage.at16 toRGB (SrcImage.generic bnds colorAt)) (clip im.rect r bnds sp (some mb) mp).2.1 (some (MaskImage.alphaAt16 (MaskImage.genericMask mb mAt))) (clip im.rect r bnds sp (some mb) mp).2.2 Op.Src, im.rect⟩ := by
                  unfold DrawMask
                  dsimp only
                  split
                  · next hpos => exact absurd hpos hE
                  · rfl
                have h2 : DrawMaskGeneric toRGB (.rgbaDst im) r (SrcImage.generic bnds colorAt) sp (some (MaskImage.genericMask mb mAt)) mp Op.Src
                    = .rgbaDst ⟨drawRGBA im.pix (clip im.rect r bnds sp (some mb) mp).1 false (SrcImage.at16 toRGB (SrcImage.generic bnds colorAt)) (clip im.rect r bnds sp (some mb) mp).2.1 (some (MaskImage.alphaAt16 (MaskImage.genericMask mb mAt))) (clip im.rect r bnds sp (some mb) mp).2.2 Op.Src, im.rect⟩ := by
                  unfold DrawMaskGeneric
                  dsimp only
                  split
                  · next hpos => exact absurd hpos hE
                  · rfl
                rw [h1, h2]

/-- C4 witness: a transparent solid fill over a transparent 1×1
destination goes through the drawFillOver fast path and the generic
loop identically. -/
theorem claim_C4_witness :
    DrawMask (fun a b c => (a, b, c))
        (.rgbaDst ⟨fun _ _ => ⟨0, 0, 0, 0⟩, ⟨⟨0, 0⟩, ⟨1, 1⟩⟩⟩) ⟨⟨0, 0⟩, ⟨1, 1⟩⟩
        (.colorImage ⟨0, 0, 0, 0⟩) ZP none ZP Op.Over
      = DrawMaskGeneric (fun a b c => (a, b, c))
          (.rgbaDst ⟨fun _ _ => ⟨0, 0, 0, 0⟩, ⟨⟨0, 0⟩, ⟨1, 1⟩⟩⟩) ⟨⟨0, 0⟩, ⟨1, 1⟩⟩
          (.colorImage ⟨0, 0, 0, 0⟩) ZP none ZP Op.Over :=
  claim_C4_fastpath_refinement (fun a b c => (a, b, c))
    ⟨fun _ _ => ⟨0, 0, 0, 0⟩, ⟨⟨0, 0⟩, ⟨1, 1⟩⟩⟩ ⟨⟨0, 0⟩, ⟨1, 1⟩⟩
    (.colorImage ⟨0, 0, 0, 0⟩) ZP none ZP Op.Over
    (fun _ _ => (by decide : (RGBAColor.mk 0 0 0 0).premult))
    (show (Color16.mk 0 0 0 0).valid by decide)

/-- C2 witness: full coverage (nil mask), Over, a premultiplied source
over a transparent pixel stores the source narrowed through the exact
formula. -/
theorem claim_C2_witness :
    ((none : Option (Int → Int → Nat)) = none →
      maskAlphaOr (none : Option (Int → Int → Nat)) 0 0 = m)
    ∧ drawGeneric (fun _ _ => ⟨0, 0, 0, 0⟩) ⟨⟨0, 0⟩, ⟨1, 1⟩⟩ false
        (fun _ _ => ⟨5, 5, 5, 9⟩) ⟨0, 0⟩ none ⟨0, 0⟩ Op.Over 0 0 = ⟨5, 5, 5, 9⟩ :=
  claim_C2_generic_pixel (fun _ _ => ⟨0, 0, 0, 0⟩) ⟨⟨0, 0⟩, ⟨1, 1⟩⟩
    (fun _ _ => ⟨5, 5, 5, 9⟩) ⟨0, 0⟩ none ⟨0, 0⟩ Op.Over 0 0
    (by decide) (by decide) (by decide) (by decide)

end draw
